import Mathlib

/-!
# Arena Battle game server (`src/server.js`): game state, combat tick, round control

A shallow embedding of the authoritative game state of one room and of the
functions that change it: `isOccupied`, `dist`, `isAdj`, `gameTick`,
`startRound`, `endRound` and the handlers of the `connection` callback
(`CREATE_ROOM`, `JOIN_ROOM`, `SPAWN`, `PING`, `close`).

Modelling conventions.

* `round`, the star counts, the ids and `timeLeft` are `Int` or `Nat`; all values
  are taken in the range where doubles are exact.
* `row` and `col` come from the SPAWN message and are never checked to be integers.
  In the first part of the file they are `Int`: that part is the code on messages
  whose `row` and `col` are integers.  The section on the values a message can
  carry has the same functions with `row` and `col` of type `Untyped.JSVal`
  (a missing key, null, a boolean, a number with a fraction, a string), and the
  properties that depend on what `row` and `col` are get settled there.
* `hp`, `maxHp` and `dmg` are `Option Int`: `none` stands for a value that is
  not a number (`undefined` or `NaN`).  Such a value arises when `UNITS[typeId]`
  finds a property inherited from `Object.prototype` instead of a catalog entry.
* Unit objects are shared between `state.units` and the `snapshot` array of
  `gameTick`, and are mutated in place.  During a tick every object of the
  snapshot is a `Slot` carrying its object identity `ref`, its current field
  values and whether it is still an element of `state.units`.
* Sending is modelled by returning the list of effects in the order the code
  performs them.
* The server as a whole is a `World`: the room objects, the Map `rooms`, the
  connections.  Time is left out: an interval that is running and a timeout that
  is pending may fire at any moment, so that every real run is a run of the model;
  the runs used as examples are given with the times at which they really happen.
-/

namespace ArenaBattle

/-! ## Data model -/

/-- Player role, also the team of a unit: the strings 'p1' and 'p2'. -/
inductive Team where
  | p1
  | p2
deriving DecidableEq, Repr

/-- JavaScript number held in `hp`, `maxHp`, `dmg`; `none` is `undefined` or `NaN`. -/
abbrev JSNum := Option Int

/-- Entry found by the lookup `UNITS[typeId]`, with its `hp` and `dmg` properties. -/
structure UnitDef where
  hp : JSNum
  dmg : JSNum
deriving DecidableEq, Repr

/-- Property names every object literal inherits from `Object.prototype`; the
lookup `UNITS[typeId]` yields a truthy function or object for each of them, and
that value has no `hp` and no `dmg` property. -/
def objectPrototypeKeys : List String :=
  ["constructor", "toString", "toLocaleString", "valueOf", "hasOwnProperty",
   "isPrototypeOf", "propertyIsEnumerable", "__proto__", "__defineGetter__",
   "__defineSetter__", "__lookupGetter__", "__lookupSetter__"]

/-- The five archetypes written in the object literal `UNITS` (lines 48-54). -/
def catalog : List (String × Int × Int) :=
  [("soldier", 80, 15), ("knight", 150, 22), ("archer", 55, 28),
   ("mage", 45, 38), ("tank", 220, 12)]

/-- The lookup `UNITS[typeId]` of the SPAWN handler; `none` is a falsy result. -/
def UNITS (typeId : String) : Option UnitDef :=
  match catalog.find? (fun e => e.1 == typeId) with
  | some e => some ⟨some e.2.1, some e.2.2⟩
  | none => if objectPrototypeKeys.contains typeId then some ⟨none, none⟩ else none

def ROWS : Int := 10

def COLS : Int := 10

/-- A unit object as built by the SPAWN handler (lines 272-278). -/
structure GameUnit where
  id : Nat
  typeId : String
  row : Int
  col : Int
  hp : JSNum
  maxHp : JSNum
  dmg : JSNum
  team : Team
deriving DecidableEq, Repr

/-- The object returned by `initGameState` and mutated afterwards. -/
structure GameState where
  round : Nat
  maxRounds : Nat
  timeLeft : Int
  p1Stars : Nat
  p2Stars : Nat
  units : List GameUnit
  nextId : Nat
  roundActive : Bool
deriving DecidableEq, Repr

def initGameState : GameState :=
  { round := 1, maxRounds := 3, timeLeft := 20, p1Stars := 0, p2Stars := 0,
    units := [], nextId := 0, roundActive := false }

/-- Element of the `events` array of a tick. -/
inductive Event where
  | attack (attackerId targetId : Nat) (newHp dmg : JSNum)
  | death (unitId : Nat)
  | move (unitId : Nat) (row col : Int)
deriving DecidableEq, Repr

/-- A unit as sent to clients by `serializeUnits` and in `UNIT_SPAWNED`: no `dmg`. -/
structure UnitView where
  id : Nat
  typeId : String
  row : Int
  col : Int
  hp : JSNum
  maxHp : JSNum
  team : Team
deriving DecidableEq, Repr

/-- Messages the game core sends. -/
inductive Msg where
  | TICK (units : List UnitView) (events : List Event) (timeLeft : Int)
  | ROUND_START (round : Nat) (timeLeft : Int) (p1Stars p2Stars : Nat)
  | TIMER (timeLeft : Int)
  | ROUND_END (round : Nat) (winner : Option Team) (p1Count p2Count p1Stars p2Stars : Nat)
  | GAME_OVER (p1Stars p2Stars : Nat)
  | UNIT_SPAWNED (unit : UnitView)
  | SPAWN_DENIED (reason : String)
deriving DecidableEq, Repr

/-- What a `setTimeout` callback of `endRound` does when it fires. -/
inductive Deferred where
  | broadcastGameOver
  | startRound
deriving DecidableEq, Repr

/-- Observable actions, listed in the order the code performs them. -/
inductive Effect where
  | broadcast (m : Msg)
  | sendTo (m : Msg)
  | clearTimerInt
  | clearLoopInt
  | setTimerInt (ms : Nat)
  | setLoopInt (ms : Nat)
  | setTimeout (ms : Nat) (d : Deferred)
deriving DecidableEq, Repr

/-! ## Grid helpers -/

/-- The function `isOccupied(state, r, c)`, given `state.units`. -/
def isOccupied (units : List GameUnit) (r c : Int) : Bool :=
  units.any (fun u => u.row == r && u.col == c)

/-- Manhattan distance `dist(a, b)`. -/
def dist (a b : GameUnit) : Nat :=
  (a.row - b.row).natAbs + (a.col - b.col).natAbs

def isAdj (a b : GameUnit) : Bool :=
  decide ((a.row - b.row).natAbs ≤ 1) && decide ((a.col - b.col).natAbs ≤ 1) &&
    !(a.row == b.row && a.col == b.col)

/-! ## JavaScript arithmetic on `hp` and `dmg` -/

/-- The subtraction `a - b`; the result is `NaN` when an operand is not a number. -/
def jsSub (a b : JSNum) : JSNum :=
  match a, b with
  | some x, some y => some (x - y)
  | _, _ => none

/-- The call `Math.max(0, a)`; `NaN` stays `NaN`. -/
def jsMax0 (a : JSNum) : JSNum :=
  match a with
  | some x => some (max 0 x)
  | none => none

/-- The test `a <= 0`, false for `NaN`. -/
def jsLeZero (a : JSNum) : Bool :=
  match a with
  | some x => decide (x ≤ 0)
  | none => false

/-! ## The combat tick -/

/-- One object of the `snapshot` array during a tick: its identity, its current
fields, and whether it is still an element of `state.units`. -/
structure Slot where
  ref : Nat
  unit : GameUnit
  live : Bool
deriving DecidableEq, Repr

/-- The array `state.units` as seen during a tick. -/
def liveUnits (objs : List Slot) : List GameUnit :=
  (objs.filter (fun s => s.live)).map (fun s => s.unit)

/-- The copy `[...state.units]`: every element is a distinct object, numbered from `k`. -/
def snapshotFrom (k : Nat) : List GameUnit → List Slot
  | [] => []
  | u :: us => ⟨k, u, true⟩ :: snapshotFrom (k + 1) us

/-- Mutable data of a running tick: the unit objects and the `events` array. -/
structure TickState where
  objs : List Slot
  events : List Event
deriving DecidableEq, Repr

/-- The array `enemies` of line 95, each enemy with its object identity. -/
def enemiesOf (objs : List Slot) (unit : GameUnit) : List Slot :=
  objs.filter (fun s => s.live && s.unit.team != unit.team)

/-- The `reduce` of line 98 with initial value `e0`. -/
def nearestOf (unit : GameUnit) (e0 : Slot) (enemies : List Slot) : Slot :=
  enemies.foldl (fun b e => if dist unit e.unit < dist unit b.unit then e else b) e0

/-- The array `tries` of lines 110-113. -/
def triesOf (unit nearest : GameUnit) : List (Int × Int) :=
  let dr := Int.sign (nearest.row - unit.row)
  let dc := Int.sign (nearest.col - unit.col)
  (if dr != 0 then [(unit.row + dr, unit.col)] else []) ++
  (if dc != 0 then [(unit.row, unit.col + dc)] else []) ++
  (if dr != 0 && dc != 0 then [(unit.row + dr, unit.col + dc)] else [])

/-- The test of line 116 on a candidate cell. -/
def canStep (units : List GameUnit) (p : Int × Int) : Bool :=
  decide (p.1 ≥ 0) && decide (p.1 < ROWS) && decide (p.2 ≥ 0) && decide (p.2 < COLS) &&
    !isOccupied units p.1 p.2

/-- The assignment `nearest.hp = ...` on the object `r`. -/
def setHp (objs : List Slot) (r : Nat) (hp : JSNum) : List Slot :=
  objs.map (fun s => if s.ref == r then { s with unit := { s.unit with hp := hp } } else s)

/-- The filter of line 104: every element with the given id leaves `state.units`. -/
def removeId (objs : List Slot) (id : Nat) : List Slot :=
  objs.map (fun s => if s.unit.id == id then { s with live := false } else s)

/-- The assignment `unit.row = nr; unit.col = nc` on the object `r`. -/
def setPos (objs : List Slot) (r : Nat) (nr nc : Int) : List Slot :=
  objs.map (fun s => if s.ref == r then { s with unit := { s.unit with row := nr, col := nc } } else s)

/-- The attack branch, lines 101-106. -/
def attackStep (st : TickState) (unit : GameUnit) (nearest : Slot) : TickState :=
  let newHp := jsMax0 (jsSub nearest.unit.hp unit.dmg)
  let objs1 := setHp st.objs nearest.ref newHp
  let events1 := st.events ++ [Event.attack unit.id nearest.unit.id newHp unit.dmg]
  if jsLeZero newHp then
    ⟨removeId objs1 nearest.unit.id, events1 ++ [Event.death nearest.unit.id]⟩
  else
    ⟨objs1, events1⟩

/-- The move branch, lines 108-121, for the object `r` with current fields `unit`. -/
def moveStep (st : TickState) (r : Nat) (unit : GameUnit) (nearest : GameUnit) : TickState :=
  match (triesOf unit nearest).find? (canStep (liveUnits st.objs)) with
  | some (nr, nc) => ⟨setPos st.objs r nr nc, st.events ++ [Event.move unit.id nr nc]⟩
  | none => st

/-- Lines 95-98: the enemies of `unit` in `state.units` and the nearest of them;
`none` when there is no enemy. -/
def chooseTarget (objs : List Slot) (unit : GameUnit) : Option Slot :=
  match enemiesOf objs unit with
  | [] => none
  | e0 :: rest => some (nearestOf unit e0 (e0 :: rest))

/-- The callback of `snapshot.forEach` (lines 93-123) applied to the object `r`. -/
def tickUnit (st : TickState) (r : Nat) : TickState :=
  match st.objs.find? (fun s => s.ref == r) with
  | none => st
  | some me =>
    let unit := me.unit
    if !(liveUnits st.objs).any (fun u => u.id == unit.id) then st
    else
      match chooseTarget st.objs unit with
      | none => st
      | some nearest =>
        if isAdj unit nearest.unit then attackStep st unit nearest
        else moveStep st r unit nearest.unit

/-- The loop `snapshot.forEach(...)` over the objects of the snapshot, in order. -/
def runTick (snapshot : List Slot) : TickState :=
  (snapshot.map (fun s => s.ref)).foldl tickUnit ⟨snapshot, []⟩

def serializeUnits (units : List GameUnit) : List UnitView :=
  units.map (fun u => ⟨u.id, u.typeId, u.row, u.col, u.hp, u.maxHp, u.team⟩)

/-- The function `gameTick` on a room whose state is present. -/
def gameTick (state : GameState) : GameState × List Effect :=
  if !state.roundActive then (state, [])
  else
    let st := runTick (snapshotFrom 0 state.units)
    let state1 := { state with units := liveUnits st.objs }
    (state1, [Effect.broadcast (Msg.TICK (serializeUnits state1.units) st.events state1.timeLeft)])

/-- The `events` array of the tick that `gameTick` runs on `state`. -/
def tickEvents (state : GameState) : List Event :=
  if !state.roundActive then [] else (runTick (snapshotFrom 0 state.units)).events

/-! ## Round control -/

def startRound (state : GameState) : GameState × List Effect :=
  let state1 := { state with timeLeft := 20, roundActive := true, units := [] }
  (state1,
    [Effect.broadcast (Msg.ROUND_START state1.round state1.timeLeft state1.p1Stars state1.p2Stars),
     Effect.clearTimerInt, Effect.setTimerInt 1000, Effect.clearLoopInt, Effect.setLoopInt 900])

def endRound (state : GameState) : GameState × List Effect :=
  let p1Count := (state.units.filter (fun u => u.team == Team.p1)).length
  let p2Count := (state.units.filter (fun u => u.team == Team.p2)).length
  let state1 := { state with roundActive := false }
  let awarded : GameState × Option Team :=
    if p1Count > p2Count then ({ state1 with p1Stars := state1.p1Stars + 1 }, some Team.p1)
    else if p2Count > p1Count then ({ state1 with p2Stars := state1.p2Stars + 1 }, some Team.p2)
    else (state1, none)
  let state2 := awarded.1
  let roundEnd := Effect.broadcast
    (Msg.ROUND_END state2.round awarded.2 p1Count p2Count state2.p1Stars state2.p2Stars)
  let gameOver := decide (state2.p1Stars ≥ 2) || decide (state2.p2Stars ≥ 2) ||
    decide (state2.round ≥ state2.maxRounds)
  if gameOver then
    (state2, [Effect.clearTimerInt, Effect.clearLoopInt, roundEnd,
      Effect.setTimeout 2500 Deferred.broadcastGameOver])
  else
    ({ state2 with round := state2.round + 1 },
      [Effect.clearTimerInt, Effect.clearLoopInt, roundEnd,
        Effect.setTimeout 3000 Deferred.startRound])

/-- The callback of the one-second interval set by `startRound` (lines 157-161). -/
def timerTick (state : GameState) : GameState × List Effect :=
  let state1 := { state with timeLeft := state.timeLeft - 1 }
  if state1.timeLeft ≤ 0 then
    let r := endRound state1
    (r.1, Effect.broadcast (Msg.TIMER state1.timeLeft) :: r.2)
  else (state1, [Effect.broadcast (Msg.TIMER state1.timeLeft)])

/-! ## The SPAWN handler -/

/-- The `SPAWN` case (lines 258-286) for a connection with role `playerRole`
whose room has the game state `state`. -/
def spawn (state : GameState) (playerRole : Team) (typeId : String) (row col : Int) :
    GameState × List Effect :=
  if !state.roundActive then (state, [])
  else
    match UNITS typeId with
    | none => (state, [])
    | some unitDef =>
      let validZone := (playerRole == Team.p1 && decide (row ≥ 5)) ||
        (playerRole == Team.p2 && decide (row < 5))
      if !validZone then (state, [Effect.sendTo (Msg.SPAWN_DENIED "Wrong zone")])
      else if isOccupied state.units row col then
        (state, [Effect.sendTo (Msg.SPAWN_DENIED "Occupied")])
      else
        let unit : GameUnit :=
          { id := state.nextId, typeId := typeId, row := row, col := col,
            hp := unitDef.hp, maxHp := unitDef.hp, dmg := unitDef.dmg, team := playerRole }
        ({ state with nextId := state.nextId + 1, units := state.units ++ [unit] },
          [Effect.broadcast (Msg.UNIT_SPAWNED
            ⟨unit.id, typeId, row, col, unit.hp, unit.maxHp, playerRole⟩)])

/-- The `SPAWN` case with its first guard: no room or no game state yet. -/
def handleSpawn (state : Option GameState) (playerRole : Team) (typeId : String)
    (row col : Int) : Option GameState × List Effect :=
  match state with
  | none => (none, [])
  | some s => ((some (spawn s playerRole typeId row col).1), (spawn s playerRole typeId row col).2)

/-! ## Sequences of operations on one room -/

/-- One thing that can happen to the game state of a room. -/
inductive Op where
  | startRound
  | spawn (playerRole : Team) (typeId : String) (row col : Int)
  | gameTick
  | timerTick
  | endRound
deriving DecidableEq, Repr

def step (state : GameState) : Op → GameState × List Effect
  | Op.startRound => startRound state
  | Op.spawn playerRole typeId row col => spawn state playerRole typeId row col
  | Op.gameTick => gameTick state
  | Op.timerTick => timerTick state
  | Op.endRound => endRound state

/-- Runs the operations in order; returns the last state and every effect. -/
def run (state : GameState) : List Op → GameState × List Effect
  | [] => (state, [])
  | op :: ops => ((run (step state op).1 ops).1, (step state op).2 ++ (run (step state op).1 ops).2)

/-- The state after `n` consecutive calls of `gameTick`. -/
def ticks : Nat → GameState → GameState
  | 0, state => state
  | n + 1, state => ticks n (gameTick state).1

/-! ## Vocabulary of the properties -/

/-- Ids announced in `UNIT_SPAWNED`, that is, of the units spawned, in order. -/
def spawnedIds : List Effect → List Nat
  | [] => []
  | Effect.broadcast (Msg.UNIT_SPAWNED unit) :: rest => unit.id :: spawnedIds rest
  | _ :: rest => spawnedIds rest

def isRoundEnd : Effect → Bool
  | Effect.broadcast (Msg.ROUND_END _ _ _ _ _ _) => true
  | _ => false

/-- Anything `endRound` could do after `ROUND_END`: a timeout, or the messages of
the two continuations sent at once. -/
def isFollowUp : Effect → Bool
  | Effect.setTimeout _ _ => true
  | Effect.broadcast (Msg.GAME_OVER _ _) => true
  | Effect.broadcast (Msg.ROUND_START _ _ _ _) => true
  | _ => false

/-- Number of units of team `t`. -/
def teamCount (units : List GameUnit) (t : Team) : Nat :=
  (units.filter (fun u => u.team == t)).length

/-- No two units of the list are on the same (row, col). -/
def CellsUnique (units : List GameUnit) : Prop :=
  units.Pairwise (fun a b => ¬(a.row = b.row ∧ a.col = b.col))

/-- The candidate cells of a step from (row, col) with step components dr and dc, in the order
row-step, col-step, diagonal; a candidate whose step component is zero is left out. -/
def stepCandidates (row col dr dc : Int) : List (Int × Int) :=
  (if dr = 0 then [] else [(row + dr, col)]) ++
  (if dc = 0 then [] else [(row, col + dc)]) ++
  (if dr = 0 ∨ dc = 0 then [] else [(row + dr, col + dc)])

/-- A cell is in bounds (0..9 on both axes) and no unit of the list is on it. -/
def FreeCell (units : List GameUnit) (p : Int × Int) : Prop :=
  0 ≤ p.1 ∧ p.1 ≤ 9 ∧ 0 ≤ p.2 ∧ p.2 ≤ 9 ∧ ∀ u ∈ units, ¬(u.row = p.1 ∧ u.col = p.2)

/-- A soldier of p1 at (5, 5) spawned first, then a mage of p2 at (4, 5). -/
def soldierFirst : GameState :=
  (run (startRound initGameState).1
    [Op.spawn Team.p1 "soldier" 5 5, Op.spawn Team.p2 "mage" 4 5]).1

/-- A mage of p2 at (4, 5) spawned first, then a soldier of p1 at (5, 5). -/
def mageFirst : GameState :=
  (run (startRound initGameState).1
    [Op.spawn Team.p2 "mage" 4 5, Op.spawn Team.p1 "soldier" 5 5]).1

/-- Objects of a tick are distinct, and no two of them that are still in
`state.units` are on the same cell. -/
def SlotsOk (objs : List Slot) : Prop :=
  objs.Pairwise (fun a b => a.ref ≠ b.ref ∧
    (a.live = true → b.live = true → ¬(a.unit.row = b.unit.row ∧ a.unit.col = b.unit.col)))

/-- Every object whose cell differs from the cell it had in `objs0` is in bounds,
and if it is still in `state.units`, no other object of `state.units` is on its cell. -/
def MovedOk (objs0 objs : List Slot) : Prop :=
  ∀ s ∈ objs, ∀ s0 ∈ objs0, s.ref = s0.ref →
    ¬(s.unit.row = s0.unit.row ∧ s.unit.col = s0.unit.col) →
    (0 ≤ s.unit.row ∧ s.unit.row ≤ 9 ∧ 0 ≤ s.unit.col ∧ s.unit.col ≤ 9) ∧
    (s.live = true → ∀ s2 ∈ objs, s2.live = true → s2.ref ≠ s.ref →
      ¬(s2.unit.row = s.unit.row ∧ s2.unit.col = s.unit.col))

/-- A soldier of p1 at (9, 0) and a mage of p2 at (0, 9), spawned in that order. -/
def farApart : GameState :=
  (run (startRound initGameState).1
    [Op.spawn Team.p1 "soldier" 9 0, Op.spawn Team.p2 "mage" 0 9]).1

/-- An archer of p1 at (5, 5) with three objects of p2 around it: a mage at (3, 5),
a tank at (5, 7) and a soldier at (4, 5) that has left `state.units`. -/
def tieObjs : List Slot :=
  [⟨0, ⟨0, "archer", 5, 5, some 55, some 55, some 28, Team.p1⟩, true⟩,
   ⟨1, ⟨1, "mage", 3, 5, some 45, some 45, some 38, Team.p2⟩, true⟩,
   ⟨2, ⟨2, "tank", 5, 7, some 220, some 220, some 12, Team.p2⟩, true⟩,
   ⟨3, ⟨3, "soldier", 4, 5, some 0, some 80, some 15, Team.p2⟩, false⟩]

/-- What a unit does in its turn: nothing for want of an enemy, an attack on the
target, a step to a cell towards the target, or no step because no candidate cell
qualifies. -/
inductive Decision where
  | idle
  | attack (target : Slot)
  | move (target : Slot) (nr nc : Int)
  | blocked (target : Slot)
deriving DecidableEq, Repr

/-- The decision of lines 95-121 for `unit` when the objects are `objs`. -/
def decisionOf (objs : List Slot) (unit : GameUnit) : Decision :=
  match chooseTarget objs unit with
  | none => Decision.idle
  | some t =>
    if isAdj unit t.unit then Decision.attack t
    else
      match (triesOf unit t.unit).find? (canStep (liveUnits objs)) with
      | some (nr, nc) => Decision.move t nr nc
      | none => Decision.blocked t

/-- The effect of a decision of the object `r` with fields `unit`. -/
def applyDecision (st : TickState) (r : Nat) (unit : GameUnit) : Decision → TickState
  | Decision.idle => st
  | Decision.attack t => attackStep st unit t
  | Decision.move _ nr nc => ⟨setPos st.objs r nr nc, st.events ++ [Event.move unit.id nr nc]⟩
  | Decision.blocked _ => st

/-- Two mages of p1 and p2 next to each other, the one of p2 with 7 hp left, and a
soldier of p1 next to the mage of p2; list order: mage of p1, soldier, mage of p2. -/
def killBeforeTurn : GameState :=
  { initGameState with
    roundActive := true, nextId := 3,
    units := [⟨0, "mage", 5, 5, some 45, some 45, some 38, Team.p1⟩,
              ⟨1, "soldier", 5, 7, some 80, some 80, some 15, Team.p1⟩,
              ⟨2, "mage", 4, 6, some 7, some 45, some 38, Team.p2⟩] }

/-- Where a room stands in the round lifecycle: a call of `startRound` is pending
(after the join or between two rounds), a round is running, or `endRound` has
scheduled the `GAME_OVER` message and nothing else. -/
inductive Phase where
  | waiting
  | active
  | over
deriving DecidableEq, Repr

/-- Whether the effects contain a `setTimeout` for the callback `d`. -/
def schedules (d : Deferred) (effects : List Effect) : Bool :=
  effects.any (fun e => match e with
    | Effect.setTimeout _ d2 => d2 == d
    | _ => false)

/-- The phase after a timer tick or `endRound` of a running round, read off what was
scheduled: the next `startRound`, the `GAME_OVER` message, or nothing. -/
def phaseAfter (effects : List Effect) : Phase :=
  if schedules Deferred.startRound effects then Phase.waiting
  else if schedules Deferred.broadcastGameOver effects then Phase.over
  else Phase.active

/-- One operation of the round lifecycle; `none` when it cannot happen in the phase:
`startRound` runs only when pending, the two intervals run only during a round, and
`endRound` is called from the timer of a running round.  A SPAWN message can arrive
at any time. -/
def lifeStep (p : Phase × GameState) : Op → Option (Phase × GameState)
  | Op.startRound =>
    if p.1 = Phase.waiting then some (Phase.active, (startRound p.2).1) else none
  | Op.spawn playerRole typeId row col => some (p.1, (spawn p.2 playerRole typeId row col).1)
  | Op.gameTick => if p.1 = Phase.active then some (Phase.active, (gameTick p.2).1) else none
  | Op.timerTick =>
    if p.1 = Phase.active then some (phaseAfter (timerTick p.2).2, (timerTick p.2).1) else none
  | Op.endRound =>
    if p.1 = Phase.active then some (phaseAfter (endRound p.2).2, (endRound p.2).1) else none

/-- Runs the operations in order from `p`; `none` when one of them cannot happen. -/
def lifecycle (p : Phase × GameState) : List Op → Option (Phase × GameState)
  | [] => some p
  | op :: ops =>
    match lifeStep p op with
    | none => none
    | some q => lifecycle q ops

/-- The bounds of the round lifecycle in phase `ph`. -/
def LifeInv (ph : Phase) (s : GameState) : Prop :=
  s.maxRounds = 3 ∧ 1 ≤ s.round ∧ s.round ≤ s.maxRounds ∧ s.p1Stars ≤ 2 ∧ s.p2Stars ≤ 2 ∧
  (ph ≠ Phase.over → s.p1Stars < 2 ∧ s.p2Stars < 2) ∧
  (ph ≠ Phase.active → s.roundActive = false)

def isSpawnOp : Op → Bool
  | Op.spawn _ _ _ _ => true
  | _ => false

/-- Two rounds that p1 wins with one soldier against none: the game is over after them. -/
def twoWins : List Op :=
  [Op.startRound, Op.spawn Team.p1 "soldier" 5 5, Op.gameTick, Op.timerTick, Op.endRound,
   Op.startRound, Op.spawn Team.p1 "soldier" 6 6, Op.endRound]

/-- An element of `room.players`; `ws` is the identity of the connection. -/
structure Player where
  ws : Nat
  role : Team
  name : String
deriving DecidableEq, Repr

/-- Callback of a `setTimeout` that has not run yet. -/
inductive Callback where
  | gameStart
  | startRound
  | gameOver
  | cleanup
deriving DecidableEq, Repr

/-- The object made by `makeRoom`, with the timers that refer to it: `timerInt` and
`loopInt` tell whether the interval whose handle the field holds is running, and
`pending` lists the `setTimeout` callbacks on this room that have not run yet. -/
structure Room where
  code : String
  players : List Player
  state : Option GameState
  timerInt : Bool
  loopInt : Bool
  pending : List Callback
deriving DecidableEq, Repr

def makeRoom (code : String) : Room :=
  { code := code, players := [], state := none, timerInt := false, loopInt := false,
    pending := [] }

/-- The variables of one `connection` callback and the state of its socket. -/
structure Conn where
  playerRoom : Option Nat
  playerRole : Option Team
  isOpen : Bool
deriving DecidableEq, Repr

/-- The server: every room object made so far (position = identity), the Map
`rooms` from codes to room objects, and the connections (position = identity). -/
structure World where
  heap : List Room
  rooms : List (String × Nat)
  conns : List Conn
deriving DecidableEq, Repr

def initWorld : World := { heap := [], rooms := [], conns := [] }

/-- Messages of the connection handler. -/
inductive NetMsg where
  | ROOM_CREATED (code : String) (role : Team)
  | JOINED_ROOM (code : String) (role : Team)
  | ERROR (msg : String)
  | OPPONENT_JOINED (name : String)
  | GAME_START (p1Name p2Name : String)
  | OPPONENT_DISCONNECTED
  | PONG
deriving DecidableEq, Repr

/-- What the server does towards the outside: a message to one connection, a
message to the players of a room except one connection, or an effect of the game
functions on a room. -/
inductive Out where
  | sendTo (ws : Nat) (m : NetMsg)
  | broadcast (room : Nat) (excludeWs : Option Nat) (m : NetMsg)
  | game (room : Nat) (e : Effect)
deriving DecidableEq, Repr

/-- What can happen to the server: a new connection, a message of a connection, the
closing of a connection, an interval of a room firing, a timeout of a room running. -/
inductive Input where
  | connection
  | createRoom (ws : Nat) (name : Option String) (code : String)
  | joinRoom (ws : Nat) (code : Option String) (name : Option String)
  | spawn (ws : Nat) (typeId : String) (row col : Int)
  | ping (ws : Nat)
  | close (ws : Nat)
  | timerFires (room : Nat)
  | loopFires (room : Nat)
  | timeoutFires (room : Nat) (cb : Callback)
deriving DecidableEq, Repr

/-- The string method `toUpperCase` on strings of ASCII characters, which room codes
consist of: a character outside ASCII is left as it is, whereas JavaScript maps some
of them (`ß` to `SS`). -/
def toUpperCase (s : String) : String := String.mk (s.data.map Char.toUpper)

/-- The expression `name || dflt`. -/
def orDefault (name : Option String) (dflt : String) : String :=
  match name with
  | some n => if n = "" then dflt else n
  | none => dflt

def deferredCallback : Deferred → Callback
  | Deferred.broadcastGameOver => Callback.gameOver
  | Deferred.startRound => Callback.startRound

/-- The change a game effect makes to the timers of its room. -/
def applyEffect (room : Room) : Effect → Room
  | Effect.clearTimerInt => { room with timerInt := false }
  | Effect.setTimerInt _ => { room with timerInt := true }
  | Effect.clearLoopInt => { room with loopInt := false }
  | Effect.setLoopInt _ => { room with loopInt := true }
  | Effect.setTimeout _ d => { room with pending := room.pending ++ [deferredCallback d] }
  | _ => room

/-- A game function run on the state of a room: the new state is stored and the
effects change the timers in order. -/
def runOnRoom (room : Room) (f : GameState → GameState × List Effect) : Room × List Effect :=
  match room.state with
  | none => (room, [])
  | some s => ((f s).2.foldl applyEffect { room with state := some (f s).1 }, (f s).2)

/-- The name sent in `GAME_START` for a role (lines 250-251). -/
def playerName (room : Room) (role : Team) (dflt : String) : String :=
  orDefault ((room.players.find? (fun p => p.role == role)).map (fun p => p.name)) dflt

/-- The test of line 303: no player of the room has an open connection. -/
def abandoned (w : World) (room : Room) : Bool :=
  room.players.all (fun p =>
    match w.conns[p.ws]? with
    | some c => !c.isOpen
    | none => true)

/-- The room object the Map `rooms` holds for the code of a JOIN_ROOM message, if any,
with its identity: the lookup `rooms.get(msg.code?.toUpperCase())`. -/
def findRoom (w : World) (code : Option String) : Option (Nat × Room) :=
  match (code.map toUpperCase).bind (fun k => w.rooms.lookup k) with
  | none => none
  | some i => (w.heap[i]?).map (fun r => (i, r))

/-- The world after replacing the room object `i`, with the outputs of the room. -/
def withRoom (w : World) (i : Nat) (r : Room × List Effect) : World × List Out :=
  ({ w with heap := w.heap.set i r.1 }, r.2.map (Out.game i))

/-- One step of the server.  An input that cannot occur (a message or a close on a
connection that is not open, an interval that is not running, a timeout that is not
pending, a fresh code that is in use) leaves the world as it is. -/
def stepWorld (w : World) : Input → World × List Out
  | Input.connection => ({ w with conns := w.conns ++ [⟨none, none, true⟩] }, [])
  | Input.createRoom ws name code =>
    match w.conns[ws]? with
    | none => (w, [])
    | some c =>
      if !c.isOpen || w.rooms.any (fun e => e.1 == code) then (w, [])
      else
        let room := { makeRoom code with players := [⟨ws, Team.p1, orDefault name "Player 1"⟩] }
        ({ heap := w.heap ++ [room], rooms := w.rooms ++ [(code, w.heap.length)],
           conns := w.conns.set ws
             { c with playerRoom := some w.heap.length, playerRole := some Team.p1 } },
          [Out.sendTo ws (NetMsg.ROOM_CREATED code Team.p1)])
  | Input.joinRoom ws code name =>
    match w.conns[ws]? with
    | none => (w, [])
    | some c =>
      if !c.isOpen then (w, [])
      else
        match findRoom w code with
        | none => (w, [Out.sendTo ws (NetMsg.ERROR "Room not found")])
        | some (i, room) =>
          if room.players.length ≥ 2 then (w, [Out.sendTo ws (NetMsg.ERROR "Room is full")])
          else
            let player : Player := ⟨ws, Team.p2, orDefault name "Player 2"⟩
            ({ w with
                heap := (w.heap.set i { room with
                  players := room.players ++ [player], state := some initGameState,
                  pending := room.pending ++ [Callback.gameStart] }),
                conns := w.conns.set ws
                  { c with playerRoom := some i, playerRole := some Team.p2 } },
              [Out.sendTo ws (NetMsg.JOINED_ROOM ((code.map toUpperCase).getD "") Team.p2),
               Out.broadcast i (some ws) (NetMsg.OPPONENT_JOINED player.name)])
  | Input.spawn ws typeId row col =>
    match w.conns[ws]? with
    | none => (w, [])
    | some c =>
      if !c.isOpen then (w, [])
      else
        match c.playerRoom, c.playerRole with
        | some i, some role =>
          match w.heap[i]? with
          | none => (w, [])
          | some room =>
            ({ w with heap := (w.heap.set i
                { room with state := (handleSpawn room.state role typeId row col).1 }) },
              (handleSpawn room.state role typeId row col).2.map (Out.game i))
        | _, _ => (w, [])
  | Input.ping ws =>
    match w.conns[ws]? with
    | none => (w, [])
    | some c => if c.isOpen then (w, [Out.sendTo ws NetMsg.PONG]) else (w, [])
  | Input.close ws =>
    match w.conns[ws]? with
    | none => (w, [])
    | some c =>
      if !c.isOpen then (w, [])
      else
        match c.playerRoom with
        | none => ({ w with conns := w.conns.set ws { c with isOpen := false } }, [])
        | some i =>
          match w.heap[i]? with
          | none => ({ w with conns := w.conns.set ws { c with isOpen := false } }, [])
          | some room =>
            ({ w with
                conns := w.conns.set ws { c with isOpen := false },
                heap := (w.heap.set i { room with
                  timerInt := false, loopInt := false,
                  pending := room.pending ++ [Callback.cleanup] }) },
              [Out.game i Effect.clearTimerInt, Out.game i Effect.clearLoopInt,
               Out.broadcast i (some ws) NetMsg.OPPONENT_DISCONNECTED])
  | Input.timerFires i =>
    match w.heap[i]? with
    | none => (w, [])
    | some room => if room.timerInt then withRoom w i (runOnRoom room timerTick) else (w, [])
  | Input.loopFires i =>
    match w.heap[i]? with
    | none => (w, [])
    | some room => if room.loopInt then withRoom w i (runOnRoom room gameTick) else (w, [])
  | Input.timeoutFires i cb =>
    match w.heap[i]? with
    | none => (w, [])
    | some room0 =>
      if !room0.pending.contains cb then (w, [])
      else
        let room := { room0 with pending := room0.pending.erase cb }
        match cb with
        | Callback.gameStart =>
          ({ w with heap := (w.heap.set i
              { room with pending := room.pending ++ [Callback.startRound] }) },
            [Out.broadcast i none (NetMsg.GAME_START (playerName room Team.p1 "Player 1")
              (playerName room Team.p2 "Player 2"))])
        | Callback.startRound => withRoom w i (runOnRoom room startRound)
        | Callback.gameOver =>
          ({ w with heap := w.heap.set i room },
            match room.state with
            | some s => [Out.game i (Effect.broadcast (Msg.GAME_OVER s.p1Stars s.p2Stars))]
            | none => [])
        | Callback.cleanup =>
          if abandoned w room then
            ({ w with heap := w.heap.set i room,
                      rooms := w.rooms.filter (fun e => e.1 != room.code) }, [])
          else ({ w with heap := w.heap.set i room }, [])

/-- Runs the inputs in order; returns the last world and every output. -/
def runWorld (w : World) : List Input → World × List Out
  | [] => (w, [])
  | x :: xs =>
    ((runWorld (stepWorld w x).1 xs).1, (stepWorld w x).2 ++ (runWorld (stepWorld w x).1 xs).2)

/-- Whether a room of the heap is the value of some key of the Map `rooms`. -/
def listed (w : World) (i : Nat) : Bool := w.rooms.any (fun e => e.2 == i)

/-- A room is created and joined, the game and the first round start, and then the
joiner disconnects during the round (join at 0 ms, start of the round at 800 ms). -/
def closeDuringRound : List Input :=
  [Input.connection, Input.connection, Input.createRoom 0 (some "Ann") "AB23",
   Input.joinRoom 1 (some "ab23") none, Input.timeoutFires 0 Callback.gameStart,
   Input.timeoutFires 0 Callback.startRound, Input.close 1]

/-- The creator disconnects at once (0 ms), a joiner arrives at 4500 ms, the game
start runs at 4800 ms, the joiner disconnects at 4900 ms, and the cleanup of the
first disconnect runs at 5000 ms, 300 ms before the first round is due to start. -/
def closeBeforeFirstRound : List Input :=
  [Input.connection, Input.connection, Input.createRoom 0 none "AB23", Input.close 0,
   Input.joinRoom 1 (some "AB23") none, Input.timeoutFires 0 Callback.gameStart,
   Input.close 1, Input.timeoutFires 0 Callback.cleanup]

/-- How the player list of a room of the new heap relates to the old heap: it is the
list of an old room, the list of a newly made room, or the list of an old room with
fewer than 2 players and one more. -/
def PlayersStep (w : World) (r2 : Room) : Prop :=
  (∃ r ∈ w.heap, r2.players = r.players) ∨ r2.players.length = 1 ∨
  ∃ r ∈ w.heap, r.players.length < 2 ∧ r2.players.length = r.players.length + 1

/-- A world with two connections and the room "AB23" created by the first. -/
def oneRoom : World :=
  (runWorld initWorld
    [Input.connection, Input.connection, Input.createRoom 0 (some "Ann") "AB23"]).1

/-- A unit with numbers for hp, maxHp and dmg such that 1 <= hp <= maxHp and dmg >= 0. -/
def HpOk (u : GameUnit) : Prop :=
  ∃ h m d, u.hp = some h ∧ u.maxHp = some m ∧ u.dmg = some d ∧ 1 ≤ h ∧ h ≤ m ∧ 0 ≤ d

/-- An object of a tick with a damage number >= 0 that, while it is in
`state.units`, has numbers 1 <= hp <= maxHp. -/
def SlotHpOk (s : Slot) : Prop :=
  (∃ d, s.unit.dmg = some d ∧ 0 ≤ d) ∧
  (s.live = true → ∃ h m, s.unit.hp = some h ∧ s.unit.maxHp = some m ∧ 1 ≤ h ∧ h ≤ m)

/-- The objects of a tick are distinct and each satisfies `SlotHpOk`. -/
def SlotsHpOk (objs : List Slot) : Prop :=
  objs.Pairwise (fun a b => a.ref ≠ b.ref) ∧ ∀ s ∈ objs, SlotHpOk s

/-- An active round with a unit spawned under the inherited name "valueOf" at (5, 5)
for p1 and a mage of p2 next to it at (4, 5). -/
def inheritedDuel : GameState :=
  (run (startRound initGameState).1
    [Op.spawn Team.p1 "valueOf" 5 5, Op.spawn Team.p2 "mage" 4 5]).1

/-! ## The code on the values a message can carry

`row` and `col` of a SPAWN message go into the unit object as `JSON.parse` delivers
them; the handler tests `row >= 5` or `row < 5` and nothing else about them.  The
definitions of this section follow the same lines of the source as the ones above,
with `row` and `col` of type `JSVal` and with the coercions of `>=`, `<`, `-`, `+`
and the type test of `===` written out.  The definitions above are the special case
in which every `row` and `col` is an integer: on such units the functions of this
section compute what those above compute (`int_tickUnit`, `int_gameTick`,
`int_spawn`). -/

namespace Untyped

/-- A finite JavaScript number: the value `m / 2 ^ k`.  Every finite double is of
this form; the arithmetic below is exact, that is, taken where doubles do not round. -/
structure Num where
  m : Int
  k : Nat
deriving DecidableEq, Repr

def Num.ofInt (n : Int) : Num := ⟨n, 0⟩

def Num.add (a b : Num) : Num := ⟨a.m * 2 ^ b.k + b.m * 2 ^ a.k, a.k + b.k⟩

def Num.sub (a b : Num) : Num := ⟨a.m * 2 ^ b.k - b.m * 2 ^ a.k, a.k + b.k⟩

def Num.abs (a : Num) : Num := ⟨a.m.natAbs, a.k⟩

def Num.sign (a : Num) : Int := Int.sign a.m

/-- The comparison `a < b` of two finite numbers. -/
def Num.lt (a b : Num) : Bool := decide (a.m * 2 ^ b.k < b.m * 2 ^ a.k)

def Num.le (a b : Num) : Bool := decide (a.m * 2 ^ b.k ≤ b.m * 2 ^ a.k)

/-- Equality of the values of two finite numbers. -/
def Num.eq (a b : Num) : Bool := decide (a.m * 2 ^ b.k = b.m * 2 ^ a.k)

/-- A JavaScript number: `none` is `NaN`. -/
abbrev Number := Option Num

/-- The comparison `a < b` of numbers, false when one of them is `NaN`. -/
def numLt (a b : Number) : Bool :=
  match a, b with
  | some x, some y => Num.lt x y
  | _, _ => false

/-- The comparison `a <= b` of numbers, false when one of them is `NaN`. -/
def numLe (a b : Number) : Bool :=
  match a, b with
  | some x, some y => Num.le x y
  | _, _ => false

/-- The difference `a - b` of numbers. -/
def numSub (a b : Number) : Number :=
  match a, b with
  | some x, some y => some (Num.sub x y)
  | _, _ => none

/-- The sum `a + b` of numbers. -/
def numAdd (a b : Number) : Number :=
  match a, b with
  | some x, some y => some (Num.add x y)
  | _, _ => none

/-- The call `Math.abs(a)`. -/
def numAbs (a : Number) : Number := a.map Num.abs

/-- The call `Math.sign(a)`: -1, 0 or 1, and `none` for `NaN`. -/
def numSign (a : Number) : Option Int := a.map Num.sign

/-- A value that `JSON.parse` can put into `msg.row` or `msg.col`, or that the tick
computes from one: a missing key, null, a boolean, a finite number or a string.
Arrays and objects, which the handler accepts as well, are left out. -/
inductive JSVal where
  | undefined
  | null
  | bool (b : Bool)
  | num (x : Num)
  | str (s : String)
deriving DecidableEq, Repr

/-- The conversion to a number that `-`, `>=` and `<` apply to an operand;
`stringToNumber` is the conversion of a string, `none` being `NaN`. -/
def toNumber (stringToNumber : String → Number) : JSVal → Number
  | JSVal.undefined => none
  | JSVal.null => some (Num.ofInt 0)
  | JSVal.bool b => some (Num.ofInt (if b then 1 else 0))
  | JSVal.num x => some x
  | JSVal.str s => stringToNumber s

/-- The operator `===`. -/
def strictEq : JSVal → JSVal → Bool
  | JSVal.undefined, JSVal.undefined => true
  | JSVal.null, JSVal.null => true
  | JSVal.bool a, JSVal.bool b => a == b
  | JSVal.num a, JSVal.num b => Num.eq a b
  | JSVal.str a, JSVal.str b => a == b
  | _, _ => false

/-- The expression `v + d` for a step `d` that is 1 or -1: a string is extended by
the digits of `d`, any other value is converted to a number; `none` is `NaN`. -/
def plusStep (stringToNumber : String → Number) (v : JSVal) (d : Int) : Option JSVal :=
  match v with
  | JSVal.str s => some (JSVal.str (s ++ (if d = 1 then "1" else "-1")))
  | _ => (numAdd (toNumber stringToNumber v) (some (Num.ofInt d))).map JSVal.num

/-- A unit object whose `row` and `col` are what the SPAWN message carried. -/
structure GameUnit where
  id : Nat
  typeId : String
  row : JSVal
  col : JSVal
  hp : JSNum
  maxHp : JSNum
  dmg : JSNum
  team : Team
deriving DecidableEq, Repr

structure GameState where
  round : Nat
  maxRounds : Nat
  timeLeft : Int
  p1Stars : Nat
  p2Stars : Nat
  units : List GameUnit
  nextId : Nat
  roundActive : Bool
deriving DecidableEq, Repr

inductive Event where
  | attack (attackerId targetId : Nat) (newHp dmg : JSNum)
  | death (unitId : Nat)
  | move (unitId : Nat) (row col : JSVal)
deriving DecidableEq, Repr

structure UnitView where
  id : Nat
  typeId : String
  row : JSVal
  col : JSVal
  hp : JSNum
  maxHp : JSNum
  team : Team
deriving DecidableEq, Repr

/-- The messages of `gameTick` and of the SPAWN handler. -/
inductive Msg where
  | TICK (units : List UnitView) (events : List Event) (timeLeft : Int)
  | UNIT_SPAWNED (unit : UnitView)
  | SPAWN_DENIED (reason : String)
deriving DecidableEq, Repr

inductive Effect where
  | broadcast (m : Msg)
  | sendTo (m : Msg)
deriving DecidableEq, Repr

def isOccupied (units : List GameUnit) (r c : JSVal) : Bool :=
  units.any (fun u => strictEq u.row r && strictEq u.col c)

/-- The function `dist(a, b)`. -/
def dist (stringToNumber : String → Number) (a b : GameUnit) : Number :=
  numAdd
    (numAbs (numSub (toNumber stringToNumber a.row) (toNumber stringToNumber b.row)))
    (numAbs (numSub (toNumber stringToNumber a.col) (toNumber stringToNumber b.col)))

def isAdj (stringToNumber : String → Number) (a b : GameUnit) : Bool :=
  numLe (numAbs (numSub (toNumber stringToNumber a.row) (toNumber stringToNumber b.row)))
      (some (Num.ofInt 1)) &&
    numLe (numAbs (numSub (toNumber stringToNumber a.col) (toNumber stringToNumber b.col)))
      (some (Num.ofInt 1)) &&
    !(strictEq a.row b.row && strictEq a.col b.col)

structure Slot where
  ref : Nat
  unit : GameUnit
  live : Bool
deriving DecidableEq, Repr

def liveUnits (objs : List Slot) : List GameUnit :=
  (objs.filter (fun s => s.live)).map (fun s => s.unit)

def snapshotFrom (k : Nat) : List GameUnit → List Slot
  | [] => []
  | u :: us => ⟨k, u, true⟩ :: snapshotFrom (k + 1) us

structure TickState where
  objs : List Slot
  events : List Event
deriving DecidableEq, Repr

def enemiesOf (objs : List Slot) (unit : GameUnit) : List Slot :=
  objs.filter (fun s => s.live && s.unit.team != unit.team)

/-- The `reduce` of line 98: the candidate is replaced when `dist(unit, e) <
dist(unit, b)`, which is false as soon as one distance is `NaN`. -/
def nearestOf (stringToNumber : String → Number) (unit : GameUnit) (e0 : Slot)
    (enemies : List Slot) : Slot :=
  enemies.foldl (fun b e =>
    if numLt (dist stringToNumber unit e.unit) (dist stringToNumber unit b.unit) then e
    else b) e0

def chooseTarget (stringToNumber : String → Number) (objs : List Slot) (unit : GameUnit) :
    Option Slot :=
  match enemiesOf objs unit with
  | [] => none
  | e0 :: rest => some (nearestOf stringToNumber unit e0 (e0 :: rest))

/-- The test `if (d)` on a result of `Math.sign`: 0 and `NaN` are falsy. -/
def truthy (d : Option Int) : Bool :=
  match d with
  | some x => x != 0
  | none => false

/-- The array `tries` of lines 110-113; a component that is `NaN` is `none`. -/
def triesOf (stringToNumber : String → Number) (unit nearest : GameUnit) :
    List (Option JSVal × Option JSVal) :=
  let dr := numSign (numSub (toNumber stringToNumber nearest.row)
    (toNumber stringToNumber unit.row))
  let dc := numSign (numSub (toNumber stringToNumber nearest.col)
    (toNumber stringToNumber unit.col))
  (if truthy dr then [(plusStep stringToNumber unit.row (dr.getD 0), some unit.col)]
    else []) ++
  (if truthy dc then [(some unit.row, plusStep stringToNumber unit.col (dc.getD 0))]
    else []) ++
  (if truthy dr && truthy dc then
    [(plusStep stringToNumber unit.row (dr.getD 0),
      plusStep stringToNumber unit.col (dc.getD 0))]
    else [])

/-- The test of line 116 on a candidate; every comparison with `NaN` is false. -/
def canStep (stringToNumber : String → Number) (units : List GameUnit)
    (p : Option JSVal × Option JSVal) : Bool :=
  match p.1, p.2 with
  | some nr, some nc =>
    numLe (some (Num.ofInt 0)) (toNumber stringToNumber nr) &&
    numLt (toNumber stringToNumber nr) (some (Num.ofInt ROWS)) &&
    numLe (some (Num.ofInt 0)) (toNumber stringToNumber nc) &&
    numLt (toNumber stringToNumber nc) (some (Num.ofInt COLS)) &&
    !isOccupied units nr nc
  | _, _ => false

def setHp (objs : List Slot) (r : Nat) (hp : JSNum) : List Slot :=
  objs.map (fun s => if s.ref == r then { s with unit := { s.unit with hp := hp } } else s)

def removeId (objs : List Slot) (id : Nat) : List Slot :=
  objs.map (fun s => if s.unit.id == id then { s with live := false } else s)

def setPos (objs : List Slot) (r : Nat) (nr nc : JSVal) : List Slot :=
  objs.map (fun s => if s.ref == r then { s with unit := { s.unit with row := nr, col := nc } } else s)

def attackStep (st : TickState) (unit : GameUnit) (nearest : Slot) : TickState :=
  let newHp := jsMax0 (jsSub nearest.unit.hp unit.dmg)
  let objs1 := setHp st.objs nearest.ref newHp
  let events1 := st.events ++ [Event.attack unit.id nearest.unit.id newHp unit.dmg]
  if jsLeZero newHp then
    ⟨removeId objs1 nearest.unit.id, events1 ++ [Event.death nearest.unit.id]⟩
  else
    ⟨objs1, events1⟩

def moveStep (stringToNumber : String → Number) (st : TickState) (r : Nat)
    (unit nearest : GameUnit) : TickState :=
  match (triesOf stringToNumber unit nearest).find? (canStep stringToNumber (liveUnits st.objs)) with
  | some (some nr, some nc) => ⟨setPos st.objs r nr nc, st.events ++ [Event.move unit.id nr nc]⟩
  | _ => st

/-- The callback of `snapshot.forEach` (lines 93-123) applied to the object `r`. -/
def tickUnit (stringToNumber : String → Number) (st : TickState) (r : Nat) : TickState :=
  match st.objs.find? (fun s => s.ref == r) with
  | none => st
  | some me =>
    let unit := me.unit
    if !(liveUnits st.objs).any (fun u => u.id == unit.id) then st
    else
      match chooseTarget stringToNumber st.objs unit with
      | none => st
      | some nearest =>
        if isAdj stringToNumber unit nearest.unit then attackStep st unit nearest
        else moveStep stringToNumber st r unit nearest.unit

def runTick (stringToNumber : String → Number) (snapshot : List Slot) : TickState :=
  (snapshot.map (fun s => s.ref)).foldl (tickUnit stringToNumber) ⟨snapshot, []⟩

def serializeUnits (units : List GameUnit) : List UnitView :=
  units.map (fun u => ⟨u.id, u.typeId, u.row, u.col, u.hp, u.maxHp, u.team⟩)

def gameTick (stringToNumber : String → Number) (state : GameState) :
    GameState × List Effect :=
  if !state.roundActive then (state, [])
  else
    let st := runTick stringToNumber (snapshotFrom 0 state.units)
    let state1 := { state with units := liveUnits st.objs }
    (state1, [Effect.broadcast (Msg.TICK (serializeUnits state1.units) st.events state1.timeLeft)])

/-- The `SPAWN` case (lines 258-286) with `row` and `col` as the message carries them. -/
def spawn (stringToNumber : String → Number) (state : GameState) (playerRole : Team)
    (typeId : String) (row col : JSVal) : GameState × List Effect :=
  if !state.roundActive then (state, [])
  else
    match UNITS typeId with
    | none => (state, [])
    | some unitDef =>
      let validZone :=
        (playerRole == Team.p1 && numLe (some (Num.ofInt 5)) (toNumber stringToNumber row)) ||
        (playerRole == Team.p2 && numLt (toNumber stringToNumber row) (some (Num.ofInt 5)))
      if !validZone then (state, [Effect.sendTo (Msg.SPAWN_DENIED "Wrong zone")])
      else if isOccupied state.units row col then
        (state, [Effect.sendTo (Msg.SPAWN_DENIED "Occupied")])
      else
        let unit : GameUnit :=
          { id := state.nextId, typeId := typeId, row := row, col := col,
            hp := unitDef.hp, maxHp := unitDef.hp, dmg := unitDef.dmg, team := playerRole }
        ({ state with nextId := state.nextId + 1, units := state.units ++ [unit] },
          [Effect.broadcast (Msg.UNIT_SPAWNED
            ⟨unit.id, typeId, row, col, unit.hp, unit.maxHp, playerRole⟩)])

/-- The state after `startRound` on the state of `initGameState`. -/
def firstRound : GameState :=
  { round := 1, maxRounds := 3, timeLeft := 20, p1Stars := 0, p2Stars := 0, units := [],
    nextId := 0, roundActive := true }

/-- The state after a list of SPAWN commands, each with role, typeId, row and col. -/
def spawnAll (stringToNumber : String → Number) (state : GameState) :
    List (Team × String × JSVal × JSVal) → GameState
  | [] => state
  | c :: cs => spawnAll stringToNumber (spawn stringToNumber state c.1 c.2.1 c.2.2.1 c.2.2.2).1 cs

/-- The conversion of strings to numbers on the strings the examples use: a string
of one decimal digit is that digit, and "7-1", like every string here that is not
one digit, is not a number. -/
def digitToNumber (s : String) : Number :=
  match s.data with
  | [c] => if c.isDigit then some (Num.ofInt (c.toNat - 48)) else none
  | _ => none

end Untyped

/-- Whether two units stand on the same cell: both rows are numbers of the same
value, and so are both cols. -/
def Untyped.sameCell (stringToNumber : String → Untyped.Number) (a b : Untyped.GameUnit) :
    Bool :=
  (match Untyped.toNumber stringToNumber a.row, Untyped.toNumber stringToNumber b.row with
    | some x, some y => Untyped.Num.eq x y
    | _, _ => false) &&
  (match Untyped.toNumber stringToNumber a.col, Untyped.toNumber stringToNumber b.col with
    | some x, some y => Untyped.Num.eq x y
    | _, _ => false)

/-- Whether some two units of the list stand on the same cell. -/
def Untyped.cellShared (stringToNumber : String → Untyped.Number) :
    List Untyped.GameUnit → Bool
  | [] => false
  | u :: us => us.any (Untyped.sameCell stringToNumber u) || Untyped.cellShared stringToNumber us

/-- A tank of p1 at (5, 5), spawned with numbers. -/
def Untyped.tankAt55 : Untyped.GameState :=
  Untyped.spawnAll Untyped.digitToNumber Untyped.firstRound
    [(Team.p1, "tank", Untyped.JSVal.num ⟨5, 0⟩, Untyped.JSVal.num ⟨5, 0⟩)]

/-- A soldier of p1 spawned with row "5" (a string) and col 5, a tank of p1 at
(6, 5) and a mage of p2 at (3, 5). -/
def Untyped.stringRow5 : Untyped.GameState :=
  Untyped.spawnAll Untyped.digitToNumber Untyped.firstRound
    [(Team.p1, "soldier", Untyped.JSVal.str "5", Untyped.JSVal.num ⟨5, 0⟩),
     (Team.p1, "tank", Untyped.JSVal.num ⟨6, 0⟩, Untyped.JSVal.num ⟨5, 0⟩),
     (Team.p2, "mage", Untyped.JSVal.num ⟨3, 0⟩, Untyped.JSVal.num ⟨5, 0⟩)]

/-- A soldier of p1 spawned at row 5, col 10.5, and a mage of p2 at (4, 3). -/
def Untyped.halfCol : Untyped.GameState :=
  Untyped.spawnAll Untyped.digitToNumber Untyped.firstRound
    [(Team.p1, "soldier", Untyped.JSVal.num ⟨5, 0⟩, Untyped.JSVal.num ⟨21, 1⟩),
     (Team.p2, "mage", Untyped.JSVal.num ⟨4, 0⟩, Untyped.JSVal.num ⟨3, 0⟩)]

/-- A soldier of p1 at (5, 5), a mage of p2 spawned at row 0 without col, and an
archer of p2 at (4, 5). -/
def Untyped.missingCol : Untyped.GameState :=
  Untyped.spawnAll Untyped.digitToNumber Untyped.firstRound
    [(Team.p1, "soldier", Untyped.JSVal.num ⟨5, 0⟩, Untyped.JSVal.num ⟨5, 0⟩),
     (Team.p2, "mage", Untyped.JSVal.num ⟨0, 0⟩, Untyped.JSVal.undefined),
     (Team.p2, "archer", Untyped.JSVal.num ⟨4, 0⟩, Untyped.JSVal.num ⟨5, 0⟩)]

/-- A soldier of p1 spawned with row "7" (a string) and col 3, and a mage of p2 at (0, 3). -/
def Untyped.stringRow7 : Untyped.GameState :=
  Untyped.spawnAll Untyped.digitToNumber Untyped.firstRound
    [(Team.p1, "soldier", Untyped.JSVal.str "7", Untyped.JSVal.num ⟨3, 0⟩),
     (Team.p2, "mage", Untyped.JSVal.num ⟨0, 0⟩, Untyped.JSVal.num ⟨3, 0⟩)]

/-- A soldier of p1 at (5, 3) and a mage of p2 spawned at row 4.5, col 0. -/
def Untyped.halfRow : Untyped.GameState :=
  Untyped.spawnAll Untyped.digitToNumber Untyped.firstRound
    [(Team.p1, "soldier", Untyped.JSVal.num ⟨5, 0⟩, Untyped.JSVal.num ⟨3, 0⟩),
     (Team.p2, "mage", Untyped.JSVal.num ⟨9, 1⟩, Untyped.JSVal.num ⟨0, 0⟩)]

/-- The `JOIN_ROOM` case (lines 230-256) with `msg.code` as the message carries it:
for a string the method `toUpperCase` is called, for a missing or null code the
operator `?.` gives `undefined`, and for a boolean or a number the call
`msg.code?.toUpperCase()` throws a TypeError, which nothing catches (the `try` of
line 213 ends before the `switch`), so that the process exits: `none`. -/
def Untyped.joinRoom (w : World) (ws : Nat) (code : Untyped.JSVal) (name : Option String) :
    Option (World × List Out) :=
  match code with
  | Untyped.JSVal.str s => some (stepWorld w (Input.joinRoom ws (some s) name))
  | Untyped.JSVal.undefined => some (stepWorld w (Input.joinRoom ws none name))
  | Untyped.JSVal.null => some (stepWorld w (Input.joinRoom ws none name))
  | Untyped.JSVal.bool _ => none
  | Untyped.JSVal.num _ => none

/-- Two mages facing each other, p1 at (5, 5) and p2 at (4, 5), after one tick: each
has hit the other and has hp 7. -/
def Untyped.magesAfterTick : Untyped.GameState :=
  (Untyped.gameTick Untyped.digitToNumber
    (Untyped.spawnAll Untyped.digitToNumber Untyped.firstRound
      [(Team.p1, "mage", Untyped.JSVal.num ⟨5, 0⟩, Untyped.JSVal.num ⟨5, 0⟩),
       (Team.p2, "mage", Untyped.JSVal.num ⟨4, 0⟩, Untyped.JSVal.num ⟨5, 0⟩)])).1

/-- The rational value of a finite number. -/
def Untyped.Num.val (a : Untyped.Num) : ℚ := a.m / 2 ^ a.k

/-- A soldier of p1 at (5, 5), then a mage of p2 at (3, 5) and an archer of p2 at
(4, 4), spawned in that order with numbers. -/
def Untyped.diagonalTie : Untyped.GameState :=
  Untyped.spawnAll Untyped.digitToNumber Untyped.firstRound
    [(Team.p1, "soldier", Untyped.JSVal.num ⟨5, 0⟩, Untyped.JSVal.num ⟨5, 0⟩),
     (Team.p2, "mage", Untyped.JSVal.num ⟨3, 0⟩, Untyped.JSVal.num ⟨5, 0⟩),
     (Team.p2, "archer", Untyped.JSVal.num ⟨4, 0⟩, Untyped.JSVal.num ⟨4, 0⟩)]

/-- A soldier of p1 at (5, 5), then a mage of p2 at (2, 5), a tank of p1 at (6, 6)
and an archer of p2 at (4, 4), spawned in that order with numbers. -/
def Untyped.diagonalNear : Untyped.GameState :=
  Untyped.spawnAll Untyped.digitToNumber Untyped.firstRound
    [(Team.p1, "soldier", Untyped.JSVal.num ⟨5, 0⟩, Untyped.JSVal.num ⟨5, 0⟩),
     (Team.p2, "mage", Untyped.JSVal.num ⟨2, 0⟩, Untyped.JSVal.num ⟨5, 0⟩),
     (Team.p1, "tank", Untyped.JSVal.num ⟨6, 0⟩, Untyped.JSVal.num ⟨6, 0⟩),
     (Team.p2, "archer", Untyped.JSVal.num ⟨4, 0⟩, Untyped.JSVal.num ⟨4, 0⟩)]

/-- An integer as a value of a message. -/
def intVal (n : Int) : Untyped.JSVal := Untyped.JSVal.num ⟨n, 0⟩

/-- A unit with integer row and col as a unit object of the code. -/
def intUnit (u : GameUnit) : Untyped.GameUnit :=
  ⟨u.id, u.typeId, intVal u.row, intVal u.col, u.hp, u.maxHp, u.dmg, u.team⟩

def intSlot (s : Slot) : Untyped.Slot := ⟨s.ref, intUnit s.unit, s.live⟩

def intEvent : Event → Untyped.Event
  | Event.attack a t h d => Untyped.Event.attack a t h d
  | Event.death u => Untyped.Event.death u
  | Event.move u r c => Untyped.Event.move u (intVal r) (intVal c)

def intTick (st : TickState) : Untyped.TickState :=
  ⟨st.objs.map intSlot, st.events.map intEvent⟩

def intState (s : GameState) : Untyped.GameState :=
  ⟨s.round, s.maxRounds, s.timeLeft, s.p1Stars, s.p2Stars, s.units.map intUnit,
    s.nextId, s.roundActive⟩

/-! ## Theorems -/

/-- C3: `endRound` adds one star to p1 and none to p2 when p1 has strictly more units
(winner p1), symmetrically for p2, and changes no star count when the counts are
equal (winner null); the sum of the stars grows by at most 1 and no count shrinks. -/
theorem endRound_star_award (state : GameState) :
    (teamCount state.units Team.p1 > teamCount state.units Team.p2 →
      (endRound state).1.p1Stars = state.p1Stars + 1 ∧
      (endRound state).1.p2Stars = state.p2Stars ∧
      Effect.broadcast (Msg.ROUND_END state.round (some Team.p1)
        (teamCount state.units Team.p1) (teamCount state.units Team.p2)
        (state.p1Stars + 1) state.p2Stars) ∈ (endRound state).2) ∧
    (teamCount state.units Team.p2 > teamCount state.units Team.p1 →
      (endRound state).1.p2Stars = state.p2Stars + 1 ∧
      (endRound state).1.p1Stars = state.p1Stars ∧
      Effect.broadcast (Msg.ROUND_END state.round (some Team.p2)
        (teamCount state.units Team.p1) (teamCount state.units Team.p2)
        state.p1Stars (state.p2Stars + 1)) ∈ (endRound state).2) ∧
    (teamCount state.units Team.p1 = teamCount state.units Team.p2 →
      (endRound state).1.p1Stars = state.p1Stars ∧
      (endRound state).1.p2Stars = state.p2Stars ∧
      Effect.broadcast (Msg.ROUND_END state.round none
        (teamCount state.units Team.p1) (teamCount state.units Team.p2)
        state.p1Stars state.p2Stars) ∈ (endRound state).2) ∧
    (endRound state).1.p1Stars + (endRound state).1.p2Stars ≤ state.p1Stars + state.p2Stars + 1 ∧
    state.p1Stars ≤ (endRound state).1.p1Stars ∧ state.p2Stars ≤ (endRound state).1.p2Stars := by
  unfold teamCount endRound
  refine ⟨?_, ?_, ?_, ?_, ?_, ?_⟩
  all_goals
    intros
    simp only []
    split_ifs <;> simp_all <;> omega

/-- C4: `endRound` sends exactly one `ROUND_END` and after it schedules exactly one
timeout and nothing else: the `GAME_OVER` broadcast, with `round` unchanged and no
`startRound`, exactly when after the award p1Stars >= 2 or p2Stars >= 2 or
round >= maxRounds; otherwise `startRound`, with `round` incremented by 1. -/
theorem endRound_follow_up (state : GameState) :
    ((endRound state).2.filter isRoundEnd).length = 1 ∧
    (∃ e ms d, (endRound state).2.filter (fun x => isRoundEnd x || isFollowUp x) =
        [e, Effect.setTimeout ms d] ∧ isRoundEnd e = true) ∧
    (((endRound state).1.p1Stars ≥ 2 ∨ (endRound state).1.p2Stars ≥ 2 ∨
        state.round ≥ state.maxRounds) ↔
      Effect.setTimeout 2500 Deferred.broadcastGameOver ∈ (endRound state).2) ∧
    (Effect.setTimeout 2500 Deferred.broadcastGameOver ∈ (endRound state).2 →
      (endRound state).1.round = state.round ∧
      ∀ ms, Effect.setTimeout ms Deferred.startRound ∉ (endRound state).2) ∧
    (Effect.setTimeout 2500 Deferred.broadcastGameOver ∉ (endRound state).2 →
      (endRound state).1.round = state.round + 1 ∧
      Effect.setTimeout 3000 Deferred.startRound ∈ (endRound state).2 ∧
      ∀ ms, Effect.setTimeout ms Deferred.broadcastGameOver ∉ (endRound state).2) := by
  unfold endRound
  simp only []
  split_ifs <;> simp_all [isRoundEnd, isFollowUp, List.filter] <;> omega

theorem spawn_cases (state : GameState) (playerRole : Team) (typeId : String) (row col : Int) :
    (spawn state playerRole typeId row col).1 = state ∨
    ∃ unitDef, UNITS typeId = some unitDef ∧ state.roundActive = true ∧
      ((playerRole = Team.p1 ∧ 5 ≤ row) ∨ (playerRole = Team.p2 ∧ row < 5)) ∧
      isOccupied state.units row col = false ∧
      spawn state playerRole typeId row col =
        ({ state with nextId := state.nextId + 1, units := state.units ++
            [{ id := state.nextId, typeId := typeId, row := row, col := col, hp := unitDef.hp,
               maxHp := unitDef.hp, dmg := unitDef.dmg, team := playerRole }] },
          [Effect.broadcast (Msg.UNIT_SPAWNED
            ⟨state.nextId, typeId, row, col, unitDef.hp, unitDef.hp, playerRole⟩)]) := by
  by_cases hact : state.roundActive = true
  · cases hu : UNITS typeId with
    | none => left; simp [spawn, hact, hu]
    | some unitDef =>
      by_cases hz : (playerRole = Team.p1 ∧ 5 ≤ row) ∨ (playerRole = Team.p2 ∧ row < 5)
      · by_cases hocc : isOccupied state.units row col = true
        · left
          have hz' : (playerRole == Team.p1 && decide (row ≥ 5) ||
              playerRole == Team.p2 && decide (row < 5)) = true := by simpa using hz
          simp [spawn, hact, hu, hz', hocc]
        · right
          have hz' : (playerRole == Team.p1 && decide (row ≥ 5) ||
              playerRole == Team.p2 && decide (row < 5)) = true := by simpa using hz
          refine ⟨unitDef, rfl, hact, hz, by simpa using hocc, ?_⟩
          simp [spawn, hact, hu, hz', hocc]
      · left
        have hz' : (playerRole == Team.p1 && decide (row ≥ 5) ||
            playerRole == Team.p2 && decide (row < 5)) = false := by
          rw [← Bool.not_eq_true]; simpa using hz
        simp [spawn, hact, hu, hz']
  · left; simp [spawn, hact]

theorem spawnedIds_append (xs ys : List Effect) :
    spawnedIds (xs ++ ys) = spawnedIds xs ++ spawnedIds ys := by
  induction xs with
  | nil => rfl
  | cons x xs ih =>
    cases x with
    | broadcast m => cases m <;> simp [spawnedIds, ih]
    | _ => simp [spawnedIds, ih]

theorem step_nextId (state : GameState) (op : Op) :
    (spawnedIds (step state op).2 = [] ∧ (step state op).1.nextId = state.nextId) ∨
    (spawnedIds (step state op).2 = [state.nextId] ∧
      (step state op).1.nextId = state.nextId + 1) := by
  cases op with
  | startRound => left; simp [step, startRound, spawnedIds]
  | spawn role typeId row col =>
    simp only [step, spawn]
    cases UNITS typeId with
    | none => left; split_ifs <;> simp [spawnedIds]
    | some unitDef =>
      simp only []
      split_ifs
      · left; simp [spawnedIds]
      · left; simp [spawnedIds]
      · left; simp [spawnedIds]
      · right; simp [spawnedIds]
  | gameTick =>
    left
    simp only [step, gameTick]
    split_ifs <;> simp [spawnedIds]
  | timerTick =>
    left
    simp only [step, timerTick, endRound]
    split_ifs <;> simp [spawnedIds]
  | endRound =>
    left
    simp only [step, endRound]
    split_ifs <;> simp [spawnedIds]

theorem run_ids (ops : List Op) : ∀ state : GameState,
    (spawnedIds (run state ops).2).Pairwise (fun a b => a < b) ∧
    state.nextId ≤ (run state ops).1.nextId ∧
    ∀ id ∈ spawnedIds (run state ops).2, state.nextId ≤ id ∧ id < (run state ops).1.nextId := by
  induction ops with
  | nil => intro state; simp [run, spawnedIds]
  | cons op ops ih =>
    intro state
    obtain ⟨hp, hle, hb⟩ := ih (step state op).1
    simp only [run, spawnedIds_append]
    rcases step_nextId state op with ⟨h1, h2⟩ | ⟨h1, h2⟩
    · rw [h2] at hle hb
      rw [h1]
      simpa using ⟨hp, hle, hb⟩
    · rw [h1]
      rw [h2] at hle hb
      refine ⟨?_, by omega, ?_⟩
      · simp only [List.singleton_append, List.pairwise_cons]
        exact ⟨fun b hb2 => by have := hb b hb2; omega, hp⟩
      · intro id hid
        simp only [List.singleton_append, List.mem_cons] at hid
        rcases hid with rfl | hid
        · omega
        · have := hb id hid; omega

/-- C2: over any sequence of startRound, SPAWN, gameTick, timer tick and endRound
from any state, the ids announced for spawned units are strictly increasing (hence
pairwise different), each lies between the first and the last value of `nextId`,
`nextId` does not decrease, `startRound` keeps it, and a spawned unit carries the
announced id, which is the value of `nextId` before the command. -/
theorem ids_strictly_increasing (state : GameState) (ops : List Op) :
    (spawnedIds (run state ops).2).Pairwise (fun a b => a < b) ∧
    (spawnedIds (run state ops).2).Nodup ∧
    state.nextId ≤ (run state ops).1.nextId ∧
    (∀ id ∈ spawnedIds (run state ops).2, state.nextId ≤ id ∧ id < (run state ops).1.nextId) ∧
    (startRound state).1.nextId = state.nextId ∧
    (∀ playerRole typeId row col,
      ((spawn state playerRole typeId row col).1 = state ∧
        spawnedIds (spawn state playerRole typeId row col).2 = []) ∨
      ∃ u, (spawn state playerRole typeId row col).1.units = state.units ++ [u] ∧
        u.id = state.nextId ∧
        spawnedIds (spawn state playerRole typeId row col).2 = [state.nextId] ∧
        (spawn state playerRole typeId row col).1.nextId = state.nextId + 1) := by
  obtain ⟨hp, hle, hb⟩ := run_ids ops state
  refine ⟨hp, hp.imp (fun h => Nat.ne_of_lt h), hle, hb, rfl, ?_⟩
  intro playerRole typeId row col
  rcases spawn_cases state playerRole typeId row col with e | ⟨unitDef, _, _, _, _, e⟩
  · left
    refine ⟨e, ?_⟩
    rcases step_nextId state (Op.spawn playerRole typeId row col) with h | h
    · exact h.1
    · have h2 := h.2
      simp only [step] at h2
      rw [e] at h2
      omega
  · right
    rw [e]
    exact ⟨_, rfl, rfl, rfl, rfl⟩

/-- C10 fails for an id that is no catalog entry but a property inherited from
`Object.prototype`: in an active round the command with typeId "constructor" adds a
unit without hp and dmg, increments `nextId` and is announced to the room. -/
theorem spawn_inherited_key :
    ("constructor" ∉ catalog.map (fun e => e.1)) ∧
    (spawn (startRound initGameState).1 Team.p1 "constructor" 5 0).1.units =
      [⟨0, "constructor", 5, 0, none, none, none, Team.p1⟩] ∧
    (spawn (startRound initGameState).1 Team.p1 "constructor" 5 0).1.nextId = 1 ∧
    (spawn (startRound initGameState).1 Team.p1 "constructor" 5 0).2 =
      [Effect.broadcast (Msg.UNIT_SPAWNED ⟨0, "constructor", 5, 0, none, none, Team.p1⟩)] := by
  decide
theorem nearestOf_foldl (unit : GameUnit) (l : List Slot) : ∀ b : Slot,
    (nearestOf unit b l = b ∧ ∀ s ∈ l, dist unit b.unit ≤ dist unit s.unit) ∨
    (∃ pre post, l = pre ++ nearestOf unit b l :: post ∧
      dist unit (nearestOf unit b l).unit < dist unit b.unit ∧
      (∀ s ∈ pre, dist unit (nearestOf unit b l).unit < dist unit s.unit) ∧
      ∀ s ∈ post, dist unit (nearestOf unit b l).unit ≤ dist unit s.unit) := by
  induction l with
  | nil => intro b; left; simp [nearestOf]
  | cons x xs ih =>
    intro b
    have hstep : nearestOf unit b (x :: xs) =
        nearestOf unit (if dist unit x.unit < dist unit b.unit then x else b) xs := by
      simp [nearestOf]
    rw [hstep]
    by_cases hx : dist unit x.unit < dist unit b.unit
    · rw [if_pos hx]
      right
      rcases ih x with ⟨h1, h2⟩ | ⟨pre, post, h1, h2, h3, h4⟩
      · refine ⟨[], xs, ?_, ?_, ?_, ?_⟩
        · rw [h1]; rfl
        · rw [h1]; exact hx
        · intro s hs; cases hs
        · rw [h1]; exact h2
      · refine ⟨x :: pre, post, ?_, by omega, ?_, h4⟩
        · rw [List.cons_append, ← h1]
        · intro s hs
          rcases List.mem_cons.mp hs with rfl | hs
          · exact h2
          · exact h3 s hs
    · rw [if_neg hx]
      rcases ih b with ⟨h1, h2⟩ | ⟨pre, post, h1, h2, h3, h4⟩
      · left
        refine ⟨h1, ?_⟩
        intro s hs
        rcases List.mem_cons.mp hs with rfl | hs
        · omega
        · exact h2 s hs
      · right
        refine ⟨x :: pre, post, ?_, h2, ?_, h4⟩
        · rw [List.cons_append, ← h1]
        · intro s hs
          rcases List.mem_cons.mp hs with rfl | hs
          · omega
          · exact h3 s hs

theorem nearestOf_first_min (unit : GameUnit) (e0 : Slot) (rest : List Slot) :
    ∃ pre post, e0 :: rest = pre ++ nearestOf unit e0 (e0 :: rest) :: post ∧
      (∀ s ∈ pre, dist unit (nearestOf unit e0 (e0 :: rest)).unit < dist unit s.unit) ∧
      ∀ s ∈ post, dist unit (nearestOf unit e0 (e0 :: rest)).unit ≤ dist unit s.unit := by
  have hstep : nearestOf unit e0 (e0 :: rest) = nearestOf unit e0 rest := by
    simp [nearestOf]
  rw [hstep]
  rcases nearestOf_foldl unit rest e0 with ⟨h1, h2⟩ | ⟨pre, post, h1, h2, h3, h4⟩
  · exact ⟨[], rest, by rw [h1]; rfl, (by intro s hs; cases hs), (by rw [h1]; exact h2)⟩
  · refine ⟨e0 :: pre, post, by rw [List.cons_append, ← h1], ?_, h4⟩
    intro s hs
    rcases List.mem_cons.mp hs with rfl | hs
    · exact h2
    · exact h3 s hs

theorem chooseTarget_eq_none (objs : List Slot) (unit : GameUnit) :
    chooseTarget objs unit = none ↔ enemiesOf objs unit = [] := by
  unfold chooseTarget
  split <;> simp_all

theorem chooseTarget_spec (objs : List Slot) (unit : GameUnit) (t : Slot)
    (h : chooseTarget objs unit = some t) :
    t.live = true ∧ t.unit.team ≠ unit.team ∧
    ∃ pre post, objs = pre ++ t :: post ∧
      (∀ s ∈ pre, s.live = true → s.unit.team ≠ unit.team →
        dist unit t.unit < dist unit s.unit) ∧
      (∀ s ∈ post, s.live = true → s.unit.team ≠ unit.team →
        dist unit t.unit ≤ dist unit s.unit) := by
  unfold chooseTarget at h
  split at h
  · cases h
  · rename_i e0 rest he
    simp only [Option.some.injEq] at h
    obtain ⟨pre, post, h1, h2, h3⟩ := nearestOf_first_min unit e0 rest
    rw [h] at h1 h2 h3
    rw [← he] at h1
    unfold enemiesOf at h1
    obtain ⟨l1, l2, hl, hf1, hf2⟩ := List.filter_eq_append_iff.mp h1
    obtain ⟨m1, m2, hm, hn, hp, hf3⟩ := List.filter_eq_cons_iff.mp hf2
    have hp' : t.live = true ∧ t.unit.team ≠ unit.team := by simpa using hp
    refine ⟨hp'.1, hp'.2, l1 ++ m1, m2, by rw [hl, hm, List.append_assoc], ?_, ?_⟩
    · intro s hs hlive hteam
      rcases List.mem_append.mp hs with hs | hs
      · apply h2
        rw [← hf1]
        exact List.mem_filter.mpr ⟨hs, by simp [hlive, hteam]⟩
      · exact absurd (by simp [hlive, hteam]) (hn s hs)
    · intro s hs hlive hteam
      apply h3
      rw [← hf3]
      exact List.mem_filter.mpr ⟨hs, by simp [hlive, hteam]⟩

/-- The chosen target when every row and col is an integer: when `state.units` holds
an enemy of the acting unit, the chosen target is an
element of `state.units` of the other team, strictly nearer in Manhattan distance
than every enemy before it in the list and at least as near as every enemy after it. -/
theorem target_is_nearest_first (objs : List Slot) (unit : GameUnit)
    (hEnemy : ∃ s ∈ objs, s.live = true ∧ s.unit.team ≠ unit.team) :
    ∃ t pre post, chooseTarget objs unit = some t ∧ objs = pre ++ t :: post ∧
      t.live = true ∧ t.unit.team ≠ unit.team ∧
      (∀ s ∈ pre, s.live = true → s.unit.team ≠ unit.team →
        dist unit t.unit < dist unit s.unit) ∧
      (∀ s ∈ post, s.live = true → s.unit.team ≠ unit.team →
        dist unit t.unit ≤ dist unit s.unit) := by
  obtain ⟨s, hs, hlive, hteam⟩ := hEnemy
  cases hc : chooseTarget objs unit with
  | none =>
    have := (chooseTarget_eq_none objs unit).mp hc
    have hmem : s ∈ enemiesOf objs unit :=
      List.mem_filter.mpr ⟨hs, by simp [hlive, hteam]⟩
    rw [this] at hmem
    cases hmem
  | some t =>
    obtain ⟨h1, h2, pre, post, h3, h4, h5⟩ := chooseTarget_spec objs unit t hc
    exact ⟨t, pre, post, rfl, h3, h1, h2, h4, h5⟩

theorem jsLeZero_max0 (a : JSNum) : jsLeZero (jsMax0 a) = true ↔ jsMax0 a = some 0 := by
  cases a with
  | none => simp [jsLeZero, jsMax0]
  | some x =>
    simp only [jsLeZero, jsMax0, decide_eq_true_eq, Option.some.injEq]
    omega

theorem tickUnit_attack (st : TickState) (r : Nat) (me t : Slot)
    (hme : st.objs.find? (fun s => s.ref == r) = some me)
    (hact : (liveUnits st.objs).any (fun u => u.id == me.unit.id) = true)
    (ht : chooseTarget st.objs me.unit = some t)
    (hadj : isAdj me.unit t.unit = true) :
    tickUnit st r = attackStep st me.unit t := by
  unfold tickUnit
  simp [hme, hact, ht, hadj]

theorem tickUnit_move (st : TickState) (r : Nat) (me t : Slot)
    (hme : st.objs.find? (fun s => s.ref == r) = some me)
    (hact : (liveUnits st.objs).any (fun u => u.id == me.unit.id) = true)
    (ht : chooseTarget st.objs me.unit = some t)
    (hadj : isAdj me.unit t.unit = false) :
    tickUnit st r = moveStep st r me.unit t.unit := by
  unfold tickUnit
  simp [hme, hact, ht, hadj]

theorem canStep_iff (units : List GameUnit) (p : Int × Int) :
    canStep units p = true ↔ FreeCell units p := by
  simp only [canStep, FreeCell, ROWS, COLS, isOccupied, Bool.and_eq_true, decide_eq_true_eq,
    Bool.not_eq_true', List.any_eq_false, beq_iff_eq, not_and, ge_iff_le]
  constructor
  · rintro ⟨⟨⟨⟨h1, h2⟩, h3⟩, h4⟩, h5⟩
    exact ⟨h1, by omega, h3, by omega, fun u hu => by simpa using h5 u hu⟩
  · rintro ⟨h1, h2, h3, h4, h5⟩
    exact ⟨⟨⟨⟨h1, by omega⟩, h3⟩, by omega⟩, fun u hu => by simpa using h5 u hu⟩

theorem triesOf_eq (unit nearest : GameUnit) :
    triesOf unit nearest = stepCandidates unit.row unit.col
      (Int.sign (nearest.row - unit.row)) (Int.sign (nearest.col - unit.col)) := by
  unfold triesOf stepCandidates
  simp only []
  by_cases h1 : Int.sign (nearest.row - unit.row) = 0 <;>
    by_cases h2 : Int.sign (nearest.col - unit.col) = 0 <;> simp [h1, h2]

theorem stepCandidates_ne (row col dr dc : Int) (p : Int × Int)
    (hp : p ∈ stepCandidates row col dr dc) : p ≠ (row, col) := by
  unfold stepCandidates at hp
  simp only [List.mem_append] at hp
  rcases hp with (hp | hp) | hp
  · split_ifs at hp with h
    · cases hp
    · simp only [List.mem_singleton] at hp
      rw [hp]; intro hc; simp only [Prod.mk.injEq] at hc; omega
  · split_ifs at hp with h
    · cases hp
    · simp only [List.mem_singleton] at hp
      rw [hp]; intro hc; simp only [Prod.mk.injEq] at hc; omega
  · split_ifs at hp with h
    · cases hp
    · simp only [List.mem_singleton] at hp
      rw [hp]; intro hc; simp only [Prod.mk.injEq] at hc; omega

theorem find?_map_ref (objs : List Slot) (r : Nat) (f : Slot → Slot)
    (hf : ∀ s, (f s).ref = s.ref) :
    (objs.map f).find? (fun s => s.ref == r) = (objs.find? (fun s => s.ref == r)).map f := by
  induction objs with
  | nil => rfl
  | cons x xs ih =>
    simp only [List.map_cons, List.find?_cons, hf]
    cases h : x.ref == r <;> simp [ih]

/-- The move rule when every row and col is an integer: when the chosen target of an
acting unit is not adjacent, the unit goes to
the first candidate, in the order row-step, col-step, diagonal without the candidates
whose step component is zero, that is in bounds and free; it then has a new cell and
one move event for that cell is appended; when no candidate qualifies, nothing
changes and no event is appended. -/
theorem move_rule (st : TickState) (r : Nat) (me t : Slot)
    (hme : st.objs.find? (fun s => s.ref == r) = some me)
    (hact : (liveUnits st.objs).any (fun u => u.id == me.unit.id) = true)
    (ht : chooseTarget st.objs me.unit = some t)
    (hadj : isAdj me.unit t.unit = false) :
    (∀ pre c post,
      stepCandidates me.unit.row me.unit.col (Int.sign (t.unit.row - me.unit.row))
        (Int.sign (t.unit.col - me.unit.col)) = pre ++ c :: post →
      (∀ p ∈ pre, ¬FreeCell (liveUnits st.objs) p) → FreeCell (liveUnits st.objs) c →
      (tickUnit st r).events = st.events ++ [Event.move me.unit.id c.1 c.2] ∧
      (tickUnit st r).objs = setPos st.objs r c.1 c.2 ∧
      (tickUnit st r).objs.find? (fun s => s.ref == r) =
        some { me with unit := { me.unit with row := c.1, col := c.2 } } ∧
      c ≠ (me.unit.row, me.unit.col)) ∧
    ((∀ p ∈ stepCandidates me.unit.row me.unit.col (Int.sign (t.unit.row - me.unit.row))
        (Int.sign (t.unit.col - me.unit.col)), ¬FreeCell (liveUnits st.objs) p) →
      tickUnit st r = st) := by
  rw [tickUnit_move st r me t hme hact ht hadj]
  unfold moveStep
  rw [triesOf_eq]
  constructor
  · intro pre c post hsplit hpre hc
    have hfind : (stepCandidates me.unit.row me.unit.col (Int.sign (t.unit.row - me.unit.row))
        (Int.sign (t.unit.col - me.unit.col))).find? (canStep (liveUnits st.objs)) = some c := by
      rw [List.find?_eq_some]
      refine ⟨(canStep_iff _ _).mpr hc, pre, post, hsplit, ?_⟩
      intro a ha
      have := hpre a ha
      rw [← canStep_iff] at this
      simpa using this
    rw [hfind]
    refine ⟨rfl, rfl, ?_, ?_⟩
    · simp only [setPos]
      rw [find?_map_ref _ _ _ (by intro s; split_ifs <;> rfl), hme]
      have : me.ref = r := by simpa using List.find?_some hme
      simp [this]
    · apply stepCandidates_ne _ _ _ _ c
      rw [hsplit]; simp
  · intro hnone
    have hfind : (stepCandidates me.unit.row me.unit.col (Int.sign (t.unit.row - me.unit.row))
        (Int.sign (t.unit.col - me.unit.col))).find? (canStep (liveUnits st.objs)) = none := by
      rw [List.find?_eq_none]
      intro a ha
      have := hnone a ha
      rw [← canStep_iff] at this
      exact this
    rw [hfind]

theorem isAdj_facts (a b : GameUnit) (h : isAdj a b = true) :
    (a.row - b.row).natAbs ≤ 1 ∧ (a.col - b.col).natAbs ≤ 1 ∧
    (b.row - a.row).natAbs ≤ 1 ∧ (b.col - a.col).natAbs ≤ 1 ∧
    (¬a.row = b.row ∨ ¬a.col = b.col) ∧ (¬b.row = a.row ∨ ¬b.col = a.col) := by
  simp only [isAdj, Bool.and_eq_true, decide_eq_true_eq, Bool.not_eq_true', 
    Bool.and_eq_false_iff, beq_eq_false_iff_ne, ne_eq] at h
  obtain ⟨⟨h1, h2⟩, h3⟩ := h
  refine ⟨h1, h2, by omega, by omega, h3, ?_⟩
  rcases h3 with h3 | h3
  · exact Or.inl fun hc => h3 hc.symm
  · exact Or.inr fun hc => h3 hc.symm

theorem pair_tick (x y : GameUnit) (hx hy dx dy : Int)
    (hteam : x.team ≠ y.team) (hid : x.id ≠ y.id) (hadj : isAdj x y = true)
    (hxhp : x.hp = some hx) (hyhp : y.hp = some hy)
    (hxd : x.dmg = some dx) (hyd : y.dmg = some dy) :
    runTick (snapshotFrom 0 [x, y]) =
      if hy - dx ≤ 0 then
        ⟨[⟨0, x, true⟩, ⟨1, { y with hp := some 0 }, false⟩],
          [Event.attack x.id y.id (some 0) (some dx), Event.death y.id]⟩
      else if hx - dy ≤ 0 then
        ⟨[⟨0, { x with hp := some 0 }, false⟩, ⟨1, { y with hp := some (hy - dx) }, true⟩],
          [Event.attack x.id y.id (some (hy - dx)) (some dx),
           Event.attack y.id x.id (some 0) (some dy), Event.death x.id]⟩
      else
        ⟨[⟨0, { x with hp := some (hx - dy) }, true⟩, ⟨1, { y with hp := some (hy - dx) }, true⟩],
          [Event.attack x.id y.id (some (hy - dx)) (some dx),
           Event.attack y.id x.id (some (hx - dy)) (some dy)]⟩ := by
  obtain ⟨a1, a2, a3, a4, a5, a6⟩ := isAdj_facts x y hadj
  have hteam' : y.team ≠ x.team := fun h => hteam h.symm
  have hid' : y.id ≠ x.id := fun h => hid h.symm
  by_cases c1 : hy - dx ≤ 0
  · have m1 : max 0 (hy - dx) = 0 := by omega
    simp [runTick, snapshotFrom, tickUnit, liveUnits, chooseTarget, enemiesOf, nearestOf, 
      attackStep, setHp, removeId, jsMax0, jsSub, jsLeZero, isAdj, *]
  · have m1 : max 0 (hy - dx) = hy - dx := by omega
    by_cases c2 : hx - dy ≤ 0
    · have m2 : max 0 (hx - dy) = 0 := by omega
      simp [runTick, snapshotFrom, tickUnit, liveUnits, chooseTarget, enemiesOf, nearestOf, 
        attackStep, setHp, removeId, jsMax0, jsSub, jsLeZero, isAdj, *]
    · have m2 : max 0 (hx - dy) = hx - dy := by omega
      simp [runTick, snapshotFrom, tickUnit, liveUnits, chooseTarget, enemiesOf, nearestOf, 
        attackStep, setHp, removeId, jsMax0, jsSub, jsLeZero, isAdj, *]

theorem pair_both_survive (state : GameState) (x y : GameUnit) (hx hy dx dy : Int)
    (hactive : state.roundActive = true) (hunits : state.units = [x, y])
    (hteam : x.team ≠ y.team) (hid : x.id ≠ y.id) (hadj : isAdj x y = true)
    (hxhp : x.hp = some hx) (hyhp : y.hp = some hy)
    (hxd : x.dmg = some dx) (hyd : y.dmg = some dy)
    (c1 : 0 < hy - dx) (c2 : 0 < hx - dy) :
    (gameTick state).1 = { state with units :=
      [{ x with hp := some (hx - dy) }, { y with hp := some (hy - dx) }] } ∧
    tickEvents state = [Event.attack x.id y.id (some (hy - dx)) (some dx),
      Event.attack y.id x.id (some (hx - dy)) (some dy)] := by
  have c1' : ¬ hy - dx ≤ 0 := by omega
  have c2' : ¬ hx - dy ≤ 0 := by omega
  simp [gameTick, tickEvents, hactive, hunits,
    pair_tick x y hx hy dx dy hteam hid hadj hxhp hyhp hxd hyd, c1', c2', liveUnits]

theorem pair_first_kills (state : GameState) (x y : GameUnit) (hx hy dx dy : Int)
    (hactive : state.roundActive = true) (hunits : state.units = [x, y])
    (hteam : x.team ≠ y.team) (hid : x.id ≠ y.id) (hadj : isAdj x y = true)
    (hxhp : x.hp = some hx) (hyhp : y.hp = some hy)
    (hxd : x.dmg = some dx) (hyd : y.dmg = some dy)
    (c1 : hy - dx ≤ 0) :
    (gameTick state).1 = { state with units := [x] } ∧
    tickEvents state = [Event.attack x.id y.id (some 0) (some dx), Event.death y.id] := by
  simp [gameTick, tickEvents, hactive, hunits,
    pair_tick x y hx hy dx dy hteam hid hadj hxhp hyhp hxd hyd, c1, liveUnits]

theorem pair_second_kills (state : GameState) (x y : GameUnit) (hx hy dx dy : Int)
    (hactive : state.roundActive = true) (hunits : state.units = [x, y])
    (hteam : x.team ≠ y.team) (hid : x.id ≠ y.id) (hadj : isAdj x y = true)
    (hxhp : x.hp = some hx) (hyhp : y.hp = some hy)
    (hxd : x.dmg = some dx) (hyd : y.dmg = some dy)
    (c1 : 0 < hy - dx) (c2 : hx - dy ≤ 0) :
    (gameTick state).1 = { state with units := [{ y with hp := some (hy - dx) }] } ∧
    tickEvents state = [Event.attack x.id y.id (some (hy - dx)) (some dx),
      Event.attack y.id x.id (some 0) (some dy), Event.death x.id] := by
  have c1' : ¬ hy - dx ≤ 0 := by omega
  simp [gameTick, tickEvents, hactive, hunits,
    pair_tick x y hx hy dx dy hteam hid hadj hxhp hyhp hxd hyd, c1', c2, liveUnits]

theorem lone_unit_tick (state : GameState) (u : GameUnit)
    (hactive : state.roundActive = true) (hunits : state.units = [u]) :
    (gameTick state).1 = state := by
  cases state
  simp only at hactive hunits
  subst hactive hunits
  simp [gameTick, runTick, snapshotFrom, tickUnit, liveUnits, chooseTarget, enemiesOf]

theorem lone_unit_ticks (n : Nat) (state : GameState) (u : GameUnit)
    (hactive : state.roundActive = true) (hunits : state.units = [u]) :
    ticks n state = state := by
  induction n with
  | zero => rfl
  | succ n ih => rw [ticks, lone_unit_tick state u hactive hunits, ih]

theorem ticks_add (m n : Nat) (state : GameState) :
    ticks (m + n) state = ticks n (ticks m state) := by
  induction m generalizing state with
  | zero => simp [ticks]
  | succ m ih => rw [Nat.add_right_comm, ticks, ih]; rfl

theorem duel_after_three (state : GameState) (a b : GameUnit) (d h : Int)
    (hactive : state.roundActive = true)
    (hteam : a.team ≠ b.team) (hid : a.id ≠ b.id) (hadj : isAdj a b = true)
    (hahp : a.hp = some 80) (hbd : b.dmg = some 38)
    (had : a.dmg = some d) (hbh : b.hp = some h) (hd : 0 ≤ d)
    (hcase : (state.units = [a, b] ∧ 3 * d < h) ∨ (state.units = [b, a] ∧ 2 * d < h)) :
    (ticks 1 state).units.filter (fun u => u.id == a.id) = [{ a with hp := some 42 }] ∧
    tickEvents state = (if state.units = [a, b]
      then [Event.attack a.id b.id (some (h - d)) (some d),
            Event.attack b.id a.id (some 42) (some 38)]
      else [Event.attack b.id a.id (some 42) (some 38),
            Event.attack a.id b.id (some (h - d)) (some d)]) ∧
    (ticks 2 state).units.filter (fun u => u.id == a.id) = [{ a with hp := some 4 }] ∧
    Event.attack b.id a.id (some 0) (some 38) ∈ tickEvents (ticks 2 state) ∧
    Event.death a.id ∈ tickEvents (ticks 2 state) ∧
    ∃ b3 : GameUnit, b3.id = b.id ∧ (ticks 3 state).units = [b3] ∧
      (ticks 3 state).roundActive = true := by
  have hteam' : b.team ≠ a.team := fun e => hteam e.symm
  have hid' : b.id ≠ a.id := fun e => hid e.symm
  obtain ⟨_, _, _, _, a5, a6⟩ := isAdj_facts a b hadj
  have hadj' : isAdj b a = true := by
    have := hadj
    simp only [isAdj, Bool.and_eq_true, decide_eq_true_eq, Bool.not_eq_true',
      Bool.and_eq_false_iff, beq_eq_false_iff_ne, ne_eq] at this ⊢
    omega
  rcases hcase with ⟨hu, hs⟩ | ⟨hu, hs⟩
  · have hne : b.id ≠ a.id := hid'
    obtain ⟨t1, e1⟩ := pair_both_survive state a b 80 h d 38 hactive hu hteam hid hadj
      hahp hbh had hbd (by omega) (by omega)
    obtain ⟨t2, e2⟩ := pair_both_survive (gameTick state).1
      { a with hp := some (80 - 38) } { b with hp := some (h - d) } (80 - 38) (h - d) d 38
      (by rw [t1]; exact hactive) (by rw [t1]) hteam hid hadj rfl rfl had hbd
      (by omega) (by omega)
    obtain ⟨t3, e3⟩ := pair_second_kills (gameTick (gameTick state).1).1
      { a with hp := some (80 - 38 - 38) } { b with hp := some (h - d - d) }
      (80 - 38 - 38) (h - d - d) d 38
      (by rw [t2, t1]; exact hactive) (by rw [t2]) hteam hid hadj rfl rfl had hbd
      (by omega) (by omega)
    refine ⟨?_, ?_, ?_, ?_, ?_, ?_⟩
    · simp [ticks, t1, hne]
    · rw [e1, if_pos hu]; simp
    · simp [ticks, t2, hne]
    · simp only [ticks]; rw [e3]; simp
    · simp only [ticks]; rw [e3]; simp
    · refine ⟨{ b with hp := some (h - d - d - d) }, rfl, ?_, ?_⟩
      · simp only [ticks]; rw [t3]
      · simp only [ticks]; rw [t3, t2, t1]; exact hactive
  · have hne : b.id ≠ a.id := hid'
    have hu' : state.units ≠ [a, b] := by
      rw [hu]; intro e
      simp only [List.cons.injEq, and_true] at e
      exact hid (by rw [e.2])
    obtain ⟨t1, e1⟩ := pair_both_survive state b a h 80 38 d hactive hu hteam' hid' hadj'
      hbh hahp hbd had (by omega) (by omega)
    obtain ⟨t2, e2⟩ := pair_both_survive (gameTick state).1
      { b with hp := some (h - d) } { a with hp := some (80 - 38) } (h - d) (80 - 38) 38 d
      (by rw [t1]; exact hactive) (by rw [t1]) hteam' hid' hadj' rfl rfl hbd had
      (by omega) (by omega)
    obtain ⟨t3, e3⟩ := pair_first_kills (gameTick (gameTick state).1).1
      { b with hp := some (h - d - d) } { a with hp := some (80 - 38 - 38) }
      (h - d - d) (80 - 38 - 38) 38 d
      (by rw [t2, t1]; exact hactive) (by rw [t2]) hteam' hid' hadj' rfl rfl hbd had
      (by omega)
    refine ⟨?_, ?_, ?_, ?_, ?_, ?_⟩
    · simp [ticks, t1, hne]
    · rw [e1, if_neg hu']; simp
    · simp [ticks, t2, hne]
    · simp only [ticks]; rw [e3]; simp
    · simp only [ticks]; rw [e3]; simp
    · refine ⟨{ b with hp := some (h - d - d) }, rfl, ?_, ?_⟩
      · simp only [ticks]; rw [t3]
      · simp only [ticks]; rw [t3, t2, t1]; exact hactive

/-- C5, amended: two adjacent units of opposing teams with different ids are the
only units of an active round; `a` has hp 80 and damage `d >= 0`, `b` has damage 38
and hp `h`, and `3 * d < h`, or `b` precedes `a` in the list and `2 * d < h`.  Then
after one tick `a` has hp 42 and no death event was emitted, after two ticks it has
hp 4, the third tick emits the attack on `a` with new hp 0 and the death of `a`, and
from the third tick on no unit of the list has the id of `a`. -/
theorem duel_scenario (state : GameState) (a b : GameUnit) (d h : Int)
    (hactive : state.roundActive = true)
    (hteam : a.team ≠ b.team) (hid : a.id ≠ b.id) (hadj : isAdj a b = true)
    (hahp : a.hp = some 80) (hbd : b.dmg = some 38)
    (had : a.dmg = some d) (hbh : b.hp = some h) (hd : 0 ≤ d)
    (hcase : (state.units = [a, b] ∧ 3 * d < h) ∨ (state.units = [b, a] ∧ 2 * d < h)) :
    (ticks 1 state).units.filter (fun u => u.id == a.id) = [{ a with hp := some 42 }] ∧
    (∀ id, Event.death id ∉ tickEvents state) ∧
    (ticks 2 state).units.filter (fun u => u.id == a.id) = [{ a with hp := some 4 }] ∧
    Event.attack b.id a.id (some 0) (some 38) ∈ tickEvents (ticks 2 state) ∧
    Event.death a.id ∈ tickEvents (ticks 2 state) ∧
    ∀ n, 3 ≤ n → ∀ u ∈ (ticks n state).units, u.id ≠ a.id := by
  obtain ⟨h1, h2, h3, h4, h5, b3, hb3, hu3, hact3⟩ :=
    duel_after_three state a b d h hactive hteam hid hadj hahp hbd had hbh hd hcase
  refine ⟨h1, ?_, h3, h4, h5, ?_⟩
  · intro id
    rw [h2]
    split_ifs <;> simp
  · intro n hn u hu
    obtain ⟨k, rfl⟩ : ∃ k, n = 3 + k := ⟨n - 3, by omega⟩
    rw [ticks_add, lone_unit_ticks k (ticks 3 state) b3 hact3 hu3, hu3] at hu
    simp only [List.mem_singleton] at hu
    rw [hu, hb3]
    exact fun e => hid e.symm

/-- C5, amended, at the mage spawned before the soldier. -/
theorem duel_scenario_witness :
    mageFirst.roundActive = true ∧
    mageFirst.units = [⟨0, "mage", 4, 5, some 45, some 45, some 38, Team.p2⟩,
      ⟨1, "soldier", 5, 5, some 80, some 80, some 15, Team.p1⟩] ∧
    (ticks 1 mageFirst).units.filter (fun u => u.id == 1) =
      [⟨1, "soldier", 5, 5, some 42, some 80, some 15, Team.p1⟩] ∧
    (∀ id, Event.death id ∉ tickEvents mageFirst) ∧
    (ticks 2 mageFirst).units.filter (fun u => u.id == 1) =
      [⟨1, "soldier", 5, 5, some 4, some 80, some 15, Team.p1⟩] ∧
    Event.attack 0 1 (some 0) (some 38) ∈ tickEvents (ticks 2 mageFirst) ∧
    Event.death 1 ∈ tickEvents (ticks 2 mageFirst) ∧
    ∀ n, 3 ≤ n → ∀ u ∈ (ticks n mageFirst).units, u.id ≠ 1 :=
  ⟨by decide, by decide,
    duel_scenario mageFirst ⟨1, "soldier", 5, 5, some 80, some 80, some 15, Team.p1⟩
      ⟨0, "mage", 4, 5, some 45, some 45, some 38, Team.p2⟩ 15 45
      (by decide) (by decide) (by decide) (by decide) rfl rfl rfl rfl (by decide)
      (Or.inr ⟨by decide, by decide⟩)⟩

/-- C5 as stated fails when the soldier (hp 80, damage 15) is spawned before the mage
(hp 45, damage 38): the third tick kills the mage before it acts, so the soldier
stays in the list with hp 4 and no death event for it is emitted. -/
theorem duel_soldier_first :
    soldierFirst.roundActive = true ∧
    soldierFirst.units = [⟨0, "soldier", 5, 5, some 80, some 80, some 15, Team.p1⟩,
      ⟨1, "mage", 4, 5, some 45, some 45, some 38, Team.p2⟩] ∧
    isAdj ⟨0, "soldier", 5, 5, some 80, some 80, some 15, Team.p1⟩
      ⟨1, "mage", 4, 5, some 45, some 45, some 38, Team.p2⟩ = true ∧
    (ticks 3 soldierFirst).units = [⟨0, "soldier", 5, 5, some 4, some 80, some 15, Team.p1⟩] ∧
    tickEvents (ticks 2 soldierFirst) = [Event.attack 0 1 (some 0) (some 15), Event.death 1] ∧
    Event.death 0 ∉ tickEvents (ticks 2 soldierFirst) := by
  decide

theorem moveStep_cases (st : TickState) (r : Nat) (unit nearest : GameUnit) :
    moveStep st r unit nearest = st ∨
    ∃ nr nc, FreeCell (liveUnits st.objs) (nr, nc) ∧
      moveStep st r unit nearest =
        ⟨setPos st.objs r nr nc, st.events ++ [Event.move unit.id nr nc]⟩ := by
  unfold moveStep
  cases hf : (triesOf unit nearest).find? (canStep (liveUnits st.objs)) with
  | none => left; rfl
  | some c =>
    right
    exact ⟨c.1, c.2, (canStep_iff _ _).mp (List.find?_some hf), rfl⟩

theorem tickUnit_cases (st : TickState) (r : Nat) :
    tickUnit st r = st ∨
    (∃ unit t, tickUnit st r = attackStep st unit t) ∨
    ∃ (unit : GameUnit) (nr nc : Int), FreeCell (liveUnits st.objs) (nr, nc) ∧
      tickUnit st r = ⟨setPos st.objs r nr nc, st.events ++ [Event.move unit.id nr nc]⟩ := by
  cases hme : st.objs.find? (fun s => s.ref == r) with
  | none => left; simp [tickUnit, hme]
  | some me =>
    by_cases hact : (liveUnits st.objs).any (fun u => u.id == me.unit.id) = true
    · cases ht : chooseTarget st.objs me.unit with
      | none => left; simp [tickUnit, hme, hact, ht]
      | some t =>
        by_cases hadj : isAdj me.unit t.unit = true
        · right; left
          exact ⟨me.unit, t, tickUnit_attack st r me t hme hact ht hadj⟩
        · rw [tickUnit_move st r me t hme hact ht (by simpa using hadj)]
          rcases moveStep_cases st r me.unit t.unit with h | ⟨nr, nc, h1, h2⟩
          · left; exact h
          · right; right; exact ⟨me.unit, nr, nc, h1, h2⟩
    · left; simp [tickUnit, hme, hact]

theorem attackStep_objs (st : TickState) (unit : GameUnit) (t : Slot) :
    ∃ f : Slot → Slot, (attackStep st unit t).objs = st.objs.map f ∧
      ∀ s, (f s).ref = s.ref ∧ (f s).unit.row = s.unit.row ∧ (f s).unit.col = s.unit.col ∧
        ((f s).live = true → s.live = true) := by
  unfold attackStep
  simp only []
  split_ifs
  · refine ⟨fun s => (if s.unit.id == t.unit.id then { (if s.ref == t.ref then
        { s with unit := { s.unit with hp := jsMax0 (jsSub t.unit.hp unit.dmg) } } else s)
          with live := false } else (if s.ref == t.ref then
        { s with unit := { s.unit with hp := jsMax0 (jsSub t.unit.hp unit.dmg) } } else s)),
      ?_, ?_⟩
    · simp only [removeId, setHp, List.map_map]
      apply List.map_congr_left
      intro s _
      simp only [Function.comp]
      by_cases h1 : s.ref = t.ref <;> by_cases h2 : s.unit.id = t.unit.id <;> simp [h1, h2]
    · intro s
      by_cases h1 : s.ref = t.ref <;> by_cases h2 : s.unit.id = t.unit.id <;> simp [h1, h2]
  · refine ⟨fun s => if s.ref == t.ref then
        { s with unit := { s.unit with hp := jsMax0 (jsSub t.unit.hp unit.dmg) } } else s,
      rfl, ?_⟩
    intro s
    by_cases h1 : s.ref = t.ref <;> simp [h1]

theorem freeCell_slot (objs : List Slot) (p : Int × Int) (h : FreeCell (liveUnits objs) p)
    (s : Slot) (hs : s ∈ objs) (hl : s.live = true) : ¬(s.unit.row = p.1 ∧ s.unit.col = p.2) := by
  apply h.2.2.2.2 s.unit
  unfold liveUnits
  exact List.mem_map.mpr ⟨s, List.mem_filter.mpr ⟨hs, hl⟩, rfl⟩

theorem slotsOk_map (objs : List Slot) (f : Slot → Slot)
    (hf : ∀ s, (f s).ref = s.ref ∧ (f s).unit.row = s.unit.row ∧
      (f s).unit.col = s.unit.col ∧ ((f s).live = true → s.live = true))
    (h : SlotsOk objs) : SlotsOk (objs.map f) := by
  unfold SlotsOk at *
  rw [List.pairwise_map]
  refine h.imp ?_
  intro a b ⟨h1, h2⟩
  obtain ⟨a1, a2, a3, a4⟩ := hf a
  obtain ⟨b1, b2, b3, b4⟩ := hf b
  refine ⟨by rw [a1, b1]; exact h1, ?_⟩
  intro la lb
  rw [a2, a3, b2, b3]
  exact h2 (a4 la) (b4 lb)

theorem slotsOk_setPos (objs : List Slot) (r : Nat) (nr nc : Int)
    (hfree : FreeCell (liveUnits objs) (nr, nc)) (h : SlotsOk objs) :
    SlotsOk (setPos objs r nr nc) := by
  unfold SlotsOk setPos at *
  rw [List.pairwise_map]
  refine h.imp_of_mem ?_
  intro a b ha hb ⟨h1, h2⟩
  by_cases ea : a.ref = r <;> by_cases eb : b.ref = r
  · exact absurd (ea.trans eb.symm) h1
  · simp only [ea, eb, beq_self_eq_true, if_true, beq_iff_eq, if_false]
    refine ⟨fun e => eb e.symm, fun _ lb e => ?_⟩
    exact freeCell_slot objs (nr, nc) hfree b hb lb ⟨e.1.symm, e.2.symm⟩
  · simp only [ea, eb, beq_self_eq_true, if_true, beq_iff_eq, if_false]
    refine ⟨ea, fun la _ e => ?_⟩
    exact freeCell_slot objs (nr, nc) hfree a ha la e
  · simp only [ea, eb, beq_iff_eq, if_false]
    exact ⟨h1, h2⟩

theorem slotsOk_tickUnit (st : TickState) (r : Nat) (h : SlotsOk st.objs) :
    SlotsOk (tickUnit st r).objs := by
  rcases tickUnit_cases st r with e | ⟨unit, t, e⟩ | ⟨unit, nr, nc, hfree, e⟩
  · rw [e]; exact h
  · rw [e]
    obtain ⟨f, hf1, hf2⟩ := attackStep_objs st unit t
    rw [hf1]
    exact slotsOk_map _ f hf2 h
  · rw [e]
    exact slotsOk_setPos _ r nr nc hfree h

theorem slotsOk_foldl (rs : List Nat) : ∀ st : TickState, SlotsOk st.objs →
    SlotsOk (rs.foldl tickUnit st).objs := by
  induction rs with
  | nil => intro st h; exact h
  | cons r rs ih =>
    intro st h
    rw [List.foldl_cons]
    exact ih _ (slotsOk_tickUnit st r h)

theorem snapshotFrom_mem (us : List GameUnit) : ∀ (k : Nat) (s : Slot),
    s ∈ snapshotFrom k us → k ≤ s.ref ∧ s.live = true ∧ s.unit ∈ us := by
  induction us with
  | nil => intro k s hs; cases hs
  | cons u us ih =>
    intro k s hs
    simp only [snapshotFrom, List.mem_cons] at hs
    rcases hs with rfl | hs
    · simp
    · obtain ⟨h1, h2, h3⟩ := ih (k + 1) s hs
      exact ⟨by omega, h2, List.mem_cons_of_mem _ h3⟩

theorem liveUnits_snapshotFrom (us : List GameUnit) : ∀ k : Nat,
    liveUnits (snapshotFrom k us) = us := by
  induction us with
  | nil => intro k; rfl
  | cons u us ih =>
    intro k
    have := ih (k + 1)
    unfold liveUnits at this ⊢
    simp [snapshotFrom, this]

theorem slotsOk_snapshotFrom (us : List GameUnit) : ∀ k : Nat, CellsUnique us →
    SlotsOk (snapshotFrom k us) := by
  induction us with
  | nil => intro k _; exact List.Pairwise.nil
  | cons u us ih =>
    intro k h
    unfold CellsUnique at h
    rw [List.pairwise_cons] at h
    unfold SlotsOk
    simp only [snapshotFrom]
    rw [List.pairwise_cons]
    refine ⟨?_, ih (k + 1) h.2⟩
    intro s hs
    obtain ⟨h1, _, h3⟩ := snapshotFrom_mem us (k + 1) s hs
    refine ⟨by simp only []; omega, fun _ _ => h.1 s.unit h3⟩

theorem cellsUnique_liveUnits (objs : List Slot) (h : SlotsOk objs) :
    CellsUnique (liveUnits objs) := by
  unfold CellsUnique liveUnits
  rw [List.pairwise_map]
  unfold SlotsOk at h
  refine ((h.filter (fun s => s.live)).imp_of_mem ?_)
  intro a b ha hb ⟨_, h2⟩
  exact h2 (List.mem_filter.mp ha).2 (List.mem_filter.mp hb).2

/-- Cell uniqueness when every row and col is an integer: if no two units of
`state.units` are on the same (row, col), then the same
holds after every SPAWN command, accepted or rejected, and after `gameTick`. -/
theorem cell_uniqueness (state : GameState) (h : CellsUnique state.units) :
    (∀ playerRole typeId row col,
      CellsUnique (spawn state playerRole typeId row col).1.units) ∧
    CellsUnique (gameTick state).1.units := by
  constructor
  · intro playerRole typeId row col
    rcases spawn_cases state playerRole typeId row col with e | ⟨unitDef, _, _, _, hocc, e⟩
    · rw [e]; exact h
    · rw [e]
      unfold CellsUnique at *
      simp only []
      rw [List.pairwise_append]
      refine ⟨h, List.pairwise_singleton _ _, ?_⟩
      intro a ha b hb
      simp only [List.mem_singleton] at hb
      subst hb
      simp only [isOccupied, List.any_eq_false, Bool.and_eq_true,
        beq_iff_eq, not_and] at hocc
      simpa using hocc a ha
  · unfold gameTick
    split_ifs
    · exact h
    · simp only []
      apply cellsUnique_liveUnits
      unfold runTick
      exact slotsOk_foldl _ _ (slotsOk_snapshotFrom _ 0 h)

theorem movedOk_map (objs0 objs : List Slot) (f : Slot → Slot)
    (hf : ∀ s, (f s).ref = s.ref ∧ (f s).unit.row = s.unit.row ∧
      (f s).unit.col = s.unit.col ∧ ((f s).live = true → s.live = true))
    (h : MovedOk objs0 objs) : MovedOk objs0 (objs.map f) := by
  intro s' hs' s0 hs0 href hpos
  obtain ⟨s, hs, rfl⟩ := List.mem_map.mp hs'
  obtain ⟨a1, a2, a3, a4⟩ := hf s
  rw [a1] at href
  rw [a2, a3] at hpos ⊢
  obtain ⟨hb, hu⟩ := h s hs s0 hs0 href hpos
  refine ⟨hb, ?_⟩
  intro hl s2' hs2' hl2 hne
  obtain ⟨s2, hs2, rfl⟩ := List.mem_map.mp hs2'
  obtain ⟨b1, b2, b3, b4⟩ := hf s2
  rw [b2, b3]
  rw [b1, a1] at hne
  exact hu (a4 hl) s2 hs2 (b4 hl2) hne

theorem movedOk_setPos (objs0 objs : List Slot) (r : Nat) (nr nc : Int)
    (hfree : FreeCell (liveUnits objs) (nr, nc)) (h : MovedOk objs0 objs) :
    MovedOk objs0 (setPos objs r nr nc) := by
  intro s' hs' s0 hs0 href hpos
  unfold setPos at hs'
  obtain ⟨s, hs, rfl⟩ := List.mem_map.mp hs'
  by_cases es : s.ref = r
  · simp only [es, beq_self_eq_true, if_true] at href hpos ⊢
    refine ⟨⟨hfree.1, hfree.2.1, hfree.2.2.1, hfree.2.2.2.1⟩, ?_⟩
    intro _ s2' hs2' hl2 hne
    unfold setPos at hs2'
    obtain ⟨s2, hs2, rfl⟩ := List.mem_map.mp hs2'
    by_cases e2 : s2.ref = r
    · simp only [e2, beq_self_eq_true, if_true] at hne
      exact absurd rfl hne
    · simp only [e2, beq_iff_eq, if_false] at hl2 hne ⊢
      exact freeCell_slot objs (nr, nc) hfree s2 hs2 hl2
  · simp only [es, beq_iff_eq, if_false] at href hpos ⊢
    obtain ⟨hb, hu⟩ := h s hs s0 hs0 href hpos
    refine ⟨hb, ?_⟩
    intro hl s2' hs2' hl2 hne
    unfold setPos at hs2'
    obtain ⟨s2, hs2, rfl⟩ := List.mem_map.mp hs2'
    by_cases e2 : s2.ref = r
    · simp only [e2, beq_self_eq_true, if_true] at hl2 ⊢
      intro e
      exact freeCell_slot objs (nr, nc) hfree s hs hl ⟨e.1.symm, e.2.symm⟩
    · simp only [e2, beq_iff_eq, if_false] at hl2 hne ⊢
      exact hu hl s2 hs2 hl2 hne

theorem movedOk_tickUnit (objs0 : List Slot) (st : TickState) (r : Nat)
    (h : MovedOk objs0 st.objs) : MovedOk objs0 (tickUnit st r).objs := by
  rcases tickUnit_cases st r with e | ⟨unit, t, e⟩ | ⟨unit, nr, nc, hfree, e⟩
  · rw [e]; exact h
  · rw [e]
    obtain ⟨f, hf1, hf2⟩ := attackStep_objs st unit t
    rw [hf1]
    exact movedOk_map _ _ f hf2 h
  · rw [e]
    exact movedOk_setPos _ _ r nr nc hfree h

theorem movedOk_foldl (objs0 : List Slot) (rs : List Nat) : ∀ st : TickState,
    MovedOk objs0 st.objs → MovedOk objs0 (rs.foldl tickUnit st).objs := by
  induction rs with
  | nil => intro st h; exact h
  | cons r rs ih =>
    intro st h
    rw [List.foldl_cons]
    exact ih _ (movedOk_tickUnit objs0 st r h)

theorem snapshotFrom_ref_inj (us : List GameUnit) : ∀ (k : Nat) (s s0 : Slot),
    s ∈ snapshotFrom k us → s0 ∈ snapshotFrom k us → s.ref = s0.ref → s = s0 := by
  induction us with
  | nil => intro k s s0 hs; cases hs
  | cons u us ih =>
    intro k s s0 hs hs0 href
    simp only [snapshotFrom, List.mem_cons] at hs hs0
    rcases hs with rfl | hs <;> rcases hs0 with rfl | hs0
    · rfl
    · have := (snapshotFrom_mem us (k + 1) s0 hs0).1
      simp only [] at href
      omega
    · have := (snapshotFrom_mem us (k + 1) s hs).1
      simp only [] at href
      omega
    · exact ih (k + 1) s s0 hs hs0 href

theorem movedOk_runTick (units : List GameUnit) :
    MovedOk (snapshotFrom 0 units) (runTick (snapshotFrom 0 units)).objs := by
  unfold runTick
  apply movedOk_foldl
  intro s hs s0 hs0 href hpos
  have := snapshotFrom_ref_inj units 0 s s0 hs hs0 href
  subst this
  exact absurd ⟨rfl, rfl⟩ hpos

theorem tickUnit_move_event (st : TickState) (r id : Nat) (nr nc : Int)
    (h : (tickUnit st r).events = st.events ++ [Event.move id nr nc]) :
    FreeCell (liveUnits st.objs) (nr, nc) ∧ (tickUnit st r).objs = setPos st.objs r nr nc := by
  rcases tickUnit_cases st r with e | ⟨unit, t, e⟩ | ⟨unit, nr2, nc2, hfree, e⟩
  · rw [e] at h
    have := congrArg List.length h
    simp at this
  · rw [e] at h
    unfold attackStep at h
    simp only [] at h
    split_ifs at h
    · have := congrArg List.length h
      simp at this
    · simp at h
  · rw [e] at h ⊢
    simp only [List.append_cancel_left_eq, List.cons.injEq, Event.move.injEq, and_true] at h
    obtain ⟨_, h2, h3⟩ := h
    subst h2 h3
    exact ⟨hfree, rfl⟩

/-- Moves when every row and col is an integer: a move event of a unit's turn names
a cell with 0 <= row, col <= 9 on which no
element of `state.units` stood at that moment, and the moving object is put there;
positions change only in a turn that emits a move event; and at the end of a tick
every object whose cell differs from its cell at the start of the tick is in bounds
and, if it is still in `state.units`, shares its cell with no other element. -/
theorem moves_in_bounds_unoccupied :
    (∀ (st : TickState) (r id : Nat) (nr nc : Int),
      (tickUnit st r).events = st.events ++ [Event.move id nr nc] →
      (0 ≤ nr ∧ nr ≤ 9 ∧ 0 ≤ nc ∧ nc ≤ 9) ∧
      isOccupied (liveUnits st.objs) nr nc = false ∧
      (tickUnit st r).objs = setPos st.objs r nr nc) ∧
    (∀ (st : TickState) (r : Nat),
      (tickUnit st r).objs.map (fun s => (s.unit.row, s.unit.col)) ≠
        st.objs.map (fun s => (s.unit.row, s.unit.col)) →
      ∃ id nr nc, (tickUnit st r).events = st.events ++ [Event.move id nr nc]) ∧
    (∀ (units : List GameUnit), ∀ s ∈ (runTick (snapshotFrom 0 units)).objs,
      ∀ s0 ∈ snapshotFrom 0 units, s.ref = s0.ref →
      ¬(s.unit.row = s0.unit.row ∧ s.unit.col = s0.unit.col) →
      (0 ≤ s.unit.row ∧ s.unit.row ≤ 9 ∧ 0 ≤ s.unit.col ∧ s.unit.col ≤ 9) ∧
      (s.live = true → ∀ s2 ∈ (runTick (snapshotFrom 0 units)).objs, s2.live = true →
        s2.ref ≠ s.ref → ¬(s2.unit.row = s.unit.row ∧ s2.unit.col = s.unit.col))) := by
  refine ⟨?_, ?_, ?_⟩
  · intro st r id nr nc h
    obtain ⟨h1, h2⟩ := tickUnit_move_event st r id nr nc h
    have h3 := (canStep_iff (liveUnits st.objs) (nr, nc)).mpr h1
    simp only [canStep, Bool.and_eq_true, Bool.not_eq_true'] at h3
    exact ⟨⟨h1.1, h1.2.1, h1.2.2.1, h1.2.2.2.1⟩, h3.2, h2⟩
  · intro st r hne
    rcases tickUnit_cases st r with e | ⟨unit, t, e⟩ | ⟨unit, nr, nc, _, e⟩
    · rw [e] at hne; exact absurd rfl hne
    · exfalso
      apply hne
      rw [e]
      obtain ⟨f, hf1, hf2⟩ := attackStep_objs st unit t
      rw [hf1, List.map_map]
      apply List.map_congr_left
      intro s _
      simp only [Function.comp, (hf2 s).2.1, (hf2 s).2.2.1]
    · exact ⟨unit.id, nr, nc, by rw [e]⟩
  · exact fun units => movedOk_runTick units

/-- Cell uniqueness on integer cells at a state with two units that walk towards each
other. -/
theorem cell_uniqueness_witness :
    CellsUnique farApart.units ∧
    (∀ playerRole typeId row col,
      CellsUnique (spawn farApart playerRole typeId row col).1.units) ∧
    CellsUnique (gameTick farApart).1.units :=
  ⟨by unfold CellsUnique; decide, cell_uniqueness farApart (by unfold CellsUnique; decide)⟩

/-- The chosen target on integer cells at an archer with two enemies at distance 2 and
a nearer one already removed. -/
theorem target_is_nearest_first_witness :
    (∃ s ∈ tieObjs, s.live = true ∧
      s.unit.team ≠ (⟨0, "archer", 5, 5, some 55, some 55, some 28, Team.p1⟩ : GameUnit).team) ∧
    ∃ t pre post,
      chooseTarget tieObjs ⟨0, "archer", 5, 5, some 55, some 55, some 28, Team.p1⟩ = some t ∧
      tieObjs = pre ++ t :: post ∧ t.live = true ∧ t.unit.team ≠ Team.p1 ∧
      (∀ s ∈ pre, s.live = true → s.unit.team ≠ Team.p1 →
        dist ⟨0, "archer", 5, 5, some 55, some 55, some 28, Team.p1⟩ t.unit <
          dist ⟨0, "archer", 5, 5, some 55, some 55, some 28, Team.p1⟩ s.unit) ∧
      (∀ s ∈ post, s.live = true → s.unit.team ≠ Team.p1 →
        dist ⟨0, "archer", 5, 5, some 55, some 55, some 28, Team.p1⟩ t.unit ≤
          dist ⟨0, "archer", 5, 5, some 55, some 55, some 28, Team.p1⟩ s.unit) :=
  ⟨by decide, target_is_nearest_first tieObjs
    ⟨0, "archer", 5, 5, some 55, some 55, some 28, Team.p1⟩ (by decide)⟩

/-- The move rule on integer cells at the first turn of the tick of `farApart`: the
soldier steps from (9, 0) to (8, 0). -/
theorem move_rule_witness :
    (tickUnit ⟨snapshotFrom 0 farApart.units, []⟩ 0).events = [] ++ [Event.move 0 8 0] ∧
    (tickUnit ⟨snapshotFrom 0 farApart.units, []⟩ 0).objs =
      setPos (snapshotFrom 0 farApart.units) 0 8 0 :=
  have h := (move_rule ⟨snapshotFrom 0 farApart.units, []⟩ 0
    ⟨0, ⟨0, "soldier", 9, 0, some 80, some 80, some 15, Team.p1⟩, true⟩
    ⟨1, ⟨1, "mage", 0, 9, some 45, some 45, some 38, Team.p2⟩, true⟩
    (by decide) (by decide) (by decide) (by decide)).1 [] (8, 0) [(9, 1), (8, 1)]
    (by decide) (by intro p hp; cases hp) (by unfold FreeCell; decide)
  ⟨h.1, h.2.1⟩

/-- The SPAWN command outside the defect of `spawn_inherited_key`: ignored without a
message when the round is not active or the lookup `UNITS[typeId]` is falsy, denied
with 'Wrong zone' when the zone test fails (also on an occupied cell), denied with
'Occupied' otherwise when the cell is occupied, the state being unchanged each time;
the lookup is falsy exactly for ids that are neither catalog entries nor inherited
property names. -/
theorem spawn_rejections (state : GameState) (playerRole : Team) (typeId : String)
    (row col : Int) :
    (state.roundActive = false ∨ UNITS typeId = none →
      spawn state playerRole typeId row col = (state, [])) ∧
    (state.roundActive = true → UNITS typeId ≠ none →
      ¬((playerRole = Team.p1 ∧ 5 ≤ row) ∨ (playerRole = Team.p2 ∧ row < 5)) →
      spawn state playerRole typeId row col =
        (state, [Effect.sendTo (Msg.SPAWN_DENIED "Wrong zone")])) ∧
    (state.roundActive = true → UNITS typeId ≠ none →
      ((playerRole = Team.p1 ∧ 5 ≤ row) ∨ (playerRole = Team.p2 ∧ row < 5)) →
      isOccupied state.units row col = true →
      spawn state playerRole typeId row col =
        (state, [Effect.sendTo (Msg.SPAWN_DENIED "Occupied")])) ∧
    (UNITS typeId = none ↔
      typeId ∉ catalog.map (fun e => e.1) ∧ typeId ∉ objectPrototypeKeys) := by
  refine ⟨?_, ?_, ?_, ?_⟩
  · rintro (h | h)
    · simp [spawn, h]
    · by_cases hact : state.roundActive = true <;> simp [spawn, hact, h]
  · intro hact hu hz
    cases hd : UNITS typeId with
    | none => exact absurd hd hu
    | some unitDef =>
      have hz' : (playerRole == Team.p1 && decide (row ≥ 5) ||
          playerRole == Team.p2 && decide (row < 5)) = false := by
        rw [← Bool.not_eq_true]; simpa using hz
      simp [spawn, hact, hd, hz']
  · intro hact hu hz hocc
    cases hd : UNITS typeId with
    | none => exact absurd hd hu
    | some unitDef =>
      have hz' : (playerRole == Team.p1 && decide (row ≥ 5) ||
          playerRole == Team.p2 && decide (row < 5)) = true := by simpa using hz
      simp [spawn, hact, hd, hz', hocc]
  · unfold UNITS
    cases hf : catalog.find? (fun e => e.1 == typeId) with
    | some e =>
      have h1 := List.find?_some hf
      have h2 := List.mem_of_find?_eq_some hf
      simp only [reduceCtorEq, false_iff, not_and, not_not]
      intro hc
      exact absurd (List.mem_map.mpr ⟨e, h2, by simpa using h1⟩) hc
    | none =>
      rw [List.find?_eq_none] at hf
      have hcat : typeId ∉ catalog.map (fun e => e.1) := by
        intro hc
        obtain ⟨e, he, rfl⟩ := List.mem_map.mp hc
        exact hf e he (by simp)
      by_cases hk : typeId ∈ objectPrototypeKeys
      · have hk' : objectPrototypeKeys.contains typeId = true := by simpa using hk
        simp [hk', hk]
      · have hk' : objectPrototypeKeys.contains typeId = false := by
          rw [← Bool.not_eq_true]; simpa using hk
        simp [hk', hk, hcat]

/-- C12: `startRound` sets timeLeft to 20, units to the empty list and roundActive
to true, keeps round, maxRounds, p1Stars, p2Stars and nextId, sends `ROUND_START`
and restarts both intervals. -/
theorem startRound_frame (state : GameState) :
    (startRound state).1.timeLeft = 20 ∧
    (startRound state).1.units = [] ∧
    (startRound state).1.roundActive = true ∧
    (startRound state).1.round = state.round ∧
    (startRound state).1.maxRounds = state.maxRounds ∧
    (startRound state).1.p1Stars = state.p1Stars ∧
    (startRound state).1.p2Stars = state.p2Stars ∧
    (startRound state).1.nextId = state.nextId ∧
    (startRound state).2 =
      [Effect.broadcast (Msg.ROUND_START state.round 20 state.p1Stars state.p2Stars),
       Effect.clearTimerInt, Effect.setTimerInt 1000, Effect.clearLoopInt,
       Effect.setLoopInt 900] := by
  simp [startRound]

/-- C11 fails above row 9 and below row 0: in an active round p1 spawns a soldier
at row 100 and p2 a mage at row -3; both units are appended. -/
theorem spawn_off_board :
    (startRound initGameState).1.roundActive = true ∧
    (spawn (startRound initGameState).1 Team.p1 "soldier" 100 0).1.units =
      [⟨0, "soldier", 100, 0, some 80, some 80, some 15, Team.p1⟩] ∧
    (spawn (startRound initGameState).1 Team.p1 "soldier" 100 0).2 =
      [Effect.broadcast (Msg.UNIT_SPAWNED ⟨0, "soldier", 100, 0, some 80, some 80, Team.p1⟩)] ∧
    (spawn (startRound initGameState).1 Team.p2 "mage" (-3) 0).1.units =
      [⟨0, "mage", -3, 0, some 45, some 45, some 38, Team.p2⟩] ∧
    ¬(100 : Int) ≤ 9 ∧ ¬(0 : Int) ≤ -3 := by
  decide

/-- The zone test of SPAWN as far as it goes: a command that fails it changes
nothing, and an appended unit has the sender's team and the row and col of the
command, with row >= 5 for p1 and row < 5 for p2. -/
theorem spawn_zone (state : GameState) (playerRole : Team) (typeId : String) (row col : Int) :
    (¬((playerRole = Team.p1 ∧ 5 ≤ row) ∨ (playerRole = Team.p2 ∧ row < 5)) →
      (spawn state playerRole typeId row col).1 = state) ∧
    (∀ u, (spawn state playerRole typeId row col).1.units = state.units ++ [u] →
      u.team = playerRole ∧ u.row = row ∧ u.col = col ∧
      (u.team = Team.p1 → 5 ≤ u.row) ∧ (u.team = Team.p2 → u.row < 5)) := by
  rcases spawn_cases state playerRole typeId row col with e | ⟨unitDef, _, _, hz, _, e⟩
  · refine ⟨fun _ => e, ?_⟩
    intro u hu
    rw [e] at hu
    have := congrArg List.length hu
    simp at this
  · refine ⟨fun h => absurd hz h, ?_⟩
    intro u hu
    rw [e] at hu
    simp only [List.append_cancel_left_eq, List.cons.injEq, and_true] at hu
    subst hu
    simp only [true_and]
    rcases hz with ⟨h1, h2⟩ | ⟨h1, h2⟩
    · subst h1; exact ⟨fun _ => h2, fun h => by cases h⟩
    · subst h1; exact ⟨fun h => (by cases h), fun _ => h2⟩

theorem sign_cases (x : Int) :
    (x < 0 ∧ Int.sign x = -1) ∨ (x = 0 ∧ Int.sign x = 0) ∨ (0 < x ∧ Int.sign x = 1) := by
  rcases lt_trichotomy x 0 with h | h | h
  · exact Or.inl ⟨h, Int.sign_eq_neg_one_of_neg h⟩
  · exact Or.inr (Or.inl ⟨h, by rw [h]; rfl⟩)
  · exact Or.inr (Or.inr ⟨h, Int.sign_eq_one_of_pos h⟩)

theorem candidate_distance (row col trow tcol : Int) (p : Int × Int)
    (hp : p ∈ stepCandidates row col (Int.sign (trow - row)) (Int.sign (tcol - col))) :
    (p.1 ≠ row ∧ p.2 = col ∧
      (p.1 - trow).natAbs + (p.2 - tcol).natAbs + 1 =
        (row - trow).natAbs + (col - tcol).natAbs) ∨
    (p.1 = row ∧ p.2 ≠ col ∧
      (p.1 - trow).natAbs + (p.2 - tcol).natAbs + 1 =
        (row - trow).natAbs + (col - tcol).natAbs) ∨
    (p.1 ≠ row ∧ p.2 ≠ col ∧
      (p.1 - trow).natAbs + (p.2 - tcol).natAbs + 2 =
        (row - trow).natAbs + (col - tcol).natAbs) := by
  unfold stepCandidates at hp
  simp only [List.mem_append] at hp
  rcases sign_cases (trow - row) with ⟨r1, r2⟩ | ⟨r1, r2⟩ | ⟨r1, r2⟩ <;>
    rcases sign_cases (tcol - col) with ⟨c1, c2⟩ | ⟨c1, c2⟩ | ⟨c1, c2⟩ <;>
    rw [r2, c2] at hp <;>
    simp only [List.mem_singleton, List.not_mem_nil, if_true, if_false, or_false, false_or,
      Int.reduceNeg, neg_eq_zero, one_ne_zero, or_self, true_or, or_true,
      List.mem_cons] at hp <;>
    first
    | (rcases hp with (hp | hp) | hp <;> subst hp <;> dsimp only <;> omega)
    | (subst hp; dsimp only; omega)

/-- The distance after a move when every row and col is an integer: a turn that emits
a move event moves the acting unit towards its chosen
target: the Manhattan distance to the target drops by exactly 1 when only the row
or only the col changes and by exactly 2 when both change. -/
theorem move_shortens_distance (st : TickState) (r id : Nat) (nr nc : Int)
    (hev : (tickUnit st r).events = st.events ++ [Event.move id nr nc]) :
    ∃ me t, st.objs.find? (fun s => s.ref == r) = some me ∧
      chooseTarget st.objs me.unit = some t ∧ id = me.unit.id ∧
      (tickUnit st r).objs = setPos st.objs r nr nc ∧
      ((nr ≠ me.unit.row ∧ nc = me.unit.col ∧
          dist { me.unit with row := nr, col := nc } t.unit + 1 = dist me.unit t.unit) ∨
       (nr = me.unit.row ∧ nc ≠ me.unit.col ∧
          dist { me.unit with row := nr, col := nc } t.unit + 1 = dist me.unit t.unit) ∨
       (nr ≠ me.unit.row ∧ nc ≠ me.unit.col ∧
          dist { me.unit with row := nr, col := nc } t.unit + 2 = dist me.unit t.unit)) := by
  have hstay : tickUnit st r ≠ st := by
    intro e
    rw [e] at hev
    have := congrArg List.length hev
    simp at this
  cases hme : st.objs.find? (fun s => s.ref == r) with
  | none => exact absurd (by simp [tickUnit, hme]) hstay
  | some me =>
    by_cases hact : (liveUnits st.objs).any (fun u => u.id == me.unit.id) = true
    · cases ht : chooseTarget st.objs me.unit with
      | none => exact absurd (by simp [tickUnit, hme, hact, ht]) hstay
      | some t =>
        by_cases hadj : isAdj me.unit t.unit = true
        · exfalso
          rw [tickUnit_attack st r me t hme hact ht hadj] at hev
          unfold attackStep at hev
          simp only [] at hev
          split_ifs at hev
          · have := congrArg List.length hev
            simp at this
          · simp at hev
        · have hmove := tickUnit_move st r me t hme hact ht (by simpa using hadj)
          rw [hmove] at hev hstay ⊢
          unfold moveStep at hev hstay ⊢
          cases hf : (triesOf me.unit t.unit).find? (canStep (liveUnits st.objs)) with
          | none => rw [hf] at hstay; exact absurd rfl hstay
          | some c =>
            have hc := List.mem_of_find?_eq_some hf
            obtain ⟨c1, c2⟩ := c
            rw [hf] at hev
            simp only [List.append_cancel_left_eq, List.cons.injEq, Event.move.injEq,
              and_true] at hev
            obtain ⟨h1, h2, h3⟩ := hev
            subst h2 h3
            rw [triesOf_eq] at hc
            refine ⟨me, t, rfl, ht, h1.symm, rfl, ?_⟩
            exact candidate_distance me.unit.row me.unit.col t.unit.row t.unit.col (c1, c2) hc
    · exact absurd (by simp [tickUnit, hme, hact]) hstay

/-- C16 as stated fails in `killBeforeTurn`: against the snapshot the soldier would
attack the mage of p2 next to it, but the mage of p1 kills that mage first, and in
its turn the soldier finds no enemy and does nothing. -/
theorem decision_not_from_snapshot :
    decisionOf (snapshotFrom 0 killBeforeTurn.units)
        ⟨1, "soldier", 5, 7, some 80, some 80, some 15, Team.p1⟩ =
      Decision.attack ⟨2, ⟨2, "mage", 4, 6, some 7, some 45, some 38, Team.p2⟩, true⟩ ∧
    (tickUnit ⟨snapshotFrom 0 killBeforeTurn.units, []⟩ 0).events =
      [Event.attack 0 2 (some 0) (some 38), Event.death 2] ∧
    decisionOf (tickUnit ⟨snapshotFrom 0 killBeforeTurn.units, []⟩ 0).objs
        ⟨1, "soldier", 5, 7, some 80, some 80, some 15, Team.p1⟩ = Decision.idle ∧
    tickUnit (tickUnit ⟨snapshotFrom 0 killBeforeTurn.units, []⟩ 0) 1 =
      tickUnit ⟨snapshotFrom 0 killBeforeTurn.units, []⟩ 0 ∧
    tickEvents killBeforeTurn = [Event.attack 0 2 (some 0) (some 38), Event.death 2] := by
  decide

theorem enemiesOf_live (objs : List Slot) (unit : GameUnit) :
    enemiesOf objs unit =
      (objs.filter (fun s => s.live)).filter (fun s => s.unit.team != unit.team) := by
  unfold enemiesOf
  rw [List.filter_filter]
  congr 1
  funext s
  exact Bool.and_comm _ _

/-- C16, amended: in its turn an object of the snapshot is skipped when no element
of `state.units` has its id; otherwise it does what it decides against the objects
as they are at that moment; its target is an element of `state.units`, never a
removed unit; and the decision is the same for any objects with the same elements
still in `state.units`. -/
theorem decision_on_live_list (st : TickState) (r : Nat) (me : Slot)
    (hme : st.objs.find? (fun s => s.ref == r) = some me) :
    ((liveUnits st.objs).any (fun u => u.id == me.unit.id) = false → tickUnit st r = st) ∧
    ((liveUnits st.objs).any (fun u => u.id == me.unit.id) = true →
      tickUnit st r = applyDecision st r me.unit (decisionOf st.objs me.unit)) ∧
    (∀ t, chooseTarget st.objs me.unit = some t → t ∈ st.objs ∧ t.live = true) ∧
    (∀ objs2 : List Slot, objs2.filter (fun s => s.live) = st.objs.filter (fun s => s.live) →
      decisionOf objs2 me.unit = decisionOf st.objs me.unit) := by
  refine ⟨?_, ?_, ?_, ?_⟩
  · intro h
    simp [tickUnit, hme, h]
  · intro hact
    unfold decisionOf
    cases ht : chooseTarget st.objs me.unit with
    | none => simp [tickUnit, hme, hact, ht, applyDecision]
    | some t =>
      by_cases hadj : isAdj me.unit t.unit = true
      · rw [tickUnit_attack st r me t hme hact ht hadj]
        simp [hadj, applyDecision]
      · rw [tickUnit_move st r me t hme hact ht (by simpa using hadj)]
        simp only [hadj, if_false, Bool.false_eq_true]
        unfold moveStep
        cases hf : (triesOf me.unit t.unit).find? (canStep (liveUnits st.objs)) with
        | none => simp [applyDecision]
        | some c => obtain ⟨c1, c2⟩ := c; simp [applyDecision]
  · intro t ht
    obtain ⟨h1, _, pre, post, h3, _⟩ := chooseTarget_spec st.objs me.unit t ht
    exact ⟨by rw [h3]; simp, h1⟩
  · intro objs2 h
    unfold decisionOf chooseTarget liveUnits
    rw [enemiesOf_live, enemiesOf_live, h]

/-- C16, amended, at the mage of p2 of `killBeforeTurn`, removed before its turn. -/
theorem decision_on_live_list_witness :
    tickUnit (tickUnit ⟨snapshotFrom 0 killBeforeTurn.units, []⟩ 0) 2 =
      tickUnit ⟨snapshotFrom 0 killBeforeTurn.units, []⟩ 0 :=
  (decision_on_live_list (tickUnit ⟨snapshotFrom 0 killBeforeTurn.units, []⟩ 0) 2
    ⟨2, ⟨2, "mage", 4, 6, some 0, some 45, some 38, Team.p2⟩, false⟩ (by decide)).1 (by decide)

/-- The distance after a move on integer cells at the first turn of the tick of
`farApart`: the step from (9, 0) to (8, 0)
brings the soldier from distance 18 to 17. -/
theorem move_shortens_distance_witness :
    ∃ me t, (snapshotFrom 0 farApart.units).find? (fun s => s.ref == 0) = some me ∧
      chooseTarget (snapshotFrom 0 farApart.units) me.unit = some t ∧ 0 = me.unit.id ∧
      (tickUnit ⟨snapshotFrom 0 farApart.units, []⟩ 0).objs =
        setPos (snapshotFrom 0 farApart.units) 0 8 0 ∧
      (((8 : Int) ≠ me.unit.row ∧ (0 : Int) = me.unit.col ∧
          dist { me.unit with row := 8, col := 0 } t.unit + 1 = dist me.unit t.unit) ∨
       ((8 : Int) = me.unit.row ∧ (0 : Int) ≠ me.unit.col ∧
          dist { me.unit with row := 8, col := 0 } t.unit + 1 = dist me.unit t.unit) ∨
       ((8 : Int) ≠ me.unit.row ∧ (0 : Int) ≠ me.unit.col ∧
          dist { me.unit with row := 8, col := 0 } t.unit + 2 = dist me.unit t.unit)) :=
  move_shortens_distance ⟨snapshotFrom 0 farApart.units, []⟩ 0 0 8 0 (by decide)

theorem endRound_phase (s : GameState) :
    ((endRound s).1.p1Stars ≥ 2 ∨ (endRound s).1.p2Stars ≥ 2 ∨ s.round ≥ s.maxRounds →
      phaseAfter (endRound s).2 = Phase.over ∧ (endRound s).1.round = s.round) ∧
    (¬((endRound s).1.p1Stars ≥ 2 ∨ (endRound s).1.p2Stars ≥ 2 ∨ s.round ≥ s.maxRounds) →
      phaseAfter (endRound s).2 = Phase.waiting ∧ (endRound s).1.round = s.round + 1) ∧
    (endRound s).1.maxRounds = s.maxRounds ∧ (endRound s).1.roundActive = false ∧
    s.p1Stars ≤ (endRound s).1.p1Stars ∧ (endRound s).1.p1Stars ≤ s.p1Stars + 1 ∧
    s.p2Stars ≤ (endRound s).1.p2Stars ∧ (endRound s).1.p2Stars ≤ s.p2Stars + 1 := by
  unfold endRound
  simp only []
  split_ifs <;> simp_all [phaseAfter, schedules] <;> omega

theorem gameTick_frame (s : GameState) :
    (gameTick s).1.round = s.round ∧ (gameTick s).1.maxRounds = s.maxRounds ∧
    (gameTick s).1.p1Stars = s.p1Stars ∧ (gameTick s).1.p2Stars = s.p2Stars ∧
    (gameTick s).1.roundActive = s.roundActive ∧ (gameTick s).1.nextId = s.nextId ∧
    (gameTick s).1.timeLeft = s.timeLeft := by
  unfold gameTick
  split_ifs <;> simp

theorem spawn_frame (s : GameState) (playerRole : Team) (typeId : String) (row col : Int) :
    (spawn s playerRole typeId row col).1.round = s.round ∧
    (spawn s playerRole typeId row col).1.maxRounds = s.maxRounds ∧
    (spawn s playerRole typeId row col).1.p1Stars = s.p1Stars ∧
    (spawn s playerRole typeId row col).1.p2Stars = s.p2Stars ∧
    (spawn s playerRole typeId row col).1.roundActive = s.roundActive ∧
    (spawn s playerRole typeId row col).1.timeLeft = s.timeLeft ∧
    (s.roundActive = false → (spawn s playerRole typeId row col).1 = s) := by
  rcases spawn_cases s playerRole typeId row col with e | ⟨unitDef, _, hact, _, _, e⟩
  · rw [e]; simp
  · rw [e]; simp [hact]

theorem lifeInv_endRound (s : GameState) (h : LifeInv Phase.active s) :
    LifeInv (phaseAfter (endRound s).2) (endRound s).1 := by
  obtain ⟨h1, h2, h3, h4, h5, h6, _⟩ := h
  obtain ⟨h61, h62⟩ := h6 (by decide)
  obtain ⟨e1, e2, e3, e4, e5, e6, e7, e8⟩ := endRound_phase s
  by_cases hc : (endRound s).1.p1Stars ≥ 2 ∨ (endRound s).1.p2Stars ≥ 2 ∨ s.round ≥ s.maxRounds
  · obtain ⟨p, q⟩ := e1 hc
    rw [p]
    exact ⟨by rw [e3, h1], by omega, by rw [e3]; omega, by omega, by omega,
      fun hne => absurd rfl hne, fun _ => e4⟩
  · obtain ⟨p, q⟩ := e2 hc
    rw [p]
    refine ⟨by rw [e3, h1], by omega, by rw [e3]; omega, by omega, by omega,
      fun _ => by omega, fun _ => e4⟩

theorem lifeInv_step (p q : Phase × GameState) (op : Op) (h : LifeInv p.1 p.2)
    (hs : lifeStep p op = some q) : LifeInv q.1 q.2 := by
  obtain ⟨ph, s⟩ := p
  cases op with
  | startRound =>
    simp only [lifeStep] at hs
    split_ifs at hs with hp
    simp only [Option.some.injEq] at hs
    subst hs
    simp only [] at hp h
    subst hp
    obtain ⟨h1, h2, h3, h4, h5, h6, _⟩ := h
    exact ⟨h1, h2, h3, h4, h5, fun _ => h6 (by decide), fun hne => absurd rfl hne⟩
  | spawn playerRole typeId row col =>
    simp only [lifeStep, Option.some.injEq] at hs
    subst hs
    obtain ⟨f1, f2, f3, f4, f5, _, _⟩ := spawn_frame s playerRole typeId row col
    unfold LifeInv at *
    simp only [] at h ⊢
    rw [f1, f2, f3, f4, f5]
    exact h
  | gameTick =>
    simp only [lifeStep] at hs
    split_ifs at hs with hp
    simp only [Option.some.injEq] at hs
    subst hs
    obtain ⟨f1, f2, f3, f4, f5, _, _⟩ := gameTick_frame s
    simp only [] at hp h
    subst hp
    unfold LifeInv at *
    simp only [] at h ⊢
    rw [f1, f2, f3, f4, f5]
    exact h
  | timerTick =>
    simp only [lifeStep] at hs
    split_ifs at hs with hp
    simp only [Option.some.injEq] at hs
    subst hs
    simp only [] at hp h
    subst hp
    unfold timerTick
    simp only []
    split_ifs with ht
    · have hinv : LifeInv Phase.active { s with timeLeft := s.timeLeft - 1 } := h
      have := lifeInv_endRound _ hinv
      simpa [phaseAfter, schedules] using this
    · simpa [phaseAfter, schedules] using h
  | endRound =>
    simp only [lifeStep] at hs
    split_ifs at hs with hp
    simp only [Option.some.injEq] at hs
    subst hs
    simp only [] at hp h
    subst hp
    exact lifeInv_endRound s h

theorem lifecycle_inv (ops : List Op) : ∀ p q : Phase × GameState, LifeInv p.1 p.2 →
    lifecycle p ops = some q → LifeInv q.1 q.2 := by
  induction ops with
  | nil =>
    intro p q h hq
    simp only [lifecycle, Option.some.injEq] at hq
    subst hq
    exact h
  | cons op ops ih =>
    intro p q h hq
    simp only [lifecycle] at hq
    cases hs : lifeStep p op with
    | none => rw [hs] at hq; cases hq
    | some p2 =>
      rw [hs] at hq
      exact ih p2 q (lifeInv_step p p2 op h hs) hq

theorem over_terminal (ops : List Op) : ∀ (s : GameState) (q : Phase × GameState),
    s.roundActive = false → lifecycle (Phase.over, s) ops = some q →
    q = (Phase.over, s) ∧ ∀ op ∈ ops, isSpawnOp op = true := by
  induction ops with
  | nil =>
    intro s q _ hq
    simp only [lifecycle, Option.some.injEq] at hq
    exact ⟨hq.symm, fun op hop => by cases hop⟩
  | cons op ops ih =>
    intro s q hact hq
    simp only [lifecycle] at hq
    cases op with
    | spawn playerRole typeId row col =>
      have hsame := (spawn_frame s playerRole typeId row col).2.2.2.2.2.2 hact
      simp only [lifeStep, hsame] at hq
      obtain ⟨h1, h2⟩ := ih s q hact hq
      refine ⟨h1, ?_⟩
      intro op hop
      rcases List.mem_cons.mp hop with rfl | hop
      · rfl
      · exact h2 op hop
    | startRound => simp [lifeStep] at hq
    | gameTick => simp [lifeStep] at hq
    | timerTick => simp [lifeStep] at hq
    | endRound => simp [lifeStep] at hq

/-- C13: in every state reached from `initGameState` by the round lifecycle both
star counts are between 0 and maxRounds and round is between 1 and maxRounds; while
a round runs or a `startRound` is pending both star counts are below 2; ending a
running round leads to the final phase exactly when a star count reaches 2 or
round >= maxRounds, and to a pending `startRound` otherwise; and from the final
phase only SPAWN commands can follow, none of which changes the state. -/
theorem lifecycle_bounds (ops : List Op) (ph : Phase) (s : GameState)
    (h : lifecycle (Phase.waiting, initGameState) ops = some (ph, s)) :
    (0 ≤ s.p1Stars ∧ s.p1Stars ≤ s.maxRounds) ∧ (0 ≤ s.p2Stars ∧ s.p2Stars ≤ s.maxRounds) ∧
    (1 ≤ s.round ∧ s.round ≤ s.maxRounds) ∧
    (ph ≠ Phase.over → s.p1Stars < 2 ∧ s.p2Stars < 2) ∧
    (ph = Phase.active →
      (phaseAfter (endRound s).2 = Phase.over ↔
        (endRound s).1.p1Stars ≥ 2 ∨ (endRound s).1.p2Stars ≥ 2 ∨ s.round ≥ s.maxRounds) ∧
      (phaseAfter (endRound s).2 ≠ Phase.over → phaseAfter (endRound s).2 = Phase.waiting)) ∧
    (ph = Phase.over → ∀ ops2 q, lifecycle (ph, s) ops2 = some q →
      q = (Phase.over, s) ∧ ∀ op ∈ ops2, isSpawnOp op = true) := by
  have hinit : LifeInv Phase.waiting initGameState := by
    unfold LifeInv initGameState
    simp
  obtain ⟨h1, h2, h3, h4, h5, h6, h7⟩ :=
    lifecycle_inv ops (Phase.waiting, initGameState) (ph, s) hinit h
  simp only [] at h1 h2 h3 h4 h5 h6 h7
  refine ⟨⟨Nat.zero_le _, by omega⟩, ⟨Nat.zero_le _, by omega⟩, ⟨h2, h3⟩, h6, ?_, ?_⟩
  · intro _
    obtain ⟨e1, e2, _⟩ := endRound_phase s
    by_cases hc : (endRound s).1.p1Stars ≥ 2 ∨ (endRound s).1.p2Stars ≥ 2 ∨
        s.round ≥ s.maxRounds
    · exact ⟨⟨fun _ => hc, fun _ => (e1 hc).1⟩, fun hne => absurd (e1 hc).1 hne⟩
    · refine ⟨⟨fun hp => ?_, fun hh => absurd hh hc⟩, fun _ => (e2 hc).1⟩
      rw [(e2 hc).1] at hp
      cases hp
  · intro hph ops2 q hq
    subst hph
    exact over_terminal ops2 s q (h7 (by decide)) hq

/-- C13 at two rounds won by p1. -/
theorem lifecycle_bounds_witness :
    lifecycle (Phase.waiting, initGameState) twoWins =
      some (Phase.over, ⟨2, 3, 20, 2, 0,
        [⟨1, "soldier", 6, 6, some 80, some 80, some 15, Team.p1⟩], 2, false⟩) ∧
    ((2 : Nat) ≤ 3 ∧ (0 : Nat) ≤ 3 ∧ (2 : Nat) ≤ 3) :=
  have h := lifecycle_bounds twoWins Phase.over
    ⟨2, 3, 20, 2, 0, [⟨1, "soldier", 6, 6, some 80, some 80, some 15, Team.p1⟩], 2, false⟩
    (by decide)
  ⟨(by decide), h.1.2, h.2.1.2, h.2.2.1.2⟩

/-- C14 fails after a disconnect during a round: before it the round is active and
both intervals run, after it both intervals are cleared while roundActive is still
true, and a SPAWN of the remaining player is accepted. -/
theorem close_leaves_round_active :
    (runWorld initWorld (closeDuringRound.take 6)).1.heap.map
        (fun r => (r.state.map (fun s => s.roundActive), r.timerInt, r.loopInt)) =
      [(some true, true, true)] ∧
    (runWorld initWorld closeDuringRound).1.heap.map
        (fun r => (r.state.map (fun s => s.roundActive), r.timerInt, r.loopInt)) =
      [(some true, false, false)] ∧
    (runWorld initWorld closeDuringRound).1.conns.map (fun c => c.isOpen) = [true, false] ∧
    (stepWorld (runWorld initWorld closeDuringRound).1 (Input.spawn 0 "tank" 5 5)).2 =
      [Out.game 0 (Effect.broadcast
        (Msg.UNIT_SPAWNED ⟨0, "tank", 5, 5, some 220, some 220, Team.p1⟩))] := by
  decide

/-- C15 fails when both players are gone before the first round starts: the cleanup
deletes the room from the Map while the `startRound` timeout is pending; that
timeout then runs, starts both intervals, and the intervals fire. -/
theorem timers_outlive_room :
    (runWorld initWorld closeBeforeFirstRound).1.rooms = [] ∧
    listed (runWorld initWorld closeBeforeFirstRound).1 0 = false ∧
    (runWorld initWorld closeBeforeFirstRound).1.heap.map (fun r => r.pending) =
      [[Callback.startRound, Callback.cleanup]] ∧
    (stepWorld (runWorld initWorld closeBeforeFirstRound).1
        (Input.timeoutFires 0 Callback.startRound)).2 =
      [Out.game 0 (Effect.broadcast (Msg.ROUND_START 1 20 0 0)),
       Out.game 0 Effect.clearTimerInt, Out.game 0 (Effect.setTimerInt 1000),
       Out.game 0 Effect.clearLoopInt, Out.game 0 (Effect.setLoopInt 900)] ∧
    (runWorld (runWorld initWorld closeBeforeFirstRound).1
        [Input.timeoutFires 0 Callback.startRound]).1.heap.map
        (fun r => (r.timerInt, r.loopInt)) = [(true, true)] ∧
    (runWorld (runWorld initWorld closeBeforeFirstRound).1
        [Input.timeoutFires 0 Callback.startRound, Input.loopFires 0,
         Input.timerFires 0]).2.drop 5 =
      [Out.game 0 (Effect.broadcast (Msg.TICK [] [] 20)),
       Out.game 0 (Effect.broadcast (Msg.TIMER 19))] := by
  decide

theorem foldl_applyEffect_frame (es : List Effect) : ∀ room : Room,
    (es.foldl applyEffect room).players = room.players ∧
    (es.foldl applyEffect room).code = room.code ∧
    (es.foldl applyEffect room).state = room.state := by
  induction es with
  | nil => intro room; exact ⟨rfl, rfl, rfl⟩
  | cons e es ih =>
    intro room
    rw [List.foldl_cons]
    obtain ⟨h1, h2, h3⟩ := ih (applyEffect room e)
    rw [h1, h2, h3]
    cases e <;> exact ⟨rfl, rfl, rfl⟩

theorem runOnRoom_players (room : Room) (f : GameState → GameState × List Effect) :
    (runOnRoom room f).1.players = room.players := by
  unfold runOnRoom
  cases room.state with
  | none => rfl
  | some s => exact (foldl_applyEffect_frame _ _).1

theorem playersStep_old (w : World) (r2 : Room) (h : r2 ∈ w.heap) : PlayersStep w r2 :=
  Or.inl ⟨r2, h, rfl⟩

theorem playersStep_set (w : World) (i : Nat) (room new r2 : Room)
    (hroom : w.heap[i]? = some room) (h : r2 ∈ w.heap.set i new)
    (hnew : new.players = room.players) : PlayersStep w r2 := by
  rcases List.mem_or_eq_of_mem_set h with h | h
  · exact playersStep_old w r2 h
  · subst h
    exact Or.inl ⟨room, List.getElem?_mem hroom, hnew⟩

theorem stepWorld_players (w : World) (x : Input) (r2 : Room)
    (h : r2 ∈ (stepWorld w x).1.heap) : PlayersStep w r2 := by
  cases x with
  | connection => exact playersStep_old w r2 h
  | createRoom ws name code =>
    simp only [stepWorld] at h
    cases hc : w.conns[ws]? with
    | none => rw [hc] at h; exact playersStep_old w r2 h
    | some c =>
      rw [hc] at h
      simp only [] at h
      split_ifs at h
      · exact playersStep_old w r2 h
      · rcases List.mem_append.mp h with h | h
        · exact playersStep_old w r2 h
        · simp only [List.mem_singleton] at h
          subst h
          exact Or.inr (Or.inl rfl)
  | joinRoom ws code name =>
    simp only [stepWorld] at h
    cases hc : w.conns[ws]? with
    | none => rw [hc] at h; exact playersStep_old w r2 h
    | some c =>
      rw [hc] at h
      simp only [] at h
      split_ifs at h
      · exact playersStep_old w r2 h
      · cases hl : findRoom w code with
        | none => rw [hl] at h; exact playersStep_old w r2 h
        | some p =>
          obtain ⟨i, room⟩ := p
          rw [hl] at h
          simp only [] at h
          have hr : w.heap[i]? = some room := by
            unfold findRoom at hl
            cases hk : (code.map toUpperCase).bind (fun k => w.rooms.lookup k) with
            | none => rw [hk] at hl; cases hl
            | some j =>
              rw [hk] at hl
              simp only [Option.map_eq_some', Prod.mk.injEq] at hl
              obtain ⟨r, hr, rfl, rfl⟩ := hl
              exact hr
          split_ifs at h with hfull
          · exact playersStep_old w r2 h
          · rcases List.mem_or_eq_of_mem_set h with h | h
            · exact playersStep_old w r2 h
            · subst h
              refine Or.inr (Or.inr ⟨room, List.getElem?_mem hr, by omega, ?_⟩)
              simp
  | spawn ws typeId row col =>
    simp only [stepWorld] at h
    cases hc : w.conns[ws]? with
    | none => rw [hc] at h; exact playersStep_old w r2 h
    | some c =>
      rw [hc] at h
      simp only [] at h
      split_ifs at h
      · exact playersStep_old w r2 h
      · cases hp : c.playerRoom with
        | none => rw [hp] at h; exact playersStep_old w r2 h
        | some i =>
          cases hq : c.playerRole with
          | none => rw [hp, hq] at h; exact playersStep_old w r2 h
          | some role =>
            rw [hp, hq] at h
            simp only [] at h
            cases hr : w.heap[i]? with
            | none => rw [hr] at h; exact playersStep_old w r2 h
            | some room =>
              rw [hr] at h
              simp only [] at h
              exact playersStep_set w i room _ r2 hr h rfl
  | ping ws =>
    simp only [stepWorld] at h
    cases hc : w.conns[ws]? with
    | none => rw [hc] at h; exact playersStep_old w r2 h
    | some c =>
      rw [hc] at h
      simp only [] at h
      split_ifs at h <;> exact playersStep_old w r2 h
  | close ws =>
    simp only [stepWorld] at h
    cases hc : w.conns[ws]? with
    | none => rw [hc] at h; exact playersStep_old w r2 h
    | some c =>
      rw [hc] at h
      simp only [] at h
      split_ifs at h
      · exact playersStep_old w r2 h
      · cases hp : c.playerRoom with
        | none => rw [hp] at h; exact playersStep_old w r2 h
        | some i =>
          rw [hp] at h
          simp only [] at h
          cases hr : w.heap[i]? with
          | none => rw [hr] at h; exact playersStep_old w r2 h
          | some room =>
            rw [hr] at h
            simp only [] at h
            exact playersStep_set w i room _ r2 hr h rfl
  | timerFires i =>
    simp only [stepWorld] at h
    cases hr : w.heap[i]? with
    | none => rw [hr] at h; exact playersStep_old w r2 h
    | some room =>
      rw [hr] at h
      simp only [] at h
      split_ifs at h
      · simp only [withRoom] at h
        exact playersStep_set w i room _ r2 hr h (runOnRoom_players room timerTick)
      · exact playersStep_old w r2 h
  | loopFires i =>
    simp only [stepWorld] at h
    cases hr : w.heap[i]? with
    | none => rw [hr] at h; exact playersStep_old w r2 h
    | some room =>
      rw [hr] at h
      simp only [] at h
      split_ifs at h
      · simp only [withRoom] at h
        exact playersStep_set w i room _ r2 hr h (runOnRoom_players room gameTick)
      · exact playersStep_old w r2 h
  | timeoutFires i cb =>
    simp only [stepWorld] at h
    cases hr : w.heap[i]? with
    | none => rw [hr] at h; exact playersStep_old w r2 h
    | some room =>
      rw [hr] at h
      simp only [] at h
      by_cases hp : room.pending.contains cb = true
      · simp only [hp, Bool.not_true, Bool.false_eq_true, if_false] at h
        cases cb with
        | gameStart =>
          simp only [] at h
          exact playersStep_set w i room _ r2 hr h rfl
        | startRound =>
          simp only [withRoom] at h
          exact playersStep_set w i room _ r2 hr h (by rw [runOnRoom_players])
        | gameOver =>
          simp only [] at h
          exact playersStep_set w i room _ r2 hr h rfl
        | cleanup =>
          simp only [] at h
          split_ifs at h <;> exact playersStep_set w i room _ r2 hr h rfl
      · simp only [hp, Bool.not_false, if_true] at h
        exact playersStep_old w r2 h

theorem players_le_two_run (inputs : List Input) : ∀ w : World,
    (∀ r ∈ w.heap, r.players.length ≤ 2) →
    ∀ r ∈ (runWorld w inputs).1.heap, r.players.length ≤ 2 := by
  induction inputs with
  | nil => intro w h; exact h
  | cons x xs ih =>
    intro w h
    simp only [runWorld]
    apply ih
    intro r2 hr2
    rcases stepWorld_players w x r2 hr2 with ⟨r, hr, e⟩ | e | ⟨r, hr, h1, h2⟩
    · rw [e]; exact h r hr
    · omega
    · omega

/-- The JOIN_ROOM handler on a code that is a string or missing: a JOIN_ROOM message
on an open connection is answered with 'Room not found'
and changes nothing when the Map has no room for the upper-cased code, with 'Room is
full' and no change when that room has 2 or more players, and otherwise appends one
player with role p2, sets the state to `initGameState` and schedules the game start;
no room of a world reached from the empty one has more than 2 players. -/
theorem joinRoom_outcomes (w : World) (ws : Nat) (c : Conn) (code name : Option String)
    (hc : w.conns[ws]? = some c) (hopen : c.isOpen = true) :
    (findRoom w code = none →
      stepWorld w (Input.joinRoom ws code name) =
        (w, [Out.sendTo ws (NetMsg.ERROR "Room not found")])) ∧
    (∀ i room, findRoom w code = some (i, room) → room.players.length ≥ 2 →
      stepWorld w (Input.joinRoom ws code name) =
        (w, [Out.sendTo ws (NetMsg.ERROR "Room is full")])) ∧
    (∀ i room, findRoom w code = some (i, room) → room.players.length < 2 →
      stepWorld w (Input.joinRoom ws code name) =
        ({ w with
            heap := (w.heap.set i { room with
              players := room.players ++ [⟨ws, Team.p2, orDefault name "Player 2"⟩],
              state := some initGameState,
              pending := room.pending ++ [Callback.gameStart] }),
            conns := w.conns.set ws { c with playerRoom := some i, playerRole := some Team.p2 } },
          [Out.sendTo ws (NetMsg.JOINED_ROOM ((code.map toUpperCase).getD "") Team.p2),
           Out.broadcast i (some ws)
             (NetMsg.OPPONENT_JOINED (orDefault name "Player 2"))])) ∧
    (∀ inputs, ∀ r ∈ (runWorld initWorld inputs).1.heap, r.players.length ≤ 2) := by
  refine ⟨?_, ?_, ?_, ?_⟩
  · intro hnone
    simp [stepWorld, hc, hopen, hnone]
  · intro i room hfind hfull
    simp [stepWorld, hc, hopen, hfind, hfull]
  · intro i room hfind hroom
    have : ¬ 2 ≤ room.players.length := by omega
    simp [stepWorld, hc, hopen, hfind, this]
  · intro inputs
    apply players_le_two_run
    intro r hr
    cases hr

/-- The JOIN_ROOM handler at the second connection joining the room "AB23" in lower
case. -/
theorem joinRoom_outcomes_witness :
    findRoom oneRoom (some "ab23") =
      some (0, ⟨"AB23", [⟨0, Team.p1, "Ann"⟩], none, false, false, []⟩) ∧
    stepWorld oneRoom (Input.joinRoom 1 (some "ab23") none) =
      ({ oneRoom with
          heap := [⟨"AB23", [⟨0, Team.p1, "Ann"⟩, ⟨1, Team.p2, "Player 2"⟩],
            some initGameState, false, false, [Callback.gameStart]⟩],
          conns := [⟨some 0, some Team.p1, true⟩, ⟨some 0, some Team.p2, true⟩] },
        [Out.sendTo 1 (NetMsg.JOINED_ROOM "AB23" Team.p2),
         Out.broadcast 0 (some 1) (NetMsg.OPPONENT_JOINED "Player 2")]) :=
  ⟨(by decide),
    (joinRoom_outcomes oneRoom 1 ⟨none, none, true⟩ (some "ab23") none (by decide)
      (by decide)).2.2.1 0 ⟨"AB23", [⟨0, Team.p1, "Ann"⟩], none, false, false, []⟩
      (by decide) (by decide)⟩

/-- C18 fails through the defect of C10: a SPAWN under the inherited name "valueOf"
adds a unit without hp; the tick keeps it and reports it, and its attack leaves the
mage next to it without hp as well; neither is ever removed. -/
theorem spawn_without_hp :
    (∀ u ∈ (startRound initGameState).1.units, HpOk u) ∧
    (spawn (startRound initGameState).1 Team.p1 "valueOf" 5 5).1.units =
      [⟨0, "valueOf", 5, 5, none, none, none, Team.p1⟩] ∧
    inheritedDuel.units = [⟨0, "valueOf", 5, 5, none, none, none, Team.p1⟩,
      ⟨1, "mage", 4, 5, some 45, some 45, some 38, Team.p2⟩] ∧
    (gameTick inheritedDuel).1.units = [⟨0, "valueOf", 5, 5, none, none, none, Team.p1⟩,
      ⟨1, "mage", 4, 5, none, some 45, some 38, Team.p2⟩] ∧
    (ticks 5 inheritedDuel).units = (gameTick inheritedDuel).1.units := by
  refine ⟨?_, by decide, by decide, by decide, by decide⟩
  intro u hu
  cases hu

theorem pairwise_ref_inj (objs : List Slot) (h : objs.Pairwise (fun a b => a.ref ≠ b.ref))
    (a b : Slot) (ha : a ∈ objs) (hb : b ∈ objs) (hab : a.ref = b.ref) : a = b := by
  have hp : objs.Pairwise (fun a b => a.ref = b.ref → a = b) :=
    h.imp (fun hne e => absurd e hne)
  have hsymm : Symmetric (fun a b : Slot => a.ref = b.ref → a = b) :=
    fun x y hxy e => (hxy e.symm).symm
  exact List.Pairwise.forall_of_forall hsymm (fun _ _ _ => rfl) hp ha hb hab

theorem tickUnit_cases_full (st : TickState) (r : Nat) :
    tickUnit st r = st ∨
    (∃ me t, st.objs.find? (fun s => s.ref == r) = some me ∧
      chooseTarget st.objs me.unit = some t ∧ tickUnit st r = attackStep st me.unit t) ∨
    ∃ (unit : GameUnit) (nr nc : Int), FreeCell (liveUnits st.objs) (nr, nc) ∧
      tickUnit st r = ⟨setPos st.objs r nr nc, st.events ++ [Event.move unit.id nr nc]⟩ := by
  cases hme : st.objs.find? (fun s => s.ref == r) with
  | none => left; simp [tickUnit, hme]
  | some me =>
    by_cases hact : (liveUnits st.objs).any (fun u => u.id == me.unit.id) = true
    · cases ht : chooseTarget st.objs me.unit with
      | none => left; simp [tickUnit, hme, hact, ht]
      | some t =>
        by_cases hadj : isAdj me.unit t.unit = true
        · right; left
          exact ⟨me, t, rfl, ht, tickUnit_attack st r me t hme hact ht hadj⟩
        · rw [tickUnit_move st r me t hme hact ht (by simpa using hadj)]
          rcases moveStep_cases st r me.unit t.unit with h | ⟨nr, nc, h1, h2⟩
          · left; exact h
          · right; right; exact ⟨me.unit, nr, nc, h1, h2⟩
    · left; simp [tickUnit, hme, hact]

theorem slotsHpOk_attack (st : TickState) (me t : Slot) (h : SlotsHpOk st.objs)
    (hme : me ∈ st.objs) (ht : t ∈ st.objs) (htl : t.live = true) :
    SlotsHpOk (attackStep st me.unit t).objs := by
  obtain ⟨hp, hall⟩ := h
  obtain ⟨⟨d, hd, hd0⟩, _⟩ := hall me hme
  obtain ⟨_, hth⟩ := hall t ht
  obtain ⟨h0, m, hh, hm, h1, h2⟩ := hth htl
  constructor
  · obtain ⟨f, hf1, hf2⟩ := attackStep_objs st me.unit t
    rw [hf1, List.pairwise_map]
    refine hp.imp ?_
    intro a b hab
    rw [(hf2 a).1, (hf2 b).1]
    exact hab
  · unfold attackStep
    simp only [hh, hd, jsSub, jsMax0]
    by_cases hz : h0 - d ≤ 0
    · have e0 : max 0 (h0 - d) = 0 := by omega
      simp only [e0, jsLeZero, le_refl, decide_True, if_true]
      intro s2 hs2
      simp only [removeId, setHp, List.map_map, List.mem_map, Function.comp] at hs2
      obtain ⟨s, hs, rfl⟩ := hs2
      by_cases hid : s.unit.id = t.unit.id
      · by_cases href : s.ref = t.ref
        · simp only [href, hid, beq_self_eq_true, if_true]
          exact ⟨(hall s hs).1, fun hc => by cases hc⟩
        · simp only [href, hid, beq_self_eq_true, if_true, beq_iff_eq, if_false]
          exact ⟨(hall s hs).1, fun hc => by cases hc⟩
      · have href : s.ref ≠ t.ref := by
          intro e
          exact hid (by rw [pairwise_ref_inj st.objs hp s t hs ht e])
        simp only [href, hid, beq_iff_eq, if_false]
        exact hall s hs
    · have e0 : max 0 (h0 - d) = h0 - d := by omega
      have hn : ¬ (decide (h0 - d ≤ 0) = true) := by simpa using hz
      simp only [e0, jsLeZero, hn, if_false, Bool.false_eq_true]
      intro s2 hs2
      simp only [setHp, List.mem_map] at hs2
      obtain ⟨s, hs, rfl⟩ := hs2
      by_cases href : s.ref = t.ref
      · have est := pairwise_ref_inj st.objs hp s t hs ht href
        subst est
        simp only [beq_self_eq_true, if_true]
        exact ⟨(hall s hs).1, fun _ => ⟨h0 - d, m, rfl, hm, by omega, by omega⟩⟩
      · simp only [href, beq_iff_eq, if_false]
        exact hall s hs

theorem slotsHpOk_setPos (objs : List Slot) (r : Nat) (nr nc : Int) (h : SlotsHpOk objs) :
    SlotsHpOk (setPos objs r nr nc) := by
  obtain ⟨hp, hall⟩ := h
  unfold setPos
  constructor
  · rw [List.pairwise_map]
    refine hp.imp ?_
    intro a b hab
    simp only [apply_ite Slot.ref, ite_self]
    exact hab
  · intro s2 hs2
    obtain ⟨s, hs, rfl⟩ := List.mem_map.mp hs2
    by_cases hr : s.ref = r
    · simp only [hr, beq_self_eq_true, if_true]
      exact hall s hs
    · simp only [hr, beq_iff_eq, if_false]
      exact hall s hs

theorem slotsHpOk_tickUnit (st : TickState) (r : Nat) (h : SlotsHpOk st.objs) :
    SlotsHpOk (tickUnit st r).objs := by
  rcases tickUnit_cases_full st r with e | ⟨me, t, hme, ht, e⟩ | ⟨unit, nr, nc, _, e⟩
  · rw [e]; exact h
  · rw [e]
    obtain ⟨h1, _, pre, post, h3, _⟩ := chooseTarget_spec st.objs me.unit t ht
    exact slotsHpOk_attack st me t h (List.mem_of_find?_eq_some hme) (by rw [h3]; simp) h1
  · rw [e]
    exact slotsHpOk_setPos _ r nr nc h

theorem slotsHpOk_foldl (rs : List Nat) : ∀ st : TickState, SlotsHpOk st.objs →
    SlotsHpOk (rs.foldl tickUnit st).objs := by
  induction rs with
  | nil => intro st h; exact h
  | cons r rs ih =>
    intro st h
    rw [List.foldl_cons]
    exact ih _ (slotsHpOk_tickUnit st r h)

theorem slotsHpOk_snapshotFrom (us : List GameUnit) : ∀ k : Nat, (∀ u ∈ us, HpOk u) →
    SlotsHpOk (snapshotFrom k us) := by
  induction us with
  | nil => intro k _; exact ⟨List.Pairwise.nil, fun s hs => by cases hs⟩
  | cons u us ih =>
    intro k h
    obtain ⟨ih1, ih2⟩ := ih (k + 1) (fun v hv => h v (List.mem_cons_of_mem _ hv))
    simp only [snapshotFrom]
    constructor
    · rw [List.pairwise_cons]
      refine ⟨?_, ih1⟩
      intro s hs
      have := (snapshotFrom_mem us (k + 1) s hs).1
      simp only []
      omega
    · intro s hs
      rcases List.mem_cons.mp hs with rfl | hs
      · obtain ⟨h0, m, d, e1, e2, e3, b1, b2, b3⟩ := h u (List.mem_cons_self _ _)
        exact ⟨⟨d, e3, b3⟩, fun _ => ⟨h0, m, e1, e2, b1, b2⟩⟩
      · exact ih2 s hs

theorem catalog_entries_ok : ∀ e ∈ catalog, 1 ≤ e.2.1 ∧ 0 ≤ e.2.2 := by
  decide

/-- The hp bounds outside the defect of `spawn_without_hp`: if every unit has
numbers 1 <= hp <= maxHp and dmg >= 0, so does every unit after a SPAWN whose typeId
is not an inherited property name, and after `gameTick`. -/
theorem hp_invariant_outside_defect (state : GameState) (h : ∀ u ∈ state.units, HpOk u) :
    (∀ playerRole typeId row col, typeId ∉ objectPrototypeKeys →
      ∀ u ∈ (spawn state playerRole typeId row col).1.units, HpOk u) ∧
    (∀ u ∈ (gameTick state).1.units, HpOk u) := by
  constructor
  · intro playerRole typeId row col hkey u hu
    rcases spawn_cases state playerRole typeId row col with e | ⟨unitDef, hdef, _, _, _, e⟩
    · rw [e] at hu; exact h u hu
    · rw [e] at hu
      simp only [List.mem_append, List.mem_singleton] at hu
      rcases hu with hu | rfl
      · exact h u hu
      · unfold UNITS at hdef
        cases hf : catalog.find? (fun e => e.1 == typeId) with
        | none =>
          rw [hf] at hdef
          have hk : objectPrototypeKeys.contains typeId = false := by
            rw [← Bool.not_eq_true]; simpa using hkey
          simp [hk, hkey] at hdef
        | some en =>
          rw [hf] at hdef
          simp only [Option.some.injEq] at hdef
          subst hdef
          obtain ⟨b1, b2⟩ := catalog_entries_ok en (List.mem_of_find?_eq_some hf)
          exact ⟨en.2.1, en.2.1, en.2.2, rfl, rfl, rfl, b1, le_refl _, b2⟩
  · intro u hu
    unfold gameTick at hu
    split_ifs at hu
    · exact h u hu
    · simp only [] at hu
      obtain ⟨_, hall⟩ := slotsHpOk_foldl ((snapshotFrom 0 state.units).map (fun s => s.ref))
        ⟨snapshotFrom 0 state.units, []⟩ (slotsHpOk_snapshotFrom state.units 0 h)
      unfold liveUnits runTick at hu
      obtain ⟨s, hs, rfl⟩ := List.mem_map.mp hu
      obtain ⟨hs1, hs2⟩ := List.mem_filter.mp hs
      obtain ⟨⟨d, e3, b3⟩, hl⟩ := hall s hs1
      obtain ⟨h0, m, e1, e2, b1, b2⟩ := hl hs2
      exact ⟨h0, m, d, e1, e2, e3, b1, b2, b3⟩

/-- C1 fails on the code: with a tank of p1 at (5, 5), the SPAWN of a soldier by p1 with
row "5" (a string) and col 5 passes the zone test, since `"5" >= 5` holds, and the
test of `isOccupied`, since `"5" === 5` is false; the soldier is appended and two
units are at row 5, col 5.  A tick does the same: in `Untyped.stringRow5` the tank at
(6, 5) steps to (5, 5), where the soldier with row "5" stands. -/
theorem spawn_on_occupied_cell :
    Untyped.cellShared Untyped.digitToNumber Untyped.tankAt55.units = false ∧
    (Untyped.spawn Untyped.digitToNumber Untyped.tankAt55 Team.p1 "soldier"
        (Untyped.JSVal.str "5") (Untyped.JSVal.num ⟨5, 0⟩)).1.units =
      [⟨0, "tank", Untyped.JSVal.num ⟨5, 0⟩, Untyped.JSVal.num ⟨5, 0⟩, some 220, some 220,
          some 12, Team.p1⟩,
       ⟨1, "soldier", Untyped.JSVal.str "5", Untyped.JSVal.num ⟨5, 0⟩, some 80, some 80,
          some 15, Team.p1⟩] ∧
    (Untyped.spawn Untyped.digitToNumber Untyped.tankAt55 Team.p1 "soldier"
        (Untyped.JSVal.str "5") (Untyped.JSVal.num ⟨5, 0⟩)).2 =
      [Untyped.Effect.broadcast (Untyped.Msg.UNIT_SPAWNED
        ⟨1, "soldier", Untyped.JSVal.str "5", Untyped.JSVal.num ⟨5, 0⟩, some 80, some 80,
          Team.p1⟩)] ∧
    Untyped.cellShared Untyped.digitToNumber
      (Untyped.spawn Untyped.digitToNumber Untyped.tankAt55 Team.p1 "soldier"
        (Untyped.JSVal.str "5") (Untyped.JSVal.num ⟨5, 0⟩)).1.units = true ∧
    Untyped.cellShared Untyped.digitToNumber Untyped.stringRow5.units = false ∧
    (Untyped.gameTick Untyped.digitToNumber Untyped.stringRow5).1.units.map
        (fun u => (u.id, u.row, u.col)) =
      [(0, Untyped.JSVal.str "5", Untyped.JSVal.num ⟨5, 0⟩),
       (1, Untyped.JSVal.num ⟨5, 0⟩, Untyped.JSVal.num ⟨5, 0⟩),
       (2, Untyped.JSVal.num ⟨4, 0⟩, Untyped.JSVal.num ⟨5, 0⟩)] ∧
    Untyped.cellShared Untyped.digitToNumber
      (Untyped.gameTick Untyped.digitToNumber Untyped.stringRow5).1.units = true := by
  decide

/-- C6 fails on the code: the SPAWN handler never looks at `col`, so a soldier is
spawned at col 10.5; in its turn the candidate (5, 9.5) passes `nc >= 0 && nc < COLS`
and the soldier steps to col 9.5, which is greater than 9. -/
theorem step_to_half_cell :
    Untyped.halfCol.units =
      [⟨0, "soldier", Untyped.JSVal.num ⟨5, 0⟩, Untyped.JSVal.num ⟨21, 1⟩, some 80, some 80,
          some 15, Team.p1⟩,
       ⟨1, "mage", Untyped.JSVal.num ⟨4, 0⟩, Untyped.JSVal.num ⟨3, 0⟩, some 45, some 45,
          some 38, Team.p2⟩] ∧
    (Untyped.tickUnit Untyped.digitToNumber
        ⟨Untyped.snapshotFrom 0 Untyped.halfCol.units, []⟩ 0).events =
      [Untyped.Event.move 0 (Untyped.JSVal.num ⟨5, 0⟩) (Untyped.JSVal.num ⟨19, 1⟩)] ∧
    (Untyped.gameTick Untyped.digitToNumber Untyped.halfCol).1.units.map
        (fun u => (u.id, u.row, u.col)) =
      [(0, Untyped.JSVal.num ⟨5, 0⟩, Untyped.JSVal.num ⟨19, 1⟩),
       (1, Untyped.JSVal.num ⟨5, 0⟩, Untyped.JSVal.num ⟨3, 0⟩)] ∧
    Untyped.Num.le ⟨19, 1⟩ (Untyped.Num.ofInt 9) = false ∧
    Untyped.Num.lt ⟨19, 1⟩ (Untyped.Num.ofInt 10) = true := by
  decide

/-- C7 fails on the code: a mage is spawned by a SPAWN message without `col`; the
distance of the soldier to it is `NaN`, no comparison of the `reduce` replaces it as
the first enemy, and it is the chosen target although the archer is at distance 1;
the soldier, next to the archer, neither attacks nor moves. -/
theorem target_with_missing_col :
    Untyped.missingCol.units =
      [⟨0, "soldier", Untyped.JSVal.num ⟨5, 0⟩, Untyped.JSVal.num ⟨5, 0⟩, some 80, some 80,
          some 15, Team.p1⟩,
       ⟨1, "mage", Untyped.JSVal.num ⟨0, 0⟩, Untyped.JSVal.undefined, some 45, some 45,
          some 38, Team.p2⟩,
       ⟨2, "archer", Untyped.JSVal.num ⟨4, 0⟩, Untyped.JSVal.num ⟨5, 0⟩, some 55, some 55,
          some 28, Team.p2⟩] ∧
    (Untyped.chooseTarget Untyped.digitToNumber (Untyped.snapshotFrom 0 Untyped.missingCol.units)
        ⟨0, "soldier", Untyped.JSVal.num ⟨5, 0⟩, Untyped.JSVal.num ⟨5, 0⟩, some 80, some 80,
          some 15, Team.p1⟩).map (fun t => t.unit.id) = some 1 ∧
    Untyped.dist Untyped.digitToNumber
      ⟨0, "soldier", Untyped.JSVal.num ⟨5, 0⟩, Untyped.JSVal.num ⟨5, 0⟩, some 80, some 80,
        some 15, Team.p1⟩
      ⟨1, "mage", Untyped.JSVal.num ⟨0, 0⟩, Untyped.JSVal.undefined, some 45, some 45,
        some 38, Team.p2⟩ = none ∧
    Untyped.dist Untyped.digitToNumber
      ⟨0, "soldier", Untyped.JSVal.num ⟨5, 0⟩, Untyped.JSVal.num ⟨5, 0⟩, some 80, some 80,
        some 15, Team.p1⟩
      ⟨2, "archer", Untyped.JSVal.num ⟨4, 0⟩, Untyped.JSVal.num ⟨5, 0⟩, some 55, some 55,
        some 28, Team.p2⟩ = some ⟨1, 0⟩ ∧
    Untyped.isAdj Untyped.digitToNumber
      ⟨0, "soldier", Untyped.JSVal.num ⟨5, 0⟩, Untyped.JSVal.num ⟨5, 0⟩, some 80, some 80,
        some 15, Team.p1⟩
      ⟨2, "archer", Untyped.JSVal.num ⟨4, 0⟩, Untyped.JSVal.num ⟨5, 0⟩, some 55, some 55,
        some 28, Team.p2⟩ = true ∧
    Untyped.tickUnit Untyped.digitToNumber
        ⟨Untyped.snapshotFrom 0 Untyped.missingCol.units, []⟩ 0 =
      ⟨Untyped.snapshotFrom 0 Untyped.missingCol.units, []⟩ := by
  decide

/-- C8 fails on the code: for a soldier spawned with row "7" (a string) the only
candidate is ("7-1", 3), since `"7" + -1` is a string; it fails `nr >= 0`, and the
soldier stays where it is although the cell (6, 3) is on the board and free. -/
theorem string_row_never_steps :
    Untyped.stringRow7.units =
      [⟨0, "soldier", Untyped.JSVal.str "7", Untyped.JSVal.num ⟨3, 0⟩, some 80, some 80,
          some 15, Team.p1⟩,
       ⟨1, "mage", Untyped.JSVal.num ⟨0, 0⟩, Untyped.JSVal.num ⟨3, 0⟩, some 45, some 45,
          some 38, Team.p2⟩] ∧
    Untyped.triesOf Untyped.digitToNumber
      ⟨0, "soldier", Untyped.JSVal.str "7", Untyped.JSVal.num ⟨3, 0⟩, some 80, some 80,
        some 15, Team.p1⟩
      ⟨1, "mage", Untyped.JSVal.num ⟨0, 0⟩, Untyped.JSVal.num ⟨3, 0⟩, some 45, some 45,
        some 38, Team.p2⟩ =
      [(some (Untyped.JSVal.str "7-1"), some (Untyped.JSVal.num ⟨3, 0⟩))] ∧
    Untyped.isOccupied Untyped.stringRow7.units (Untyped.JSVal.num ⟨6, 0⟩)
      (Untyped.JSVal.num ⟨3, 0⟩) = false ∧
    Untyped.tickUnit Untyped.digitToNumber
        ⟨Untyped.snapshotFrom 0 Untyped.stringRow7.units, []⟩ 0 =
      ⟨Untyped.snapshotFrom 0 Untyped.stringRow7.units, []⟩ := by
  decide

/-- C20 fails on the code: with a mage spawned at row 4.5 the soldier at (5, 3) steps
to (4, 3); its distance to the mage, its chosen target, is 3.5 before and after. -/
theorem step_keeps_distance :
    Untyped.halfRow.units =
      [⟨0, "soldier", Untyped.JSVal.num ⟨5, 0⟩, Untyped.JSVal.num ⟨3, 0⟩, some 80, some 80,
          some 15, Team.p1⟩,
       ⟨1, "mage", Untyped.JSVal.num ⟨9, 1⟩, Untyped.JSVal.num ⟨0, 0⟩, some 45, some 45,
          some 38, Team.p2⟩] ∧
    (Untyped.chooseTarget Untyped.digitToNumber (Untyped.snapshotFrom 0 Untyped.halfRow.units)
        ⟨0, "soldier", Untyped.JSVal.num ⟨5, 0⟩, Untyped.JSVal.num ⟨3, 0⟩, some 80, some 80,
          some 15, Team.p1⟩).map (fun t => t.unit.id) = some 1 ∧
    (Untyped.tickUnit Untyped.digitToNumber
        ⟨Untyped.snapshotFrom 0 Untyped.halfRow.units, []⟩ 0).events =
      [Untyped.Event.move 0 (Untyped.JSVal.num ⟨4, 0⟩) (Untyped.JSVal.num ⟨3, 0⟩)] ∧
    Untyped.dist Untyped.digitToNumber
      ⟨0, "soldier", Untyped.JSVal.num ⟨5, 0⟩, Untyped.JSVal.num ⟨3, 0⟩, some 80, some 80,
        some 15, Team.p1⟩
      ⟨1, "mage", Untyped.JSVal.num ⟨9, 1⟩, Untyped.JSVal.num ⟨0, 0⟩, some 45, some 45,
        some 38, Team.p2⟩ = some ⟨7, 1⟩ ∧
    ((Untyped.tickUnit Untyped.digitToNumber
        ⟨Untyped.snapshotFrom 0 Untyped.halfRow.units, []⟩ 0).objs.map
      (fun s => Untyped.dist Untyped.digitToNumber s.unit
        ⟨1, "mage", Untyped.JSVal.num ⟨9, 1⟩, Untyped.JSVal.num ⟨0, 0⟩, some 45, some 45,
          some 38, Team.p2⟩)).head? = some (some ⟨7, 1⟩) := by
  decide

/-- C17 fails on the code: no room has the code 123, and a JOIN_ROOM message whose
`code` is the number 123 makes `msg.code?.toUpperCase()` throw a TypeError outside
any `try`; no 'Room not found' is sent.  The string "123" gets that answer. -/
theorem join_with_number_throws :
    (oneRoom.conns.map (fun c => c.isOpen) = [true, true]) ∧
    findRoom oneRoom (some "123") = none ∧
    Untyped.joinRoom oneRoom 1 (Untyped.JSVal.str "123") none =
      some (oneRoom, [Out.sendTo 1 (NetMsg.ERROR "Room not found")]) ∧
    Untyped.joinRoom oneRoom 1 (Untyped.JSVal.num ⟨123, 0⟩) none = none := by
  decide

theorem untyped_nearestOf_mem (sn : String → Untyped.Number) (unit : Untyped.GameUnit)
    (l : List Untyped.Slot) : ∀ b : Untyped.Slot,
    Untyped.nearestOf sn unit b l = b ∨ Untyped.nearestOf sn unit b l ∈ l := by
  induction l with
  | nil => intro b; left; rfl
  | cons x xs ih =>
    intro b
    have hstep : Untyped.nearestOf sn unit b (x :: xs) =
        Untyped.nearestOf sn unit
          (if Untyped.numLt (Untyped.dist sn unit x.unit) (Untyped.dist sn unit b.unit) then x
            else b) xs := by
      simp [Untyped.nearestOf]
    rw [hstep]
    split_ifs
    · rcases ih x with h | h
      · right; rw [h]; exact List.mem_cons_self _ _
      · right; exact List.mem_cons_of_mem _ h
    · rcases ih b with h | h
      · left; exact h
      · right; exact List.mem_cons_of_mem _ h

theorem untyped_chooseTarget_mem (sn : String → Untyped.Number) (objs : List Untyped.Slot)
    (unit : Untyped.GameUnit) (t : Untyped.Slot)
    (h : Untyped.chooseTarget sn objs unit = some t) :
    t ∈ objs ∧ t.live = true ∧ t.unit.team ≠ unit.team := by
  unfold Untyped.chooseTarget at h
  split at h
  · cases h
  · rename_i e0 rest he
    simp only [Option.some.injEq] at h
    have hmem : t ∈ Untyped.enemiesOf objs unit := by
      rw [he, ← h]
      rcases untyped_nearestOf_mem sn unit (e0 :: rest) e0 with h1 | h1
      · rw [h1]; exact List.mem_cons_self _ _
      · exact h1
    unfold Untyped.enemiesOf at hmem
    obtain ⟨h1, h2⟩ := List.mem_filter.mp hmem
    have h3 : t.live = true ∧ t.unit.team ≠ unit.team := by simpa using h2
    exact ⟨h1, h3.1, h3.2⟩

theorem untyped_tickUnit_attack (sn : String → Untyped.Number) (st : Untyped.TickState)
    (r : Nat) (me t : Untyped.Slot)
    (hme : st.objs.find? (fun s => s.ref == r) = some me)
    (hact : (Untyped.liveUnits st.objs).any (fun u => u.id == me.unit.id) = true)
    (ht : Untyped.chooseTarget sn st.objs me.unit = some t)
    (hadj : Untyped.isAdj sn me.unit t.unit = true) :
    Untyped.tickUnit sn st r = Untyped.attackStep st me.unit t := by
  unfold Untyped.tickUnit
  simp [hme, hact, ht, hadj]

theorem untyped_tickUnit_move (sn : String → Untyped.Number) (st : Untyped.TickState)
    (r : Nat) (me t : Untyped.Slot)
    (hme : st.objs.find? (fun s => s.ref == r) = some me)
    (hact : (Untyped.liveUnits st.objs).any (fun u => u.id == me.unit.id) = true)
    (ht : Untyped.chooseTarget sn st.objs me.unit = some t)
    (hadj : Untyped.isAdj sn me.unit t.unit = false) :
    Untyped.tickUnit sn st r = Untyped.moveStep sn st r me.unit t.unit := by
  unfold Untyped.tickUnit
  simp [hme, hact, ht, hadj]

theorem untyped_liveIds_setHp (objs : List Untyped.Slot) (r : Nat) (hp : JSNum) :
    (Untyped.liveUnits (Untyped.setHp objs r hp)).map (fun u => u.id) =
      (Untyped.liveUnits objs).map (fun u => u.id) := by
  induction objs with
  | nil => rfl
  | cons s ss ih =>
    unfold Untyped.liveUnits Untyped.setHp at ih ⊢
    by_cases h1 : s.ref = r <;> by_cases h2 : s.live = true <;>
      simp [List.filter_cons, h1, h2] <;> simpa using ih

theorem untyped_liveIds_removeId (objs : List Untyped.Slot) (i : Nat) :
    (Untyped.liveUnits (Untyped.removeId objs i)).map (fun u => u.id) =
      ((Untyped.liveUnits objs).map (fun u => u.id)).filter (fun j => j != i) := by
  induction objs with
  | nil => rfl
  | cons s ss ih =>
    unfold Untyped.liveUnits Untyped.removeId at ih ⊢
    by_cases h1 : s.unit.id = i <;> by_cases h2 : s.live = true <;>
      simp [List.filter_cons, h1, h2] <;> simpa using ih

theorem untyped_liveUnits_removeId (objs : List Untyped.Slot) (i : Nat) :
    Untyped.liveUnits (Untyped.removeId objs i) =
      (Untyped.liveUnits objs).filter (fun u => u.id != i) := by
  induction objs with
  | nil => rfl
  | cons s ss ih =>
    unfold Untyped.liveUnits Untyped.removeId at ih ⊢
    by_cases h1 : s.unit.id = i <;> by_cases h2 : s.live = true <;>
      simp [List.filter_cons, h1, h2] <;> simpa using ih

theorem untyped_liveUnits_setHp (objs : List Untyped.Slot) (r : Nat) (hp : JSNum) :
    Untyped.liveUnits (Untyped.setHp objs r hp) =
      (objs.filter (fun s => s.live)).map
        (fun s => if s.ref = r then { s.unit with hp := hp } else s.unit) := by
  induction objs with
  | nil => rfl
  | cons s ss ih =>
    unfold Untyped.liveUnits Untyped.setHp at ih ⊢
    by_cases h1 : s.ref = r <;> by_cases h2 : s.live = true <;>
      simp [List.filter_cons, h1, h2] <;> simpa using ih

theorem untyped_isAdj_facts (sn : String → Untyped.Number) (a b : Untyped.GameUnit)
    (h : Untyped.isAdj sn a b = true) :
    ∃ dr dc : Untyped.Num,
      Untyped.numSub (Untyped.toNumber sn a.row) (Untyped.toNumber sn b.row) = some dr ∧
      Untyped.numSub (Untyped.toNumber sn a.col) (Untyped.toNumber sn b.col) = some dc ∧
      Untyped.Num.le (Untyped.Num.abs dr) (Untyped.Num.ofInt 1) = true ∧
      Untyped.Num.le (Untyped.Num.abs dc) (Untyped.Num.ofInt 1) = true ∧
      (Untyped.strictEq a.row b.row && Untyped.strictEq a.col b.col) = false := by
  unfold Untyped.isAdj at h
  simp only [Bool.and_eq_true, Bool.not_eq_true'] at h
  obtain ⟨⟨h1, h2⟩, h3⟩ := h
  cases hr : Untyped.numSub (Untyped.toNumber sn a.row) (Untyped.toNumber sn b.row) with
  | none => rw [hr] at h1; simp [Untyped.numAbs, Untyped.numLe] at h1
  | some dr =>
    cases hc : Untyped.numSub (Untyped.toNumber sn a.col) (Untyped.toNumber sn b.col) with
    | none => rw [hc] at h2; simp [Untyped.numAbs, Untyped.numLe] at h2
    | some dc =>
      rw [hr] at h1
      rw [hc] at h2
      exact ⟨dr, dc, rfl, rfl, by simpa [Untyped.numAbs, Untyped.numLe] using h1,
        by simpa [Untyped.numAbs, Untyped.numLe] using h2, h3⟩

/-- C9: when the chosen target of an acting unit is adjacent (both coordinate
differences are numbers of absolute value at most 1, and not the same row and col),
the target object gets hp `Math.max(0, hp - dmg)`, which is `max 0 (h - d)` for
numbers `h` and `d`; an attack event with that hp is appended, followed by a death
event exactly when the new hp is 0; no object changes its cell; and `state.units`
after the attack is `state.units` before it with the new hp in the target object
and, exactly when the new hp is 0, without the units of the target's id: then no
unit of that id is left in it, otherwise the target is still in it with the new hp. -/
theorem attack_outcome (sn : String → Untyped.Number) (st : Untyped.TickState) (r : Nat)
    (me t : Untyped.Slot)
    (hme : st.objs.find? (fun s => s.ref == r) = some me)
    (hact : (Untyped.liveUnits st.objs).any (fun u => u.id == me.unit.id) = true)
    (ht : Untyped.chooseTarget sn st.objs me.unit = some t)
    (hadj : Untyped.isAdj sn me.unit t.unit = true) :
    (t ∈ st.objs ∧ t.live = true ∧ t.unit.team ≠ me.unit.team) ∧
    (∃ dr dc : Untyped.Num,
      Untyped.numSub (Untyped.toNumber sn me.unit.row) (Untyped.toNumber sn t.unit.row) =
        some dr ∧
      Untyped.numSub (Untyped.toNumber sn me.unit.col) (Untyped.toNumber sn t.unit.col) =
        some dc ∧
      Untyped.Num.le (Untyped.Num.abs dr) (Untyped.Num.ofInt 1) = true ∧
      Untyped.Num.le (Untyped.Num.abs dc) (Untyped.Num.ofInt 1) = true ∧
      (Untyped.strictEq me.unit.row t.unit.row && Untyped.strictEq me.unit.col t.unit.col) =
        false) ∧
    (∀ h d, t.unit.hp = some h → me.unit.dmg = some d →
      jsMax0 (jsSub t.unit.hp me.unit.dmg) = some (max 0 (h - d))) ∧
    (Untyped.tickUnit sn st r).objs.map (fun s => (s.ref, s.unit.hp)) =
      st.objs.map (fun s => (s.ref,
        if s.ref = t.ref then jsMax0 (jsSub t.unit.hp me.unit.dmg) else s.unit.hp)) ∧
    (Untyped.tickUnit sn st r).events =
      st.events ++ Untyped.Event.attack me.unit.id t.unit.id
          (jsMax0 (jsSub t.unit.hp me.unit.dmg)) me.unit.dmg ::
        (if jsMax0 (jsSub t.unit.hp me.unit.dmg) = some 0 then
          [Untyped.Event.death t.unit.id] else []) ∧
    (Untyped.tickUnit sn st r).objs.map (fun s => (s.ref, s.unit.id, s.unit.row, s.unit.col)) =
      st.objs.map (fun s => (s.ref, s.unit.id, s.unit.row, s.unit.col)) ∧
    Untyped.liveUnits (Untyped.tickUnit sn st r).objs =
      ((st.objs.filter (fun s => s.live)).map (fun s =>
          if s.ref = t.ref then { s.unit with hp := jsMax0 (jsSub t.unit.hp me.unit.dmg) }
          else s.unit)).filter
        (fun u => !(decide (jsMax0 (jsSub t.unit.hp me.unit.dmg) = some 0) &&
          u.id == t.unit.id)) ∧
    (jsMax0 (jsSub t.unit.hp me.unit.dmg) = some 0 →
      ∀ u ∈ Untyped.liveUnits (Untyped.tickUnit sn st r).objs, u.id ≠ t.unit.id) ∧
    (jsMax0 (jsSub t.unit.hp me.unit.dmg) ≠ some 0 →
      { t.unit with hp := jsMax0 (jsSub t.unit.hp me.unit.dmg) } ∈
        Untyped.liveUnits (Untyped.tickUnit sn st r).objs) := by
  have hmem : t ∈ st.objs ∧ t.live = true ∧ t.unit.team ≠ me.unit.team :=
    untyped_chooseTarget_mem sn st.objs me.unit t ht
  have hlist : Untyped.liveUnits (Untyped.tickUnit sn st r).objs =
      ((st.objs.filter (fun s => s.live)).map (fun s =>
          if s.ref = t.ref then { s.unit with hp := jsMax0 (jsSub t.unit.hp me.unit.dmg) }
          else s.unit)).filter
        (fun u => !(decide (jsMax0 (jsSub t.unit.hp me.unit.dmg) = some 0) &&
          u.id == t.unit.id)) := by
    rw [untyped_tickUnit_attack sn st r me t hme hact ht hadj]
    unfold Untyped.attackStep
    simp only []
    by_cases hz : jsMax0 (jsSub t.unit.hp me.unit.dmg) = some 0
    · rw [if_pos ((jsLeZero_max0 _).mpr hz), untyped_liveUnits_removeId,
        untyped_liveUnits_setHp]
      simp [hz, bne]
    · rw [if_neg (fun h => hz ((jsLeZero_max0 _).mp h)), untyped_liveUnits_setHp]
      simp [hz]
  refine ⟨hmem, untyped_isAdj_facts sn me.unit t.unit hadj, ?_, ?_, ?_, ?_, hlist, ?_, ?_⟩
  · intro h d hh hd; simp [hh, hd, jsSub, jsMax0]
  · rw [untyped_tickUnit_attack sn st r me t hme hact ht hadj]
    unfold Untyped.attackStep
    simp only []
    by_cases hz : jsMax0 (jsSub t.unit.hp me.unit.dmg) = some 0
    · rw [if_pos ((jsLeZero_max0 _).mpr hz)]
      simp only [Untyped.removeId, Untyped.setHp, List.map_map]
      apply List.map_congr_left
      intro s _
      simp only [Function.comp]
      by_cases h1 : s.ref = t.ref <;> by_cases h2 : s.unit.id = t.unit.id <;> simp [h1, h2]
    · rw [if_neg (fun h => hz ((jsLeZero_max0 _).mp h))]
      simp only [Untyped.setHp, List.map_map]
      apply List.map_congr_left
      intro s _
      simp only [Function.comp]
      by_cases h1 : s.ref = t.ref <;> simp [h1]
  · rw [untyped_tickUnit_attack sn st r me t hme hact ht hadj]
    unfold Untyped.attackStep
    simp only []
    by_cases hz : jsMax0 (jsSub t.unit.hp me.unit.dmg) = some 0
    · rw [if_pos ((jsLeZero_max0 _).mpr hz), if_pos hz]
      simp
    · rw [if_neg (fun h => hz ((jsLeZero_max0 _).mp h)), if_neg hz]
  · rw [untyped_tickUnit_attack sn st r me t hme hact ht hadj]
    unfold Untyped.attackStep
    simp only []
    by_cases hz : jsMax0 (jsSub t.unit.hp me.unit.dmg) = some 0
    · rw [if_pos ((jsLeZero_max0 _).mpr hz)]
      simp only [Untyped.removeId, Untyped.setHp, List.map_map]
      apply List.map_congr_left
      intro s _
      simp only [Function.comp]
      by_cases h1 : s.ref = t.ref <;> by_cases h2 : s.unit.id = t.unit.id <;> simp [h1, h2]
    · rw [if_neg (fun h => hz ((jsLeZero_max0 _).mp h))]
      simp only [Untyped.setHp, List.map_map]
      apply List.map_congr_left
      intro s _
      simp only [Function.comp]
      by_cases h1 : s.ref = t.ref <;> simp [h1]
  · intro hz u hu
    rw [hlist] at hu
    have := (List.mem_filter.mp hu).2
    simpa [hz] using this
  · intro hz
    rw [hlist]
    refine List.mem_filter.mpr ⟨List.mem_map.mpr ⟨t, List.mem_filter.mpr ⟨hmem.1, ?_⟩, ?_⟩, ?_⟩
    · simpa using hmem.2.1
    · simp
    · simp [hz]
/-- C9 at the first turn of the second tick of two mages facing each other: the mage
of p1 hits the mage of p2, whose hp goes from 7 to 0, and the mage of p2 is no
longer in `state.units`. -/
theorem attack_outcome_witness :
    Untyped.magesAfterTick.units =
      [⟨0, "mage", Untyped.JSVal.num ⟨5, 0⟩, Untyped.JSVal.num ⟨5, 0⟩, some 7, some 45,
          some 38, Team.p1⟩,
       ⟨1, "mage", Untyped.JSVal.num ⟨4, 0⟩, Untyped.JSVal.num ⟨5, 0⟩, some 7, some 45,
          some 38, Team.p2⟩] ∧
    (Untyped.tickUnit Untyped.digitToNumber
        ⟨Untyped.snapshotFrom 0 Untyped.magesAfterTick.units, []⟩ 0).events =
      [Untyped.Event.attack 0 1 (some 0) (some 38), Untyped.Event.death 1] ∧
    Untyped.liveUnits (Untyped.tickUnit Untyped.digitToNumber
        ⟨Untyped.snapshotFrom 0 Untyped.magesAfterTick.units, []⟩ 0).objs =
      [⟨0, "mage", Untyped.JSVal.num ⟨5, 0⟩, Untyped.JSVal.num ⟨5, 0⟩, some 7, some 45,
          some 38, Team.p1⟩] ∧
    (Untyped.gameTick Untyped.digitToNumber Untyped.magesAfterTick).1.units =
      [⟨0, "mage", Untyped.JSVal.num ⟨5, 0⟩, Untyped.JSVal.num ⟨5, 0⟩, some 7, some 45,
          some 38, Team.p1⟩] ∧
    (∀ u ∈ Untyped.liveUnits (Untyped.tickUnit Untyped.digitToNumber
        ⟨Untyped.snapshotFrom 0 Untyped.magesAfterTick.units, []⟩ 0).objs, u.id ≠ 1) :=
  ⟨by decide, by decide, by decide, by decide,
    (attack_outcome Untyped.digitToNumber
      ⟨Untyped.snapshotFrom 0 Untyped.magesAfterTick.units, []⟩ 0
      ⟨0, ⟨0, "mage", Untyped.JSVal.num ⟨5, 0⟩, Untyped.JSVal.num ⟨5, 0⟩, some 7, some 45,
        some 38, Team.p1⟩, true⟩
      ⟨1, ⟨1, "mage", Untyped.JSVal.num ⟨4, 0⟩, Untyped.JSVal.num ⟨5, 0⟩, some 7, some 45,
        some 38, Team.p2⟩, true⟩
      (by decide) (by decide) (by decide) (by decide)).2.2.2.2.2.2.2.1 (by decide)⟩

theorem num_lt_iff (a b : Untyped.Num) : Untyped.Num.lt a b = true ↔ a.val < b.val := by
  unfold Untyped.Num.lt Untyped.Num.val
  rw [decide_eq_true_eq, div_lt_div_iff₀ (by positivity) (by positivity)]
  exact_mod_cast Iff.rfl

theorem num_le_iff (a b : Untyped.Num) : Untyped.Num.le a b = true ↔ a.val ≤ b.val := by
  unfold Untyped.Num.le Untyped.Num.val
  rw [decide_eq_true_eq, div_le_div_iff₀ (by positivity) (by positivity)]
  exact_mod_cast Iff.rfl

theorem num_val_add (a b : Untyped.Num) : (Untyped.Num.add a b).val = a.val + b.val := by
  unfold Untyped.Num.add Untyped.Num.val
  have h1 : (2 : ℚ) ^ a.k ≠ 0 := by positivity
  have h2 : (2 : ℚ) ^ b.k ≠ 0 := by positivity
  push_cast
  rw [pow_add, div_add_div _ _ h1 h2]
  ring

theorem num_val_abs (a : Untyped.Num) : (Untyped.Num.abs a).val = |a.val| := by
  unfold Untyped.Num.abs Untyped.Num.val
  rw [abs_div, abs_of_pos (show (0 : ℚ) < 2 ^ a.k by positivity)]
  simp

theorem num_val_ofInt (n : Int) : (Untyped.Num.ofInt n).val = n := by
  simp [Untyped.Num.ofInt, Untyped.Num.val]
theorem untyped_nearestOf_min (sn : String → Untyped.Number) (unit : Untyped.GameUnit)
    (l : List Untyped.Slot) : ∀ b : Untyped.Slot,
    (∀ e ∈ b :: l, ∃ d, Untyped.dist sn unit e.unit = some d) →
    ∀ e ∈ b :: l, ∀ d dt, Untyped.dist sn unit e.unit = some d →
      Untyped.dist sn unit (Untyped.nearestOf sn unit b l).unit = some dt → dt.val ≤ d.val := by
  induction l with
  | nil =>
    intro b _ e he d dt h1 h2
    have hb : e = b := by simpa using he
    subst hb
    have : Untyped.nearestOf sn unit e [] = e := rfl
    rw [this, h1] at h2
    cases h2
    exact le_refl _
  | cons x xs ih =>
    intro b hall e he d dt h1 h2
    have hstep : Untyped.nearestOf sn unit b (x :: xs) =
        Untyped.nearestOf sn unit
          (if Untyped.numLt (Untyped.dist sn unit x.unit) (Untyped.dist sn unit b.unit) then x
            else b) xs := by
      simp [Untyped.nearestOf]
    rw [hstep] at h2
    obtain ⟨db, hdb⟩ := hall b (List.mem_cons_self _ _)
    obtain ⟨dx, hdx⟩ := hall x (List.mem_cons_of_mem _ (List.mem_cons_self _ _))
    have hxs : ∀ s ∈ xs, ∃ d, Untyped.dist sn unit s.unit = some d :=
      fun s hs => hall s (List.mem_cons_of_mem _ (List.mem_cons_of_mem _ hs))
    by_cases hlt : Untyped.numLt (Untyped.dist sn unit x.unit) (Untyped.dist sn unit b.unit) = true
    · rw [if_pos hlt] at h2
      have hall2 : ∀ s ∈ x :: xs, ∃ d, Untyped.dist sn unit s.unit = some d := by
        intro s hs
        rcases List.mem_cons.mp hs with rfl | hs
        · exact ⟨dx, hdx⟩
        · exact hxs s hs
      rcases List.mem_cons.mp he with rfl | he2
      · have hx := ih x hall2 x (List.mem_cons_self _ _) dx dt hdx h2
        rw [hdx, h1] at hlt
        have := (num_lt_iff dx d).mp (by simpa [Untyped.numLt] using hlt)
        linarith
      · exact ih x hall2 e he2 d dt h1 h2
    · rw [if_neg hlt] at h2
      have hall2 : ∀ s ∈ b :: xs, ∃ d, Untyped.dist sn unit s.unit = some d := by
        intro s hs
        rcases List.mem_cons.mp hs with rfl | hs
        · exact ⟨db, hdb⟩
        · exact hxs s hs
      rcases List.mem_cons.mp he with rfl | he2
      · exact ih e hall2 e (List.mem_cons_self _ _) d dt h1 h2
      · rcases List.mem_cons.mp he2 with rfl | he3
        · have hb := ih b hall2 b (List.mem_cons_self _ _) db dt hdb h2
          rw [h1, hdb] at hlt
          have : ¬ d.val < db.val := fun h =>
            hlt (by simpa [Untyped.numLt] using (num_lt_iff d db).mpr h)
          linarith
        · exact ih b hall2 e (List.mem_cons_of_mem _ he3) d dt h1 h2

theorem untyped_isAdj_dist (sn : String → Untyped.Number) (a b : Untyped.GameUnit)
    (h : Untyped.isAdj sn a b = true) :
    ∃ d, Untyped.dist sn a b = some d ∧ d.val ≤ 2 := by
  obtain ⟨dr, dc, h1, h2, h3, h4, _⟩ := untyped_isAdj_facts sn a b h
  refine ⟨Untyped.Num.add (Untyped.Num.abs dr) (Untyped.Num.abs dc), ?_, ?_⟩
  · unfold Untyped.dist
    rw [h1, h2]
    rfl
  · have e1 := (num_le_iff _ _).mp h3
    have e2 := (num_le_iff _ _).mp h4
    rw [num_val_ofInt] at e1 e2
    rw [num_val_add]
    push_cast at e1 e2
    linarith

theorem untyped_target_adjacent (sn : String → Untyped.Number) (objs : List Untyped.Slot)
    (unit : Untyped.GameUnit) (e : Untyped.Slot)
    (he : e ∈ objs) (hlive : e.live = true) (hteam : e.unit.team ≠ unit.team)
    (hadj : Untyped.isAdj sn unit e.unit = true)
    (hall : ∀ s ∈ objs, s.live = true → s.unit.team ≠ unit.team →
      Untyped.isAdj sn unit s.unit = true ∨
      Untyped.numLt (some (Untyped.Num.ofInt 2))
        (Untyped.numAdd
          (Untyped.numAbs (Untyped.numSub (Untyped.toNumber sn unit.row)
            (Untyped.toNumber sn s.unit.row)))
          (Untyped.numAbs (Untyped.numSub (Untyped.toNumber sn unit.col)
            (Untyped.toNumber sn s.unit.col)))) = true) :
    ∃ t, Untyped.chooseTarget sn objs unit = some t ∧ Untyped.isAdj sn unit t.unit = true := by
  have hen : ∀ s ∈ Untyped.enemiesOf objs unit,
      s ∈ objs ∧ s.live = true ∧ s.unit.team ≠ unit.team := by
    intro s hs
    obtain ⟨h1, h2⟩ := List.mem_filter.mp hs
    have h3 : s.live = true ∧ s.unit.team ≠ unit.team := by simpa using h2
    exact ⟨h1, h3.1, h3.2⟩
  have hsome : ∀ s ∈ Untyped.enemiesOf objs unit, ∃ d, Untyped.dist sn unit s.unit = some d := by
    intro s hs
    obtain ⟨h1, h2, h3⟩ := hen s hs
    rcases hall s h1 h2 h3 with h | h
    · obtain ⟨d, hd, _⟩ := untyped_isAdj_dist sn unit s.unit h
      exact ⟨d, hd⟩
    · change Untyped.numLt _ (Untyped.dist sn unit s.unit) = true at h
      cases hd : Untyped.dist sn unit s.unit with
      | none => rw [hd] at h; simp [Untyped.numLt] at h
      | some d => exact ⟨d, rfl⟩
  have hemem : e ∈ Untyped.enemiesOf objs unit :=
    List.mem_filter.mpr ⟨he, by simp [hlive, hteam]⟩
  unfold Untyped.chooseTarget
  cases hl : Untyped.enemiesOf objs unit with
  | nil => rw [hl] at hemem; cases hemem
  | cons e0 rest =>
    refine ⟨_, rfl, ?_⟩
    rw [hl] at hsome hemem hen
    have htm : Untyped.nearestOf sn unit e0 (e0 :: rest) ∈ e0 :: rest := by
      rcases untyped_nearestOf_mem sn unit (e0 :: rest) e0 with h | h
      · rw [h]; exact List.mem_cons_self _ _
      · exact h
    obtain ⟨dt, hdt⟩ := hsome _ htm
    obtain ⟨de, hde, hde2⟩ := untyped_isAdj_dist sn unit e.unit hadj
    have hmin := untyped_nearestOf_min sn unit (e0 :: rest) e0
      (by
        intro s hs
        rcases List.mem_cons.mp hs with rfl | hs
        · exact hsome _ (List.mem_cons_self _ _)
        · exact hsome s hs)
      e (List.mem_cons_of_mem _ hemem) de dt hde hdt
    obtain ⟨h1, h2, h3⟩ := hen _ htm
    rcases hall _ h1 h2 h3 with h | h
    · exact h
    · change Untyped.numLt _ (Untyped.dist sn unit _) = true at h
      rw [hdt] at h
      have := (num_lt_iff _ _).mp (by simpa [Untyped.numLt] using h)
      rw [num_val_ofInt] at this
      push_cast at this
      linarith

theorem untyped_moveStep_cases (sn : String → Untyped.Number) (st : Untyped.TickState)
    (r : Nat) (unit nearest : Untyped.GameUnit) :
    Untyped.moveStep sn st r unit nearest = st ∨
    ∃ nr nc, Untyped.moveStep sn st r unit nearest =
      ⟨Untyped.setPos st.objs r nr nc, st.events ++ [Untyped.Event.move unit.id nr nc]⟩ := by
  unfold Untyped.moveStep
  cases hf : (Untyped.triesOf sn unit nearest).find?
      (Untyped.canStep sn (Untyped.liveUnits st.objs)) with
  | none => left; rfl
  | some c =>
    obtain ⟨c1, c2⟩ := c
    cases c1 with
    | none => left; rfl
    | some nr =>
      cases c2 with
      | none => left; rfl
      | some nc => right; exact ⟨nr, nc, rfl⟩

/-- C19 as stated fails in `Untyped.diagonalTie`: the archer is diagonally adjacent to
the soldier, but the mage two rows away is equally near and earlier in the list, so
the soldier steps to (4, 5) instead of attacking. -/
theorem diagonal_neighbour_not_attacked :
    Untyped.diagonalTie.units =
      [⟨0, "soldier", Untyped.JSVal.num ⟨5, 0⟩, Untyped.JSVal.num ⟨5, 0⟩, some 80, some 80,
          some 15, Team.p1⟩,
       ⟨1, "mage", Untyped.JSVal.num ⟨3, 0⟩, Untyped.JSVal.num ⟨5, 0⟩, some 45, some 45,
          some 38, Team.p2⟩,
       ⟨2, "archer", Untyped.JSVal.num ⟨4, 0⟩, Untyped.JSVal.num ⟨4, 0⟩, some 55, some 55,
          some 28, Team.p2⟩] ∧
    Untyped.isAdj Untyped.digitToNumber
      ⟨0, "soldier", Untyped.JSVal.num ⟨5, 0⟩, Untyped.JSVal.num ⟨5, 0⟩, some 80, some 80,
        some 15, Team.p1⟩
      ⟨2, "archer", Untyped.JSVal.num ⟨4, 0⟩, Untyped.JSVal.num ⟨4, 0⟩, some 55, some 55,
        some 28, Team.p2⟩ = true ∧
    (Untyped.chooseTarget Untyped.digitToNumber (Untyped.snapshotFrom 0 Untyped.diagonalTie.units)
        ⟨0, "soldier", Untyped.JSVal.num ⟨5, 0⟩, Untyped.JSVal.num ⟨5, 0⟩, some 80, some 80,
          some 15, Team.p1⟩).map (fun t => t.unit.id) = some 1 ∧
    (Untyped.tickUnit Untyped.digitToNumber
        ⟨Untyped.snapshotFrom 0 Untyped.diagonalTie.units, []⟩ 0).events =
      [Untyped.Event.move 0 (Untyped.JSVal.num ⟨4, 0⟩) (Untyped.JSVal.num ⟨5, 0⟩)] ∧
    (Untyped.gameTick Untyped.digitToNumber Untyped.diagonalTie).1.units.map
        (fun u => (u.id, u.row, u.col, u.hp)) =
      [(0, Untyped.JSVal.num ⟨4, 0⟩, Untyped.JSVal.num ⟨5, 0⟩, some 14),
       (1, Untyped.JSVal.num ⟨3, 0⟩, Untyped.JSVal.num ⟨5, 0⟩, some 45),
       (2, Untyped.JSVal.num ⟨4, 0⟩, Untyped.JSVal.num ⟨4, 0⟩, some 55)] := by
  decide

/-- C19, amended: a unit that acts attacks exactly when the enemy that the `reduce`
of line 98 keeps is adjacent to it, and then the tick appends the attack event and
no object changes its cell; in particular, if some enemy in `state.units` is
adjacent to it and every enemy in `state.units` is adjacent to it or has
`|row difference| + |col difference| > 2`, a comparison that holds for numbers only,
then the kept enemy is adjacent and the unit attacks. -/
theorem attacks_iff_target_adjacent (sn : String → Untyped.Number) (st : Untyped.TickState)
    (r : Nat) (me : Untyped.Slot)
    (hme : st.objs.find? (fun s => s.ref == r) = some me)
    (hact : (Untyped.liveUnits st.objs).any (fun u => u.id == me.unit.id) = true) :
    ((∃ t, Untyped.chooseTarget sn st.objs me.unit = some t ∧
        Untyped.isAdj sn me.unit t.unit = true) ↔
      ∃ tid hp dmg rest, (Untyped.tickUnit sn st r).events =
        st.events ++ Untyped.Event.attack me.unit.id tid hp dmg :: rest) ∧
    (∀ t, Untyped.chooseTarget sn st.objs me.unit = some t →
      Untyped.isAdj sn me.unit t.unit = true →
      (Untyped.tickUnit sn st r).events =
        st.events ++ Untyped.Event.attack me.unit.id t.unit.id
            (jsMax0 (jsSub t.unit.hp me.unit.dmg)) me.unit.dmg ::
          (if jsMax0 (jsSub t.unit.hp me.unit.dmg) = some 0 then
            [Untyped.Event.death t.unit.id] else []) ∧
      (Untyped.tickUnit sn st r).objs.map (fun s => (s.ref, s.unit.row, s.unit.col)) =
        st.objs.map (fun s => (s.ref, s.unit.row, s.unit.col))) ∧
    (∀ e ∈ st.objs, e.live = true → e.unit.team ≠ me.unit.team →
      Untyped.isAdj sn me.unit e.unit = true →
      (∀ s ∈ st.objs, s.live = true → s.unit.team ≠ me.unit.team →
        Untyped.isAdj sn me.unit s.unit = true ∨
        Untyped.numLt (some (Untyped.Num.ofInt 2))
          (Untyped.numAdd
            (Untyped.numAbs (Untyped.numSub (Untyped.toNumber sn me.unit.row)
              (Untyped.toNumber sn s.unit.row)))
            (Untyped.numAbs (Untyped.numSub (Untyped.toNumber sn me.unit.col)
              (Untyped.toNumber sn s.unit.col)))) = true) →
      ∃ t, Untyped.chooseTarget sn st.objs me.unit = some t ∧
        Untyped.isAdj sn me.unit t.unit = true ∧
        (Untyped.tickUnit sn st r).events =
          st.events ++ Untyped.Event.attack me.unit.id t.unit.id
              (jsMax0 (jsSub t.unit.hp me.unit.dmg)) me.unit.dmg ::
            (if jsMax0 (jsSub t.unit.hp me.unit.dmg) = some 0 then
              [Untyped.Event.death t.unit.id] else []) ∧
        (Untyped.tickUnit sn st r).objs.map (fun s => (s.ref, s.unit.row, s.unit.col)) =
          st.objs.map (fun s => (s.ref, s.unit.row, s.unit.col))) := by
  have hatt : ∀ t, Untyped.chooseTarget sn st.objs me.unit = some t →
      Untyped.isAdj sn me.unit t.unit = true →
      (Untyped.tickUnit sn st r).events =
        st.events ++ Untyped.Event.attack me.unit.id t.unit.id
            (jsMax0 (jsSub t.unit.hp me.unit.dmg)) me.unit.dmg ::
          (if jsMax0 (jsSub t.unit.hp me.unit.dmg) = some 0 then
            [Untyped.Event.death t.unit.id] else []) ∧
      (Untyped.tickUnit sn st r).objs.map (fun s => (s.ref, s.unit.row, s.unit.col)) =
        st.objs.map (fun s => (s.ref, s.unit.row, s.unit.col)) := by
    intro t ht hadj
    rw [untyped_tickUnit_attack sn st r me t hme hact ht hadj]
    unfold Untyped.attackStep
    simp only []
    by_cases hz : jsMax0 (jsSub t.unit.hp me.unit.dmg) = some 0
    · rw [if_pos ((jsLeZero_max0 _).mpr hz), if_pos hz]
      refine ⟨by simp, ?_⟩
      simp only [Untyped.removeId, Untyped.setHp, List.map_map]
      apply List.map_congr_left
      intro s _
      simp only [Function.comp]
      by_cases h1 : s.ref = t.ref <;> by_cases h2 : s.unit.id = t.unit.id <;> simp [h1, h2]
    · rw [if_neg (fun h => hz ((jsLeZero_max0 _).mp h)), if_neg hz]
      refine ⟨rfl, ?_⟩
      simp only [Untyped.setHp, List.map_map]
      apply List.map_congr_left
      intro s _
      simp only [Function.comp]
      by_cases h1 : s.ref = t.ref <;> simp [h1]
  refine ⟨⟨?_, ?_⟩, hatt, ?_⟩
  · rintro ⟨t, ht, hadj⟩
    exact ⟨_, _, _, _, (hatt t ht hadj).1⟩
  · rintro ⟨tid, hp, dmg, rest, hev⟩
    cases ht : Untyped.chooseTarget sn st.objs me.unit with
    | none =>
      have : Untyped.tickUnit sn st r = st := by simp [Untyped.tickUnit, hme, hact, ht]
      rw [this] at hev
      have := congrArg List.length hev
      simp at this
    | some t =>
      by_cases hadj : Untyped.isAdj sn me.unit t.unit = true
      · exact ⟨t, rfl, hadj⟩
      · rw [untyped_tickUnit_move sn st r me t hme hact ht (by simpa using hadj)] at hev
        rcases untyped_moveStep_cases sn st r me.unit t.unit with h | ⟨nr, nc, h⟩
        · rw [h] at hev
          have := congrArg List.length hev
          simp at this
        · rw [h] at hev
          have := List.append_cancel_left hev
          simp at this
  · intro e he hlive hteam hadj hall
    obtain ⟨t, ht, hadjt⟩ :=
      untyped_target_adjacent sn st.objs me.unit e he hlive hteam hadj hall
    exact ⟨t, ht, hadjt, hatt t ht hadjt⟩

/-- C19, amended, at the first turn of the tick of `Untyped.diagonalNear`: of the two
enemies of the soldier the archer is adjacent and the mage is at distance 3; the
soldier hits the archer, whose hp goes from 55 to 40, and nothing moves. -/
theorem attacks_iff_target_adjacent_witness :
    Untyped.diagonalNear.units =
      [⟨0, "soldier", Untyped.JSVal.num ⟨5, 0⟩, Untyped.JSVal.num ⟨5, 0⟩, some 80, some 80,
          some 15, Team.p1⟩,
       ⟨1, "mage", Untyped.JSVal.num ⟨2, 0⟩, Untyped.JSVal.num ⟨5, 0⟩, some 45, some 45,
          some 38, Team.p2⟩,
       ⟨2, "tank", Untyped.JSVal.num ⟨6, 0⟩, Untyped.JSVal.num ⟨6, 0⟩, some 220, some 220,
          some 12, Team.p1⟩,
       ⟨3, "archer", Untyped.JSVal.num ⟨4, 0⟩, Untyped.JSVal.num ⟨4, 0⟩, some 55, some 55,
          some 28, Team.p2⟩] ∧
    (Untyped.tickUnit Untyped.digitToNumber
        ⟨Untyped.snapshotFrom 0 Untyped.diagonalNear.units, []⟩ 0).events =
      [Untyped.Event.attack 0 3 (some 40) (some 15)] ∧
    (∃ t, Untyped.chooseTarget Untyped.digitToNumber
        (Untyped.snapshotFrom 0 Untyped.diagonalNear.units)
        ⟨0, "soldier", Untyped.JSVal.num ⟨5, 0⟩, Untyped.JSVal.num ⟨5, 0⟩, some 80, some 80,
          some 15, Team.p1⟩ = some t ∧
      Untyped.isAdj Untyped.digitToNumber
        ⟨0, "soldier", Untyped.JSVal.num ⟨5, 0⟩, Untyped.JSVal.num ⟨5, 0⟩, some 80, some 80,
          some 15, Team.p1⟩ t.unit = true ∧
      (Untyped.tickUnit Untyped.digitToNumber
          ⟨Untyped.snapshotFrom 0 Untyped.diagonalNear.units, []⟩ 0).events =
        [] ++ Untyped.Event.attack 0 t.unit.id (jsMax0 (jsSub t.unit.hp (some 15))) (some 15) ::
          (if jsMax0 (jsSub t.unit.hp (some 15)) = some 0 then
            [Untyped.Event.death t.unit.id] else []) ∧
      (Untyped.tickUnit Untyped.digitToNumber
          ⟨Untyped.snapshotFrom 0 Untyped.diagonalNear.units, []⟩ 0).objs.map
          (fun s => (s.ref, s.unit.row, s.unit.col)) =
        (Untyped.snapshotFrom 0 Untyped.diagonalNear.units).map
          (fun s => (s.ref, s.unit.row, s.unit.col))) :=
  ⟨by decide, by decide,
    (attacks_iff_target_adjacent Untyped.digitToNumber
      ⟨Untyped.snapshotFrom 0 Untyped.diagonalNear.units, []⟩ 0
      ⟨0, ⟨0, "soldier", Untyped.JSVal.num ⟨5, 0⟩, Untyped.JSVal.num ⟨5, 0⟩, some 80, some 80,
        some 15, Team.p1⟩, true⟩
      (by decide) (by decide)).2.2
      ⟨3, ⟨3, "archer", Untyped.JSVal.num ⟨4, 0⟩, Untyped.JSVal.num ⟨4, 0⟩, some 55, some 55,
        some 28, Team.p2⟩, true⟩
      (by decide) (by decide) (by decide) (by decide) (by decide)⟩

theorem int_strictEq (a b : Int) :
    Untyped.strictEq (intVal a) (intVal b) = (a == b) := by
  by_cases h : a = b <;> simp [Untyped.strictEq, intVal, Untyped.Num.eq, h]

theorem int_isOccupied (units : List GameUnit) (r c : Int) :
    Untyped.isOccupied (units.map intUnit) (intVal r) (intVal c) =
      isOccupied units r c := by
  induction units with
  | nil => rfl
  | cons u us ih =>
    simp only [Untyped.isOccupied, isOccupied, List.map_cons, List.any_cons] at ih ⊢
    rw [ih]
    simp [intUnit, int_strictEq]

theorem int_dist (sn : String → Untyped.Number) (a b : GameUnit) :
    Untyped.dist sn (intUnit a) (intUnit b) = some ⟨(dist a b : Nat), 0⟩ := by
  simp [Untyped.dist, dist, intUnit, intVal, Untyped.toNumber, Untyped.numSub,
    Untyped.numAbs, Untyped.numAdd, Untyped.Num.sub, Untyped.Num.abs, Untyped.Num.add]

theorem int_isAdj (sn : String → Untyped.Number) (a b : GameUnit) :
    Untyped.isAdj sn (intUnit a) (intUnit b) = isAdj a b := by
  simp only [Untyped.isAdj, isAdj, intUnit, int_strictEq]
  have h : ∀ x : Int, |x| ≤ 1 ↔ x.natAbs ≤ 1 := by
    intro x
    rw [Int.abs_eq_natAbs]
    exact_mod_cast Iff.rfl
  simp [intVal, Untyped.toNumber, Untyped.numSub, Untyped.numAbs, Untyped.numLe,
    Untyped.Num.sub, Untyped.Num.abs, Untyped.Num.le, Untyped.Num.ofInt, h]

theorem int_liveUnits (objs : List Slot) :
    Untyped.liveUnits (objs.map intSlot) = (liveUnits objs).map intUnit := by
  induction objs with
  | nil => rfl
  | cons s ss ih =>
    unfold Untyped.liveUnits liveUnits at ih ⊢
    by_cases h : s.live = true <;> simp [List.filter_cons, intSlot, h] <;> simpa [intSlot] using ih

theorem int_enemiesOf (objs : List Slot) (unit : GameUnit) :
    Untyped.enemiesOf (objs.map intSlot) (intUnit unit) = (enemiesOf objs unit).map intSlot := by
  induction objs with
  | nil => rfl
  | cons s ss ih =>
    unfold Untyped.enemiesOf enemiesOf at ih ⊢
    by_cases h : s.live = true <;> by_cases h2 : s.unit.team = unit.team <;>
      simp [List.filter_cons, intSlot, intUnit, h, h2] <;> simpa [intSlot, intUnit] using ih

theorem int_nearestOf (sn : String → Untyped.Number) (unit : GameUnit) (l : List Slot) :
    ∀ b : Slot, Untyped.nearestOf sn (intUnit unit) (intSlot b) (l.map intSlot) =
      intSlot (nearestOf unit b l) := by
  induction l with
  | nil => intro b; rfl
  | cons x xs ih =>
    intro b
    have h1 : Untyped.nearestOf sn (intUnit unit) (intSlot b) ((x :: xs).map intSlot) =
        Untyped.nearestOf sn (intUnit unit)
          (if Untyped.numLt (Untyped.dist sn (intUnit unit) (intSlot x).unit)
              (Untyped.dist sn (intUnit unit) (intSlot b).unit) then intSlot x
            else intSlot b) (xs.map intSlot) := by
      simp [Untyped.nearestOf]
    have h2 : nearestOf unit b (x :: xs) =
        nearestOf unit (if dist unit x.unit < dist unit b.unit then x else b) xs := by
      simp [nearestOf]
    have h3 : Untyped.numLt (Untyped.dist sn (intUnit unit) (intSlot x).unit)
        (Untyped.dist sn (intUnit unit) (intSlot b).unit) =
        decide (dist unit x.unit < dist unit b.unit) := by
      simp only [intSlot, int_dist, Untyped.numLt, Untyped.Num.lt]
      simp
    rw [h1, h2, h3]
    by_cases h : dist unit x.unit < dist unit b.unit
    · simp only [h, decide_True, if_true]; exact ih x
    · simp only [h, decide_False, if_false, Bool.false_eq_true]; exact ih b

theorem int_chooseTarget (sn : String → Untyped.Number) (objs : List Slot) (unit : GameUnit) :
    Untyped.chooseTarget sn (objs.map intSlot) (intUnit unit) =
      (chooseTarget objs unit).map intSlot := by
  unfold Untyped.chooseTarget chooseTarget
  rw [int_enemiesOf]
  cases h : enemiesOf objs unit with
  | nil => rfl
  | cons e0 rest =>
    have := int_nearestOf sn unit (e0 :: rest) e0
    simpa using this

theorem int_plusStep (sn : String → Untyped.Number) (r d : Int) :
    Untyped.plusStep sn (intVal r) d = some (intVal (r + d)) := by
  simp [Untyped.plusStep, intVal, Untyped.toNumber, Untyped.numAdd, Untyped.Num.add,
    Untyped.Num.ofInt]

theorem int_sign (sn : String → Untyped.Number) (a b : Int) :
    Untyped.numSign (Untyped.numSub (Untyped.toNumber sn (intVal a))
      (Untyped.toNumber sn (intVal b))) = some (Int.sign (a - b)) := by
  simp [Untyped.numSign, Untyped.numSub, Untyped.toNumber, intVal, Untyped.Num.sub,
    Untyped.Num.sign]

theorem int_triesOf (sn : String → Untyped.Number) (unit nearest : GameUnit) :
    Untyped.triesOf sn (intUnit unit) (intUnit nearest) =
      (triesOf unit nearest).map (fun p => (some (intVal p.1), some (intVal p.2))) := by
  unfold Untyped.triesOf triesOf
  simp only [intUnit, int_sign, Untyped.truthy, Option.getD_some, int_plusStep]
  by_cases h1 : (nearest.row - unit.row).sign = 0 <;>
    by_cases h2 : (nearest.col - unit.col).sign = 0 <;> simp [h1, h2]

theorem int_canStep (sn : String → Untyped.Number) (units : List GameUnit) (p : Int × Int) :
    Untyped.canStep sn (units.map intUnit) (some (intVal p.1), some (intVal p.2)) =
      canStep units p := by
  simp only [Untyped.canStep, canStep, int_isOccupied]
  simp [intVal, Untyped.toNumber, Untyped.numLe, Untyped.numLt, Untyped.Num.le, Untyped.Num.lt,
    Untyped.Num.ofInt]

theorem int_find_tries (sn : String → Untyped.Number) (units : List GameUnit)
    (l : List (Int × Int)) :
    (l.map (fun p => (some (intVal p.1), some (intVal p.2)))).find?
        (Untyped.canStep sn (units.map intUnit)) =
      (l.find? (canStep units)).map (fun p => (some (intVal p.1), some (intVal p.2))) := by
  induction l with
  | nil => rfl
  | cons p ps ih =>
    simp only [List.map_cons, List.find?_cons, int_canStep]
    cases canStep units p with
    | true => rfl
    | false => simpa using ih

theorem int_setPos (objs : List Slot) (r : Nat) (nr nc : Int) :
    Untyped.setPos (objs.map intSlot) r (intVal nr) (intVal nc) =
      (setPos objs r nr nc).map intSlot := by
  simp only [Untyped.setPos, setPos, List.map_map]
  apply List.map_congr_left
  intro s _
  by_cases h : s.ref = r <;> simp [intSlot, intUnit, h]

theorem int_setHp (objs : List Slot) (r : Nat) (hp : JSNum) :
    Untyped.setHp (objs.map intSlot) r hp = (setHp objs r hp).map intSlot := by
  simp only [Untyped.setHp, setHp, List.map_map]
  apply List.map_congr_left
  intro s _
  by_cases h : s.ref = r <;> simp [intSlot, intUnit, h]

theorem int_removeId (objs : List Slot) (i : Nat) :
    Untyped.removeId (objs.map intSlot) i = (removeId objs i).map intSlot := by
  simp only [Untyped.removeId, removeId, List.map_map]
  apply List.map_congr_left
  intro s _
  by_cases h : s.unit.id = i <;> simp [intSlot, intUnit, h]

theorem int_attackStep (st : TickState) (unit : GameUnit) (t : Slot) :
    Untyped.attackStep (intTick st) (intUnit unit) (intSlot t) =
      intTick (attackStep st unit t) := by
  unfold Untyped.attackStep attackStep
  simp only [intTick, intSlot, intUnit, int_setHp]
  by_cases h : jsLeZero (jsMax0 (jsSub t.unit.hp unit.dmg)) = true
  · simp [h, int_removeId, intEvent]
  · simp [h, intEvent]

theorem int_moveStep (sn : String → Untyped.Number) (st : TickState) (r : Nat)
    (unit nearest : GameUnit) :
    Untyped.moveStep sn (intTick st) r (intUnit unit) (intUnit nearest) =
      intTick (moveStep st r unit nearest) := by
  unfold Untyped.moveStep moveStep
  have h : (intTick st).objs = st.objs.map intSlot := rfl
  rw [h, int_liveUnits, int_triesOf, int_find_tries]
  cases (triesOf unit nearest).find? (canStep (liveUnits st.objs)) with
  | none => rfl
  | some p =>
    obtain ⟨nr, nc⟩ := p
    simp [intTick, int_setPos, intEvent, intUnit]

theorem int_find_ref (objs : List Slot) (r : Nat) :
    (objs.map intSlot).find? (fun s => s.ref == r) =
      (objs.find? (fun s => s.ref == r)).map intSlot := by
  induction objs with
  | nil => rfl
  | cons s ss ih =>
    by_cases h : s.ref = r
    · simp [List.find?_cons, intSlot, h]
    · simp only [List.map_cons, List.find?_cons]
      have h1 : ((intSlot s).ref == r) = false := by simpa [intSlot] using h
      have h2 : (s.ref == r) = false := by simpa using h
      rw [h1, h2]
      exact ih

theorem int_any_id (units : List GameUnit) (i : Nat) :
    ((units.map intUnit).any (fun u => u.id == i)) = units.any (fun u => u.id == i) := by
  induction units with
  | nil => rfl
  | cons u us ih =>
    simp only [List.map_cons, List.any_cons] at ih ⊢
    rw [ih]
    rfl

/-- The turn of a unit when every row and col is an integer: the code on the values
of a message does what the definitions with integer cells do. -/
theorem int_tickUnit (sn : String → Untyped.Number) (st : TickState) (r : Nat) :
    Untyped.tickUnit sn (intTick st) r = intTick (tickUnit st r) := by
  unfold Untyped.tickUnit tickUnit
  have h : (intTick st).objs = st.objs.map intSlot := rfl
  rw [h, int_find_ref, int_liveUnits]
  cases hme : st.objs.find? (fun s => s.ref == r) with
  | none => rfl
  | some me =>
    simp only [Option.map_some']
    have hu : (intSlot me).unit = intUnit me.unit := rfl
    have hid : (intUnit me.unit).id = me.unit.id := rfl
    rw [hu, hid, int_any_id, int_chooseTarget]
    by_cases hact : (liveUnits st.objs).any (fun u => u.id == me.unit.id) = true
    · simp only [hact, Bool.not_true, Bool.false_eq_true, if_false]
      cases ht : chooseTarget st.objs me.unit with
      | none => rfl
      | some t =>
        simp only [Option.map_some']
        have hut : (intSlot t).unit = intUnit t.unit := rfl
        rw [hut, int_isAdj]
        by_cases hadj : isAdj me.unit t.unit = true
        · simp only [hadj, if_true]
          exact int_attackStep st me.unit t
        · simp only [hadj, if_false, Bool.false_eq_true]
          exact int_moveStep sn st r me.unit t.unit
    · simp [hact]

theorem int_foldl_tickUnit (sn : String → Untyped.Number) (rs : List Nat) :
    ∀ st : TickState, rs.foldl (Untyped.tickUnit sn) (intTick st) =
      intTick (rs.foldl tickUnit st) := by
  induction rs with
  | nil => intro st; rfl
  | cons r rs ih =>
    intro st
    simp only [List.foldl_cons]
    rw [int_tickUnit, ih]

theorem int_snapshotFrom (us : List GameUnit) : ∀ k : Nat,
    Untyped.snapshotFrom k (us.map intUnit) = (snapshotFrom k us).map intSlot := by
  induction us with
  | nil => intro k; rfl
  | cons u us ih =>
    intro k
    simp only [List.map_cons, Untyped.snapshotFrom, snapshotFrom, ih]
    rfl

theorem int_runTick (sn : String → Untyped.Number) (snapshot : List Slot) :
    Untyped.runTick sn (snapshot.map intSlot) = intTick (runTick snapshot) := by
  unfold Untyped.runTick runTick
  have h : (⟨snapshot.map intSlot, []⟩ : Untyped.TickState) = intTick ⟨snapshot, []⟩ := rfl
  have h2 : (snapshot.map intSlot).map (fun s => s.ref) = snapshot.map (fun s => s.ref) := by
    simp [List.map_map, Function.comp, intSlot]
  rw [h, h2, int_foldl_tickUnit]

/-- A tick when every row and col is an integer: the state and the events of the code
on the values of a message are those of the definitions with integer cells. -/
theorem int_gameTick (sn : String → Untyped.Number) (state : GameState) :
    (Untyped.gameTick sn (intState state)).1 = intState (gameTick state).1 ∧
    (state.roundActive = true →
      (Untyped.runTick sn (Untyped.snapshotFrom 0 (intState state).units)).events =
        (tickEvents state).map intEvent) := by
  constructor
  · unfold Untyped.gameTick gameTick
    have h : (intState state).roundActive = state.roundActive := rfl
    have hu : (intState state).units = state.units.map intUnit := rfl
    rw [h, hu]
    by_cases ha : state.roundActive = true
    · simp only [ha, Bool.not_true, Bool.false_eq_true, if_false]
      rw [int_snapshotFrom, int_runTick]
      simp only [intTick, int_liveUnits]
      rfl
    · simp [ha]
  · intro ha
    have hu : (intState state).units = state.units.map intUnit := rfl
    rw [hu, int_snapshotFrom, int_runTick]
    simp [tickEvents, ha, intTick]

/-- A SPAWN message whose row and col are integers, in a state where every row and col
is an integer: the state after the handler is that of the definition with integer
cells, and so is the denial. -/
theorem int_spawn (sn : String → Untyped.Number) (state : GameState) (playerRole : Team)
    (typeId : String) (row col : Int) :
    (Untyped.spawn sn (intState state) playerRole typeId (intVal row) (intVal col)).1 =
      intState (spawn state playerRole typeId row col).1 ∧
    ((Untyped.spawn sn (intState state) playerRole typeId (intVal row) (intVal col)).2 = [] ↔
      (spawn state playerRole typeId row col).2 = []) := by
  unfold Untyped.spawn spawn
  have h : (intState state).roundActive = state.roundActive := rfl
  have hu : (intState state).units = state.units.map intUnit := rfl
  rw [h, hu, int_isOccupied]
  by_cases ha : state.roundActive = true
  · simp only [ha, Bool.not_true, Bool.false_eq_true, if_false]
    cases hd : UNITS typeId with
    | none => simp
    | some unitDef =>
      simp only []
      have hz : ((playerRole == Team.p1 &&
            Untyped.numLe (some (Untyped.Num.ofInt 5)) (Untyped.toNumber sn (intVal row))) ||
          (playerRole == Team.p2 &&
            Untyped.numLt (Untyped.toNumber sn (intVal row)) (some (Untyped.Num.ofInt 5)))) =
          ((playerRole == Team.p1 && decide (row ≥ 5)) ||
            (playerRole == Team.p2 && decide (row < 5))) := by
        simp [intVal, Untyped.toNumber, Untyped.numLe, Untyped.numLt, Untyped.Num.le,
          Untyped.Num.lt, Untyped.Num.ofInt]
      rw [hz]
      by_cases hv : ((playerRole == Team.p1 && decide (row ≥ 5)) ||
            (playerRole == Team.p2 && decide (row < 5))) = true
      · simp only [hv, Bool.not_true, Bool.false_eq_true, if_false]
        by_cases ho : isOccupied state.units row col = true
        · simp [ho]
        · simp [ho, intState, intUnit]
      · simp [hv]
  · simp [ha]

end ArenaBattle
